import Mathlib

/-!
# local-ai-tool-proxy: provider parsers, text normaliser and dispatcher

A shallow embedding of `internal/provider` (`CleanResponse`, the three parsers and the
`Generate` methods of the Claude, Gemini and Continue adapters) and `internal/handler`
(`HandlePrompt`, `HandleProviders`, `HandleHealth`, `HandleOpenAPI`).

Go strings are modelled as lists of runes (`List Char`).  Both `regexp` and
`strings.TrimSpace` decode their input rune by rune, so this is the view the code
itself takes of its input.
-/

namespace LocalAIToolProxy

/-! ## Strings -/

/-- A Go string, as the sequence of runes the library functions decode from it. -/
abbrev GoString := List Char

/-- The rune test `unicode.IsSpace`: the Latin-1 spaces
`'\t' '\n' '\v' '\f' '\r' ' ' U+0085 U+00A0` and the runes of category Z or
property Pattern_White_Space outside Latin-1. -/
def isSpace (c : Char) : Bool :=
  let n := c.toNat
  (0x09 ≤ n && n ≤ 0x0D) || n == 0x20 || n == 0x85 || n == 0xA0 || n == 0x1680 ||
  (0x2000 ≤ n && n ≤ 0x200A) || n == 0x2028 || n == 0x2029 || n == 0x202F ||
  n == 0x205F || n == 0x3000

/-- Go `strings.TrimSpace`: drops the leading and the trailing runes that satisfy
`unicode.IsSpace`. -/
def TrimSpace (s : GoString) : GoString :=
  (s.dropWhile isSpace).rdropWhile isSpace

/-! ## Regular expressions (Go `regexp`, leftmost-first semantics) -/

/-- The Perl class `\w` of RE2 syntax: `[0-9A-Za-z_]`. -/
def isWordChar (c : Char) : Bool :=
  let n := c.toNat
  (0x30 ≤ n && n ≤ 0x39) || (0x41 ≤ n && n ≤ 0x5A) || (0x61 ≤ n && n ≤ 0x7A) || n == 0x5F

/-- The Perl class `\s` of RE2 syntax: `[\t\n\f\r ]` (the vertical tab is not in it). -/
def isReSpace (c : Char) : Bool :=
  let n := c.toNat
  n == 0x09 || n == 0x0A || n == 0x0C || n == 0x0D || n == 0x20

/-- The class `.` under the flag `(?s)`: every rune, the newline included. -/
def isAnyChar (_ : Char) : Bool := true

/-- The fragment of `regexp/syntax` the program uses.  Repetition is applied to
character classes only, which is all the pattern of `CleanResponse` needs. -/
inductive Regex where
  | literal (s : GoString)
  | charClass (p : Char → Bool)
  | star (greedy : Bool) (p : Char → Bool)
  | plus (greedy : Bool) (p : Char → Bool)
  | quest (r : Regex)
  | capture (r : Regex)
  | concat (a b : Regex)

/-- The outcome of one match attempt: the input left after the match and the text of
capture group 1 when the group took part. -/
structure MatchResult where
  rest : GoString
  group1 : Option GoString
deriving DecidableEq, Repr

/-- Strips a literal from the front of the input. -/
def stripLiteral : GoString → GoString → Option GoString
  | [], s => some s
  | _ :: _, [] => none
  | a :: as, c :: cs => if a = c then stripLiteral as cs else none

/-- The greedy `p*` followed by the continuation `k`: the longest run first, then
shorter ones. -/
def greedyStar (p : Char → Bool) (k : GoString → Option MatchResult) :
    GoString → Option MatchResult
  | [] => k []
  | c :: cs =>
    if p c then
      match greedyStar p k cs with
      | some r => some r
      | none => k (c :: cs)
    else k (c :: cs)

/-- The lazy `p*?` followed by the continuation `k`: the empty run first, then longer
ones. -/
def lazyStar (p : Char → Bool) (k : GoString → Option MatchResult) :
    GoString → Option MatchResult
  | [] => k []
  | c :: cs =>
    match k (c :: cs) with
    | some r => some r
    | none => if p c then lazyStar p k cs else none

/-- One rune of class `p`, then the continuation. -/
def oneChar (p : Char → Bool) (k : GoString → Option MatchResult) :
    GoString → Option MatchResult
  | [] => none
  | c :: cs => if p c then k cs else none

/-- A backtracking matcher in continuation-passing style.  `run r k s` matches `r` at the
front of `s` and hands the remaining input to `k`; alternatives are tried in the
priority order of a backtracking engine, which is the match Go's `regexp` reports. -/
def Regex.run : Regex → (GoString → Option MatchResult) → GoString → Option MatchResult
  | .literal l, k, s =>
    match stripLiteral l s with
    | some rest => k rest
    | none => none
  | .charClass p, k, s => oneChar p k s
  | .star true p, k, s => greedyStar p k s
  | .star false p, k, s => lazyStar p k s
  | .plus true p, k, s => oneChar p (greedyStar p k) s
  | .plus false p, k, s => oneChar p (lazyStar p k) s
  | .quest r, k, s =>
    match r.run k s with
    | some m => some m
    | none => k s
  | .capture r, k, s =>
    r.run (fun rest =>
      match k rest with
      | some m => some { m with group1 := some (s.take (s.length - rest.length)) }
      | none => none) s
  | .concat a b, k, s => a.run (b.run k) s

/-- A match of `r` at the very front of `s`. -/
def Regex.matchHere (r : Regex) (s : GoString) : Option MatchResult :=
  r.run (fun rest => some { rest := rest, group1 := none }) s

/-- Go `(*Regexp).FindStringSubmatch`: the leftmost match, as the list of the whole match
and of group 1 (the empty string when the group did not take part); `none` is Go's
`nil` slice. -/
def Regex.FindStringSubmatch (r : Regex) : GoString → Option (List GoString)
  | [] =>
    match r.matchHere [] with
    | some m => some [[], m.group1.getD []]
    | none => none
  | c :: cs =>
    match r.matchHere (c :: cs) with
    | some m => some [(c :: cs).take ((c :: cs).length - m.rest.length), m.group1.getD []]
    | none => r.FindStringSubmatch cs

/-- Three backticks. -/
def fence : GoString := ['\x60', '\x60', '\x60']

/-- The pattern compiled in `CleanResponse`:
`(?s)` three backticks `(?:\w+)?\s*(.+?)\s*` three backticks. -/
def codeBlockRegex : Regex :=
  .concat (.literal fence)
  (.concat (.quest (.plus true isWordChar))
  (.concat (.star true isReSpace)
  (.concat (.capture (.plus false isAnyChar))
  (.concat (.star true isReSpace)
  (.literal fence)))))

/-- The continuation at the end of the pattern: the match is complete. -/
def matchEnd : GoString → Option MatchResult :=
  fun rest => some { rest := rest, group1 := none }

/-- The tail of the code-block pattern after the capture group: `\s*` and the closing
three backticks. -/
def closeFence : GoString → Option MatchResult :=
  greedyStar isReSpace (fun s =>
    match stripLiteral fence s with
    | some rest => matchEnd rest
    | none => none)

/-- The capture group of the code-block pattern and what follows it, on the input `s`. -/
def captureBody (s : GoString) : Option MatchResult :=
  oneChar isAnyChar (lazyStar isAnyChar (fun rest =>
    match closeFence rest with
    | some m => some { m with group1 := some (s.take (s.length - rest.length)) }
    | none => none)) s

/-- The code-block pattern after the opening three backticks: the optional language
tag, `\s*`, the capture group and the closing fence. -/
def afterOpenFence (s : GoString) : Option MatchResult :=
  match oneChar isWordChar (greedyStar isWordChar (greedyStar isReSpace captureBody)) s with
  | some m => some m
  | none => greedyStar isReSpace captureBody s

/-- A string holds a fence pair when it holds three backticks, at least one rune, and
three backticks again. -/
def HasFencePair (s : GoString) : Prop :=
  ∃ a b c : GoString, s = a ++ fence ++ b ++ fence ++ c ∧ b ≠ []

/-! ## `internal/provider/provider.go` -/

/-- Go `CleanResponse`: when the code-block pattern matches, the text of group 1
replaces the string; the result is trimmed. -/
def CleanResponse (s : GoString) : GoString :=
  match codeBlockRegex.FindStringSubmatch s with
  | some (_ :: g :: _) => TrimSpace g
  | _ => TrimSpace s

/-! ## JSON text (Go `encoding/json`, scanner and `unquote`) -/

/-- A JSON value; a number keeps its literal, an object keeps its members in source
order, duplicates included. -/
inductive JSON where
  | null
  | bool (b : Bool)
  | number (lit : GoString)
  | string (s : GoString)
  | array (elems : List JSON)
  | object (members : List (GoString × JSON))

/-- The white space of JSON text (`isSpace` of `scanner.go`). -/
def isJSONSpace (c : Char) : Bool :=
  c == ' ' || c == '\t' || c == '\r' || c == '\n'

/-- The value of a hexadecimal digit. -/
def hexVal (c : Char) : Option Nat :=
  let n := c.toNat
  if 0x30 ≤ n ∧ n ≤ 0x39 then some (n - 0x30)
  else if 0x61 ≤ n ∧ n ≤ 0x66 then some (n - 0x61 + 10)
  else if 0x41 ≤ n ∧ n ≤ 0x46 then some (n - 0x41 + 10)
  else none

/-- Go `getu4` on the four digits after a backslash and `u`. -/
def getu4 (a b c d : Char) : Option Nat :=
  match hexVal a, hexVal b, hexVal c, hexVal d with
  | some x, some y, some z, some w => some (((x * 16 + y) * 16 + z) * 16 + w)
  | _, _, _, _ => none

/-- The rune U+FFFD, `unicode.ReplacementChar`. -/
def replacementChar : Char := Char.ofNat 0xFFFD

/-- The low half of a surrogate pair when the text goes on with a second `\u` escape:
Go `getu4` on the text after a high surrogate, kept when `utf16.DecodeRune` accepts the
pair. -/
def lowSurrogate (b u e1 e2 e3 e4 : Char) : Option Nat :=
  if b = '\\' ∧ u = 'u' then
    match getu4 e1 e2 e3 e4 with
    | some r2 => if 0xDC00 ≤ r2 ∧ r2 < 0xE000 then some r2 else none
    | none => none
  else none

/-- The rune of a one-letter escape. -/
def plainEscape (e : Char) : Option Char :=
  if e = '"' ∨ e = '\\' ∨ e = '/' then some e
  else if e = 'b' then some (Char.ofNat 8)
  else if e = 'f' then some (Char.ofNat 12)
  else if e = 'n' then some '\n'
  else if e = 'r' then some '\r'
  else if e = 't' then some '\t'
  else none

/-- Go `unquote` on the text between the quotes of a string literal: escapes are
replaced, a surrogate pair becomes one rune, a lone surrogate becomes U+FFFD. -/
def unquote : GoString → Option GoString
  | [] => some []
  | c :: rest =>
    if c = '\\' then
      match rest with
      | [] => none
      | e :: rest2 =>
        if e = 'u' then
          match rest2 with
          | a :: b :: c2 :: d :: rest3 =>
            match getu4 a b c2 d with
            | none => none
            | some rr =>
              if 0xD800 ≤ rr ∧ rr < 0xE000 then
                match rest3 with
                | b1 :: u1 :: e1 :: e2 :: e3 :: e4 :: rest4 =>
                  match (if rr < 0xDC00 then lowSurrogate b1 u1 e1 e2 e3 e4 else none) with
                  | some r2 =>
                    (unquote rest4).map
                      (Char.ofNat ((rr - 0xD800) * 0x400 + (r2 - 0xDC00) + 0x10000) :: ·)
                  | none =>
                    (unquote (b1 :: u1 :: e1 :: e2 :: e3 :: e4 :: rest4)).map
                      (replacementChar :: ·)
                | short => (unquote short).map (replacementChar :: ·)
              else (unquote rest3).map (Char.ofNat rr :: ·)
          | _ => none
        else
          match plainEscape e with
          | some ch => (unquote rest2).map (ch :: ·)
          | none => none
    else if c = '"' ∨ c.toNat < 0x20 then none
    else (unquote rest).map (c :: ·)

/-- The parse stack of the scanner, with the values read so far (newest first):
an array under construction, or an object under construction together with the key
whose value is awaited. -/
inductive Frame where
  | array (elems : List JSON)
  | object (members : List (GoString × JSON)) (key : Option GoString)

/-- The states of a number literal: `stateNeg`, `state0`, `state1`, `stateDot`,
`stateDot0`, `stateE`, `stateESign`, `stateE0`. -/
inductive NumState where
  | neg | zero | int | dot | frac | exp | expSign | expDigits
deriving DecidableEq

/-- The step states of `scanner.go`. -/
inductive Mode where
  | beginValue
  | beginValueOrEmpty
  | beginStringOrEmpty
  | beginString
  | inString (raw : GoString)
  | inStringEsc (raw : GoString)
  | inStringEscU (raw : GoString) (digits : Nat)
  | number (st : NumState) (raw : GoString)
  | literal (expect : GoString) (v : JSON)
  | endValue

/-- The result of feeding one rune to the scanner. -/
inductive Step where
  | next (stack : List Frame) (mode : Mode)
  | done (v : JSON)
  | doneBefore (v : JSON)
  | error

/-- `maxNestingDepth` of `scanner.go`. -/
def maxNestingDepth : Nat := 10000

/-- A value is complete: at top level the scan ends, inside a container the value is
stored in the open frame and the scanner moves to `stateEndValue`. -/
def completeValue (stack : List Frame) (v : JSON) : Step :=
  match stack with
  | [] => .done v
  | .array es :: tl => .next (.array (v :: es) :: tl) .endValue
  | .object ms (some k) :: tl => .next (.object ((k, v) :: ms) none :: tl) .endValue
  | .object ms none :: tl =>
    match v with
    | .string k => .next (.object ms (some k) :: tl) .endValue
    | _ => .error

/-- Go `stateEndValue` inside a container: a colon after a key, a comma or the closing
bracket after a value. -/
def stateEndValue (stack : List Frame) (c : Char) : Step :=
  match stack with
  | [] => .error
  | frame :: tl =>
    if isJSONSpace c then .next stack .endValue
    else
      match frame with
      | .object _ (some _) => if c = ':' then .next stack .beginValue else .error
      | .object ms none =>
        if c = ',' then .next stack .beginString
        else if c = '}' then completeValue tl (.object ms.reverse)
        else .error
      | .array es =>
        if c = ',' then .next stack .beginValue
        else if c = ']' then completeValue tl (.array es.reverse)
        else .error

/-- A number literal ends before the rune `c`, which is then read by `stateEndValue`. -/
def endNumber (stack : List Frame) (raw : GoString) (c : Char) : Step :=
  match completeValue stack (.number raw.reverse) with
  | .done v => .doneBefore v
  | .next stack2 _ => stateEndValue stack2 c
  | _ => .error

/-- Go `stateBeginValue`. -/
def stateBeginValue (stack : List Frame) (c : Char) : Step :=
  if isJSONSpace c then .next stack .beginValue
  else if c = '{' then
    if stack.length + 1 ≤ maxNestingDepth then .next (.object [] none :: stack) .beginStringOrEmpty
    else .error
  else if c = '[' then
    if stack.length + 1 ≤ maxNestingDepth then .next (.array [] :: stack) .beginValueOrEmpty
    else .error
  else if c = '"' then .next stack (.inString [])
  else if c = '-' then .next stack (.number .neg [c])
  else if c = '0' then .next stack (.number .zero [c])
  else if c = 't' then .next stack (.literal ['r', 'u', 'e'] (.bool true))
  else if c = 'f' then .next stack (.literal ['a', 'l', 's', 'e'] (.bool false))
  else if c = 'n' then .next stack (.literal ['u', 'l', 'l'] .null)
  else if '1' ≤ c ∧ c ≤ '9' then .next stack (.number .int [c])
  else .error

/-- Go `stateBeginString`. -/
def stateBeginString (stack : List Frame) (c : Char) : Step :=
  if isJSONSpace c then .next stack .beginString
  else if c = '"' then .next stack (.inString [])
  else .error

/-- The number states of `scanner.go`; `raw` is the literal so far, newest rune first. -/
def stateNumber (stack : List Frame) (st : NumState) (raw : GoString) (c : Char) : Step :=
  let digit : Bool := decide ('0' ≤ c ∧ c ≤ '9')
  match st with
  | .neg =>
    if c = '0' then .next stack (.number .zero (c :: raw))
    else if '1' ≤ c ∧ c ≤ '9' then .next stack (.number .int (c :: raw))
    else .error
  | .int =>
    if digit then .next stack (.number .int (c :: raw))
    else if c = '.' then .next stack (.number .dot (c :: raw))
    else if c = 'e' ∨ c = 'E' then .next stack (.number .exp (c :: raw))
    else endNumber stack raw c
  | .zero =>
    if c = '.' then .next stack (.number .dot (c :: raw))
    else if c = 'e' ∨ c = 'E' then .next stack (.number .exp (c :: raw))
    else endNumber stack raw c
  | .dot => if digit then .next stack (.number .frac (c :: raw)) else .error
  | .frac =>
    if digit then .next stack (.number .frac (c :: raw))
    else if c = 'e' ∨ c = 'E' then .next stack (.number .exp (c :: raw))
    else endNumber stack raw c
  | .exp =>
    if c = '+' ∨ c = '-' then .next stack (.number .expSign (c :: raw))
    else if digit then .next stack (.number .expDigits (c :: raw))
    else .error
  | .expSign => if digit then .next stack (.number .expDigits (c :: raw)) else .error
  | .expDigits =>
    if digit then .next stack (.number .expDigits (c :: raw))
    else endNumber stack raw c

/-- One step of the scanner: the state function selected by the mode, applied to `c`. -/
def scanStep (stack : List Frame) (mode : Mode) (c : Char) : Step :=
  match mode with
  | .beginValue => stateBeginValue stack c
  | .beginValueOrEmpty =>
    if isJSONSpace c then .next stack .beginValueOrEmpty
    else if c = ']' then
      match stack with
      | .array es :: tl => completeValue tl (.array es.reverse)
      | _ => .error
    else stateBeginValue stack c
  | .beginStringOrEmpty =>
    if isJSONSpace c then .next stack .beginStringOrEmpty
    else if c = '}' then
      match stack with
      | .object ms none :: tl => completeValue tl (.object ms.reverse)
      | _ => .error
    else stateBeginString stack c
  | .beginString => stateBeginString stack c
  | .inString raw =>
    if c = '"' then
      match unquote raw.reverse with
      | some s => completeValue stack (.string s)
      | none => .error
    else if c = '\\' then .next stack (.inStringEsc (c :: raw))
    else if c.toNat < 0x20 then .error
    else .next stack (.inString (c :: raw))
  | .inStringEsc raw =>
    if c = 'b' ∨ c = 'f' ∨ c = 'n' ∨ c = 'r' ∨ c = 't' ∨ c = '\\' ∨ c = '/' ∨ c = '"' then
      .next stack (.inString (c :: raw))
    else if c = 'u' then .next stack (.inStringEscU (c :: raw) 0)
    else .error
  | .inStringEscU raw n =>
    if (hexVal c).isSome then
      if n < 3 then .next stack (.inStringEscU (c :: raw) (n + 1))
      else .next stack (.inString (c :: raw))
    else .error
  | .number st raw => stateNumber stack st raw c
  | .literal expect v =>
    match expect with
    | [] => .error
    | e :: more =>
      if c = e then
        match more with
        | [] => completeValue stack v
        | _ :: _ => .next stack (.literal more v)
      else .error
  | .endValue => stateEndValue stack c

/-- The end of the input: only a top-level number can end there (`eof` feeds a space to
the scanner); every other unfinished state is an unexpected end of input. -/
def scanEOF (stack : List Frame) (mode : Mode) : Option JSON :=
  match stack, mode with
  | [], .number st raw =>
    if st = .zero ∨ st = .int ∨ st = .frac ∨ st = .expDigits then some (.number raw.reverse)
    else none
  | _, _ => none

/-- Runs the scanner until the first top-level value is complete; the result is the
value and the input after it. -/
def scanLoop (stack : List Frame) (mode : Mode) : GoString → Option (JSON × GoString)
  | [] => (scanEOF stack mode).map (·, [])
  | c :: cs =>
    match scanStep stack mode c with
    | .next stack2 mode2 => scanLoop stack2 mode2 cs
    | .done v => some (v, cs)
    | .doneBefore v => some (v, c :: cs)
    | .error => none

/-- The first JSON value of a text and the text after it: what one `Decode` of a
`json.Decoder` reads from a stream. -/
def readValue (data : GoString) : Option (JSON × GoString) :=
  scanLoop [] .beginValue data

/-- The JSON value of a text that holds exactly one value, white space apart:
`checkValid` followed by the decoding of the value, as in `json.Unmarshal`. -/
def parseJSON (data : GoString) : Option JSON :=
  match readValue data with
  | some (v, rest) => if rest.all isJSONSpace then some v else none
  | none => none

/-! ## Decoding into structs (Go `encoding/json`, `decode.go`) -/

/-- Go `foldRune` on the runes that matter for ASCII names: the least rune of the
`unicode.SimpleFold` orbit.  The orbits that meet ASCII hold the two cases of a
letter, and besides U+017F (long s) with `S` and U+212A (Kelvin sign) with `K`; a rune
outside them never folds to an ASCII rune and is kept as it is. -/
def foldRune (c : Char) : Char :=
  let n := c.toNat
  if 0x61 ≤ n ∧ n ≤ 0x7A then Char.ofNat (n - 0x20)
  else if n = 0x17F then 'S'
  else if n = 0x212A then 'K'
  else c

/-- Go `foldName`: the name with every rune folded. -/
def foldName (s : GoString) : GoString := s.map foldRune

/-- The struct field an object key selects: `byExactName` first, then `byFoldedName`;
the result is the index of the field in the list of JSON names of the struct. -/
def findField (names : List GoString) (key : GoString) : Option Nat :=
  match names.findIdx? (fun n => n == key) with
  | some i => some i
  | none => names.findIdx? (fun n => foldName n == foldName key)

/-- The members of a JSON object whose key selects field number `i` of a struct with
the JSON names `names`. -/
def membersOf (names : List GoString) (i : Nat) (ms : List (GoString × JSON)) :
    List (GoString × JSON) :=
  ms.filter (fun kv => findField names kv.1 == some i)

/-- Decoding a JSON value into a Go `string` field: a string is stored, `null` leaves
the field as it is, every other value is an `UnmarshalTypeError`.  The flag is `true`
when no error was saved. -/
def storeString (cur : GoString) : JSON → GoString × Bool
  | .string s => (s, true)
  | .null => (cur, true)
  | _ => (cur, false)

/-- The inner struct of the envelope of `parseClaudeResponse`. -/
structure ClaudeStructuredOutput where
  Response : GoString
deriving DecidableEq, Repr

/-- The anonymous struct of `parseClaudeResponse`. -/
structure ClaudeEnvelope where
  StructuredOutput : ClaudeStructuredOutput
deriving DecidableEq, Repr

/-- The anonymous struct of `parseGeminiResponse`. -/
structure GeminiEnvelope where
  Response : GoString
deriving DecidableEq, Repr

/-- Go `continueResponse`. -/
structure continueResponse where
  Response : GoString
  Status : GoString
deriving DecidableEq, Repr

/-- One member of a JSON object decoded into the inner struct of the Claude envelope. -/
def ClaudeStructuredOutput.setMember (acc : ClaudeStructuredOutput × Bool)
    (kv : GoString × JSON) : ClaudeStructuredOutput × Bool :=
  match findField ["response".toList] kv.1 with
  | some 0 =>
    let r := storeString acc.1.Response kv.2
    ({ acc.1 with Response := r.1 }, acc.2 && r.2)
  | _ => acc

/-- A JSON value decoded into the inner struct: the members of an object are stored in
source order, `null` is a no-op, every other value is an `UnmarshalTypeError`. -/
def ClaudeStructuredOutput.decode (cur : ClaudeStructuredOutput) :
    JSON → ClaudeStructuredOutput × Bool
  | .object ms => ms.foldl ClaudeStructuredOutput.setMember (cur, true)
  | .null => (cur, true)
  | _ => (cur, false)

/-- One member of a JSON object decoded into the Claude envelope. -/
def ClaudeEnvelope.setMember (acc : ClaudeEnvelope × Bool) (kv : GoString × JSON) :
    ClaudeEnvelope × Bool :=
  match findField ["structured_output".toList] kv.1 with
  | some 0 =>
    let r := ClaudeStructuredOutput.decode acc.1.StructuredOutput kv.2
    ({ acc.1 with StructuredOutput := r.1 }, acc.2 && r.2)
  | _ => acc

/-- A JSON value decoded into the Claude envelope. -/
def ClaudeEnvelope.decode (cur : ClaudeEnvelope) : JSON → ClaudeEnvelope × Bool
  | .object ms => ms.foldl ClaudeEnvelope.setMember (cur, true)
  | .null => (cur, true)
  | _ => (cur, false)

/-- One member of a JSON object decoded into the Gemini envelope. -/
def GeminiEnvelope.setMember (acc : GeminiEnvelope × Bool) (kv : GoString × JSON) :
    GeminiEnvelope × Bool :=
  match findField ["response".toList] kv.1 with
  | some 0 =>
    let r := storeString acc.1.Response kv.2
    ({ acc.1 with Response := r.1 }, acc.2 && r.2)
  | _ => acc

/-- A JSON value decoded into the Gemini envelope. -/
def GeminiEnvelope.decode (cur : GeminiEnvelope) : JSON → GeminiEnvelope × Bool
  | .object ms => ms.foldl GeminiEnvelope.setMember (cur, true)
  | .null => (cur, true)
  | _ => (cur, false)

/-- One member of a JSON object decoded into `continueResponse`. -/
def continueResponse.setMember (acc : continueResponse × Bool) (kv : GoString × JSON) :
    continueResponse × Bool :=
  match findField ["response".toList, "status".toList] kv.1 with
  | some 0 =>
    let r := storeString acc.1.Response kv.2
    ({ acc.1 with Response := r.1 }, acc.2 && r.2)
  | some 1 =>
    let r := storeString acc.1.Status kv.2
    ({ acc.1 with Status := r.1 }, acc.2 && r.2)
  | _ => acc

/-- A JSON value decoded into `continueResponse`. -/
def continueResponse.decode (cur : continueResponse) : JSON → continueResponse × Bool
  | .object ms => ms.foldl continueResponse.setMember (cur, true)
  | .null => (cur, true)
  | _ => (cur, false)

/-- Go `json.Unmarshal(data, &response)` for the Claude envelope: the decoded struct and
whether the returned error is `nil`. -/
def unmarshalClaude (data : GoString) : ClaudeEnvelope × Bool :=
  match parseJSON data with
  | some v => ClaudeEnvelope.decode ⟨⟨[]⟩⟩ v
  | none => (⟨⟨[]⟩⟩, false)

/-- Go `json.Unmarshal(data, &response)` for the Gemini envelope. -/
def unmarshalGemini (data : GoString) : GeminiEnvelope × Bool :=
  match parseJSON data with
  | some v => GeminiEnvelope.decode ⟨[]⟩ v
  | none => (⟨[]⟩, false)

/-- Go `json.Unmarshal(data, &response)` for `continueResponse`. -/
def unmarshalContinue (data : GoString) : continueResponse × Bool :=
  match parseJSON data with
  | some v => continueResponse.decode ⟨[], []⟩ v
  | none => (⟨[], []⟩, false)

/-! ## `internal/provider`: errors and parsers -/

/-- The Go errors of the package: the two sentinels, an `errors.New` value made at run
time, and `errors.Join` of two errors. -/
inductive GoError where
  | ErrCLIExecution
  | ErrParsing
  | new (text : GoString)
  | join (a b : GoError)
deriving DecidableEq, Repr

/-- Go `parseClaudeResponse`: the result and the error (`none` is `nil`). -/
def parseClaudeResponse (data : GoString) : GoString × Option GoError :=
  let (response, ok) := unmarshalClaude data
  if ok ∧ response.StructuredOutput.Response ≠ [] then
    (response.StructuredOutput.Response, none)
  else
    let trimmed := TrimSpace data
    if trimmed ≠ [] then (trimmed, none)
    else ([], some .ErrParsing)

/-- Go `parseGeminiResponse`. -/
def parseGeminiResponse (data : GoString) : GoString × Option GoError :=
  let (response, ok) := unmarshalGemini data
  if ok ∧ response.Response ≠ [] then
    (CleanResponse response.Response, none)
  else
    let trimmed := TrimSpace data
    if trimmed ≠ [] then (CleanResponse trimmed, none)
    else ([], some .ErrParsing)

/-- Go `parseContinueResponse`. -/
def parseContinueResponse (data : GoString) : GoString × Option GoError :=
  let (response, ok) := unmarshalContinue data
  if ok ∧ response.Response ≠ [] then
    (CleanResponse response.Response, none)
  else
    let trimmed := TrimSpace data
    if trimmed ≠ [] then (CleanResponse trimmed, none)
    else ([], some .ErrParsing)

/-! ## `internal/handler/handler.go` -/

/-- Go `Request`. -/
structure Request where
  User : GoString
  Provider : GoString
deriving DecidableEq, Repr

/-- Go `Response`. -/
structure Response where
  ResponseText : GoString
  Error : GoString
deriving DecidableEq, Repr

/-- One member of a JSON object decoded into `Request`. -/
def Request.setMember (acc : Request × Bool) (kv : GoString × JSON) : Request × Bool :=
  match findField ["user".toList, "provider".toList] kv.1 with
  | some 0 =>
    let r := storeString acc.1.User kv.2
    ({ acc.1 with User := r.1 }, acc.2 && r.2)
  | some 1 =>
    let r := storeString acc.1.Provider kv.2
    ({ acc.1 with Provider := r.1 }, acc.2 && r.2)
  | _ => acc

/-- A JSON value decoded into `Request`. -/
def Request.decode (cur : Request) : JSON → Request × Bool
  | .object ms => ms.foldl Request.setMember (cur, true)
  | .null => (cur, true)
  | _ => (cur, false)

/-- Go `json.NewDecoder(r.Body).Decode(&req)`: the first JSON value of the body is
decoded, what follows it is left unread. -/
def decodeRequest (body : GoString) : Request × Bool :=
  match readValue body with
  | some (v, _) => Request.decode ⟨[], []⟩ v
  | none => (⟨[], []⟩, false)

/-- The JSON document `json.Encoder.Encode` writes for a `Response`: both fields are
`omitempty`. -/
def Response.toJSON (r : Response) : JSON :=
  .object
    ((if r.ResponseText ≠ [] then [("response".toList, JSON.string r.ResponseText)] else []) ++
     (if r.Error ≠ [] then [("error".toList, JSON.string r.Error)] else []))

/-- The interface `provider.Generator`: `Generate(systemPrompt, userPrompt)` returns a
string and an error. -/
structure Generator where
  Generate : GoString → GoString → GoString × Option GoError

/-- Go `Handler`; the map of providers is a list of entries. -/
structure Handler where
  providers : List (GoString × Generator)
  defaultProvider : GoString
  allowedOrigin : GoString
  systemPrompt : GoString

/-- The part of `http.Request` the handlers read. -/
structure HTTPRequest where
  Method : GoString
  Body : GoString

/-- What a handler leaves in the `http.ResponseWriter`: the headers it set, the status
code (200 unless `WriteHeader` is called), the JSON documents encoded to the body and
the texts written to the body with `w.Write`. -/
structure ResponseRecorder where
  Header : List (GoString × GoString)
  Code : Nat
  Body : List JSON
  Written : List GoString

/-- A line written with `log.Printf`, by its format and arguments. -/
inductive LogEntry where
  | invalidJSON
  | missingUser (user : GoString)
  | unknownProvider (name : GoString)
  | generating (name user : GoString)
  | cliFailed (name : GoString) (err : GoError)
  | success
deriving DecidableEq, Repr

/-- A call of `Generate` on the provider registered under `name`. -/
structure GenerateCall where
  name : GoString
  systemPrompt : GoString
  userPrompt : GoString
deriving DecidableEq, Repr

/-- The observable outcome of one handler run: the response, the log lines and the
calls of `Generate`, in order. -/
structure Outcome where
  w : ResponseRecorder
  log : List LogEntry
  calls : List GenerateCall

/-- A fresh response writer. -/
def ResponseRecorder.new : ResponseRecorder := ⟨[], 200, [], []⟩

/-- Go `w.Header().Set(key, value)`. -/
def ResponseRecorder.setHeader (w : ResponseRecorder) (key value : GoString) :
    ResponseRecorder :=
  { w with Header := w.Header.filter (fun kv => kv.1 ≠ key) ++ [(key, value)] }

/-- Go `w.WriteHeader(statusCode)`. -/
def ResponseRecorder.WriteHeader (w : ResponseRecorder) (statusCode : Nat) :
    ResponseRecorder :=
  { w with Code := statusCode }

/-- Go `json.NewEncoder(w).Encode(v)`. -/
def ResponseRecorder.encode (w : ResponseRecorder) (v : JSON) : ResponseRecorder :=
  { w with Body := w.Body ++ [v] }

/-- Go `(*Handler).setCORSHeaders`. -/
def Handler.setCORSHeaders (h : Handler) (w : ResponseRecorder) : ResponseRecorder :=
  (((w.setHeader "Access-Control-Allow-Origin".toList h.allowedOrigin).setHeader
    "Access-Control-Allow-Methods".toList "POST, GET, OPTIONS".toList).setHeader
    "Access-Control-Allow-Headers".toList "Content-Type".toList).setHeader
    "Access-Control-Allow-Private-Network".toList "true".toList

/-- Go `(*Handler).sendError`. -/
def Handler.sendError (_h : Handler) (w : ResponseRecorder) (message : GoString)
    (statusCode : Nat) : ResponseRecorder :=
  (((w.setHeader "Content-Type".toList "application/json".toList).WriteHeader
    statusCode).encode (Response.toJSON { ResponseText := [], Error := message }))

/-- Go `(*Handler).sendJSON`. -/
def Handler.sendJSON (_h : Handler) (w : ResponseRecorder) (response : Response) :
    ResponseRecorder :=
  (w.setHeader "Content-Type".toList "application/json".toList).encode response.toJSON

/-- Go `(*Handler).HandlePrompt`. -/
def Handler.HandlePrompt (h : Handler) (r : HTTPRequest) : Outcome :=
  let w := h.setCORSHeaders ResponseRecorder.new
  if r.Method = "OPTIONS".toList then
    { w := w.WriteHeader 200, log := [], calls := [] }
  else if r.Method ≠ "POST".toList then
    { w := h.sendError w "Method not allowed".toList 405, log := [], calls := [] }
  else
    let (req, ok) := decodeRequest r.Body
    if ¬ ok then
      { w := h.sendError w "Invalid JSON".toList 400, log := [.invalidJSON], calls := [] }
    else if req.User = [] then
      { w := h.sendError w "The 'user' field is required".toList 400,
        log := [.missingUser req.User], calls := [] }
    else
      let providerName := if req.Provider = [] then h.defaultProvider else req.Provider
      match h.providers.lookup providerName with
      | none =>
        { w := h.sendError w ("Unknown provider: ".toList ++ providerName) 400,
          log := [.unknownProvider providerName], calls := [] }
      | some p =>
        let (result, err) := p.Generate h.systemPrompt req.User
        match err with
        | some e =>
          { w := h.sendError w "Failed to generate response".toList 500,
            log := [.generating providerName req.User, .cliFailed providerName e],
            calls := [⟨providerName, h.systemPrompt, req.User⟩] }
        | none =>
          { w := h.sendJSON w { ResponseText := result, Error := [] },
            log := [.generating providerName req.User, .success],
            calls := [⟨providerName, h.systemPrompt, req.User⟩] }

/-- Go `w.Write(data)`. -/
def ResponseRecorder.Write (w : ResponseRecorder) (data : GoString) : ResponseRecorder :=
  { w with Written := w.Written ++ [data] }

/-- Go `(*Handler).HandleHealth`. -/
def Handler.HandleHealth (h : Handler) (r : HTTPRequest) : Outcome :=
  let w := h.setCORSHeaders ResponseRecorder.new
  if r.Method = "OPTIONS".toList then
    { w := w.WriteHeader 200, log := [], calls := [] }
  else if r.Method ≠ "GET".toList then
    { w := w.WriteHeader 405, log := [], calls := [] }
  else
    { w := w.WriteHeader 200, log := [], calls := [] }

/-- Go `ProviderInfo`. -/
structure ProviderInfo where
  Name : GoString
  Description : GoString
deriving DecidableEq, Repr

/-- Go `providerDescriptions`. -/
def providerDescriptions : List (GoString × GoString) :=
  [("claude".toList, "Claude Code".toList),
   ("gemini".toList, "Google Gemini".toList),
   ("codex".toList, "OpenAI Codex".toList),
   ("continue".toList, "Continue".toList),
   ("opencode".toList, "OpenCode".toList)]

/-- The JSON document of a `ProviderInfo`: both fields are always written. -/
def ProviderInfo.toJSON (p : ProviderInfo) : JSON :=
  .object [("name".toList, .string p.Name), ("description".toList, .string p.Description)]

/-- The loop of `HandleProviders`: one `ProviderInfo` per entry of the map, in the
order the `range` loop visits the entries; the description is the name when the map of
descriptions holds none (a missing key reads as the empty string). -/
def Handler.providerInfos (h : Handler) : List ProviderInfo :=
  h.providers.map (fun kv =>
    let description := (providerDescriptions.lookup kv.1).getD []
    { Name := kv.1, Description := if description = [] then kv.1 else description })

/-- Go `(*Handler).HandleProviders`. -/
def Handler.HandleProviders (h : Handler) (r : HTTPRequest) : Outcome :=
  let w := h.setCORSHeaders ResponseRecorder.new
  if r.Method = "OPTIONS".toList then
    { w := w.WriteHeader 200, log := [], calls := [] }
  else if r.Method ≠ "GET".toList then
    { w := h.sendError w "Method not allowed".toList 405, log := [], calls := [] }
  else
    { w := (w.setHeader "Content-Type".toList "application/json".toList).encode
        (.object [("providers".toList, .array (h.providerInfos.map ProviderInfo.toJSON))]),
      log := [], calls := [] }

/-! ## `internal/handler/openapi.go` -/

/-- Go `OpenAPISpec`, line by line. -/
def OpenAPISpecLines : List String := [
    "\x7b",
    "  \"openapi\": \"3.0.3\",",
    "  \"info\": \x7b",
    "    \"title\": \"Local AI Tool Proxy API\",",
    "    \"description\": \"A local HTTP proxy that bridges web applications with AI CLI tools to generate responses using a configurable system prompt.\",",
    "    \"version\": \"1.0.0\",",
    "    \"license\": \x7b",
    "      \"name\": \"MIT\",",
    "      \"url\": \"https://opensource.org/licenses/MIT\"",
    "    \x7d",
    "  \x7d,",
    "  \"servers\": [",
    "    \x7b",
    "      \"url\": \"http://localhost:4000\",",
    "      \"description\": \"Local development server\"",
    "    \x7d",
    "  ],",
    "  \"paths\": \x7b",
    "    \"/prompt\": \x7b",
    "      \"post\": \x7b",
    "        \"summary\": \"Generate Response\",",
    "        \"description\": \"Generate a response from a user prompt using an AI CLI tool with the configured system prompt.\",",
    "        \"operationId\": \"generateResponse\",",
    "        \"requestBody\": \x7b",
    "          \"required\": true,",
    "          \"content\": \x7b",
    "            \"application/json\": \x7b",
    "              \"schema\": \x7b",
    "                \"$ref\": \"#/components/schemas/Request\"",
    "              \x7d,",
    "              \"examples\": \x7b",
    "                \"basic\": \x7b",
    "                  \"summary\": \"Basic prompt\",",
    "                  \"value\": \x7b",
    "                    \"user\": \"What is the capital of France?\"",
    "                  \x7d",
    "                \x7d,",
    "                \"with_provider\": \x7b",
    "                  \"summary\": \"Prompt with specific provider\",",
    "                  \"value\": \x7b",
    "                    \"user\": \"Explain quantum computing in simple terms\",",
    "                    \"provider\": \"gemini\"",
    "                  \x7d",
    "                \x7d",
    "              \x7d",
    "            \x7d",
    "          \x7d",
    "        \x7d,",
    "        \"responses\": \x7b",
    "          \"200\": \x7b",
    "            \"description\": \"Successfully generated response\",",
    "            \"content\": \x7b",
    "              \"application/json\": \x7b",
    "                \"schema\": \x7b",
    "                  \"$ref\": \"#/components/schemas/Response\"",
    "                \x7d,",
    "                \"example\": \x7b",
    "                  \"response\": \"The capital of France is Paris.\"",
    "                \x7d",
    "              \x7d",
    "            \x7d",
    "          \x7d,",
    "          \"400\": \x7b",
    "            \"description\": \"Bad request - invalid JSON, missing fields, or unknown provider\",",
    "            \"content\": \x7b",
    "              \"application/json\": \x7b",
    "                \"schema\": \x7b",
    "                  \"$ref\": \"#/components/schemas/ErrorResponse\"",
    "                \x7d,",
    "                \"examples\": \x7b",
    "                  \"invalid_json\": \x7b",
    "                    \"summary\": \"Invalid JSON\",",
    "                    \"value\": \x7b",
    "                      \"error\": \"Invalid JSON\"",
    "                    \x7d",
    "                  \x7d,",
    "                  \"missing_fields\": \x7b",
    "                    \"summary\": \"Missing required fields\",",
    "                    \"value\": \x7b",
    "                      \"error\": \"The 'user' field is required\"",
    "                    \x7d",
    "                  \x7d,",
    "                  \"unknown_provider\": \x7b",
    "                    \"summary\": \"Unknown provider\",",
    "                    \"value\": \x7b",
    "                      \"error\": \"Unknown provider: invalid\"",
    "                    \x7d",
    "                  \x7d",
    "                \x7d",
    "              \x7d",
    "            \x7d",
    "          \x7d,",
    "          \"405\": \x7b",
    "            \"description\": \"Method not allowed - only POST and OPTIONS are supported\",",
    "            \"content\": \x7b",
    "              \"application/json\": \x7b",
    "                \"schema\": \x7b",
    "                  \"$ref\": \"#/components/schemas/ErrorResponse\"",
    "                \x7d,",
    "                \"example\": \x7b",
    "                  \"error\": \"Method not allowed\"",
    "                \x7d",
    "              \x7d",
    "            \x7d",
    "          \x7d,",
    "          \"500\": \x7b",
    "            \"description\": \"Internal server error - AI CLI execution failed\",",
    "            \"content\": \x7b",
    "              \"application/json\": \x7b",
    "                \"schema\": \x7b",
    "                  \"$ref\": \"#/components/schemas/ErrorResponse\"",
    "                \x7d,",
    "                \"example\": \x7b",
    "                  \"error\": \"Failed to generate response\"",
    "                \x7d",
    "              \x7d",
    "            \x7d",
    "          \x7d",
    "        \x7d",
    "      \x7d,",
    "      \"options\": \x7b",
    "        \"summary\": \"CORS Preflight\",",
    "        \"description\": \"Handle CORS preflight requests for cross-origin access.\",",
    "        \"operationId\": \"promptOptions\",",
    "        \"responses\": \x7b",
    "          \"200\": \x7b",
    "            \"description\": \"CORS preflight response with appropriate headers\"",
    "          \x7d",
    "        \x7d",
    "      \x7d",
    "    \x7d,",
    "    \"/openapi.json\": \x7b",
    "      \"get\": \x7b",
    "        \"summary\": \"OpenAPI Specification\",",
    "        \"description\": \"Returns the OpenAPI v3 specification for this API.\",",
    "        \"operationId\": \"getOpenAPISpec\",",
    "        \"responses\": \x7b",
    "          \"200\": \x7b",
    "            \"description\": \"OpenAPI v3 specification\",",
    "            \"content\": \x7b",
    "              \"application/json\": \x7b",
    "                \"schema\": \x7b",
    "                  \"type\": \"object\"",
    "                \x7d",
    "              \x7d",
    "            \x7d",
    "          \x7d",
    "        \x7d",
    "      \x7d",
    "    \x7d,",
    "    \"/providers\": \x7b",
    "      \"get\": \x7b",
    "        \"summary\": \"List Providers\",",
    "        \"description\": \"Returns the list of available AI providers with their descriptions.\",",
    "        \"operationId\": \"listProviders\",",
    "        \"responses\": \x7b",
    "          \"200\": \x7b",
    "            \"description\": \"List of available providers\",",
    "            \"content\": \x7b",
    "              \"application/json\": \x7b",
    "                \"schema\": \x7b",
    "                  \"$ref\": \"#/components/schemas/ProvidersResponse\"",
    "                \x7d,",
    "                \"example\": \x7b",
    "                  \"providers\": [",
    "                    \x7b\"name\": \"claude\", \"description\": \"Anthropic Claude CLI\"\x7d,",
    "                    \x7b\"name\": \"gemini\", \"description\": \"Google Gemini CLI\"\x7d,",
    "                    \x7b\"name\": \"codex\", \"description\": \"OpenAI Codex CLI\"\x7d,",
    "                    \x7b\"name\": \"continue\", \"description\": \"Continue CLI\"\x7d,",
    "                    \x7b\"name\": \"opencode\", \"description\": \"OpenCode CLI\"\x7d",
    "                  ]",
    "                \x7d",
    "              \x7d",
    "            \x7d",
    "          \x7d",
    "        \x7d",
    "      \x7d",
    "    \x7d,",
    "    \"/health\": \x7b",
    "      \"get\": \x7b",
    "        \"summary\": \"Health Check\",",
    "        \"description\": \"Returns HTTP 200 if the proxy is running. Used by tools to check if the proxy is available.\",",
    "        \"operationId\": \"healthCheck\",",
    "        \"responses\": \x7b",
    "          \"200\": \x7b",
    "            \"description\": \"Proxy is running\"",
    "          \x7d",
    "        \x7d",
    "      \x7d",
    "    \x7d",
    "  \x7d,",
    "  \"components\": \x7b",
    "    \"schemas\": \x7b",
    "      \"Request\": \x7b",
    "        \"type\": \"object\",",
    "        \"required\": [\"user\"],",
    "        \"properties\": \x7b",
    "          \"user\": \x7b",
    "            \"type\": \"string\",",
    "            \"description\": \"The user prompt to send to the AI provider\",",
    "            \"example\": \"What is the capital of France?\"",
    "          \x7d,",
    "          \"provider\": \x7b",
    "            \"type\": \"string\",",
    "            \"description\": \"AI provider to use for response generation. If omitted, uses the default configured provider.\",",
    "            \"enum\": [\"claude\", \"gemini\", \"codex\", \"continue\", \"opencode\"],",
    "            \"example\": \"claude\"",
    "          \x7d",
    "        \x7d",
    "      \x7d,",
    "      \"Response\": \x7b",
    "        \"type\": \"object\",",
    "        \"properties\": \x7b",
    "          \"response\": \x7b",
    "            \"type\": \"string\",",
    "            \"description\": \"Generated response from the AI provider\",",
    "            \"example\": \"The capital of France is Paris.\"",
    "          \x7d,",
    "          \"error\": \x7b",
    "            \"type\": \"string\",",
    "            \"description\": \"Error message if the request failed\"",
    "          \x7d",
    "        \x7d",
    "      \x7d,",
    "      \"ErrorResponse\": \x7b",
    "        \"type\": \"object\",",
    "        \"properties\": \x7b",
    "          \"error\": \x7b",
    "            \"type\": \"string\",",
    "            \"description\": \"Error message describing what went wrong\",",
    "            \"example\": \"Failed to generate response\"",
    "          \x7d",
    "        \x7d",
    "      \x7d,",
    "      \"ProvidersResponse\": \x7b",
    "        \"type\": \"object\",",
    "        \"properties\": \x7b",
    "          \"providers\": \x7b",
    "            \"type\": \"array\",",
    "            \"items\": \x7b",
    "              \"$ref\": \"#/components/schemas/ProviderInfo\"",
    "            \x7d,",
    "            \"description\": \"List of available AI providers\"",
    "          \x7d",
    "        \x7d",
    "      \x7d,",
    "      \"ProviderInfo\": \x7b",
    "        \"type\": \"object\",",
    "        \"properties\": \x7b",
    "          \"name\": \x7b",
    "            \"type\": \"string\",",
    "            \"description\": \"Technical name of the provider\",",
    "            \"example\": \"claude\"",
    "          \x7d,",
    "          \"description\": \x7b",
    "            \"type\": \"string\",",
    "            \"description\": \"Human-readable description of the provider\",",
    "            \"example\": \"Anthropic Claude CLI\"",
    "          \x7d",
    "        \x7d",
    "      \x7d",
    "    \x7d",
    "  \x7d",
    "\x7d"
  ]

/-- Go `OpenAPISpec`. -/
def OpenAPISpec : GoString := (String.intercalate "\n" OpenAPISpecLines).toList

/-- Go `(*Handler).HandleOpenAPI`. -/
def Handler.HandleOpenAPI (h : Handler) (r : HTTPRequest) : Outcome :=
  let w := h.setCORSHeaders ResponseRecorder.new
  if r.Method = "OPTIONS".toList then
    { w := w.WriteHeader 200, log := [], calls := [] }
  else
    { w := (w.setHeader "Content-Type".toList "application/json".toList).Write OpenAPISpec,
      log := [], calls := [] }

/-! ## `internal/provider`: the adapters -/

/-- Go `errors.Is` on the errors of the package: the error itself or, for a joined
error, one of the joined errors is the target. -/
def GoError.Is : GoError → GoError → Bool
  | .join a b, target => (GoError.join a b == target) || a.Is target || b.Is target
  | err, target => err == target

/-- Go `err.Error()`: the text of an error; a joined error gives one line per error. -/
def GoError.Error : GoError → GoString
  | .ErrCLIExecution => "CLI execution failed".toList
  | .ErrParsing => "failed to parse response".toList
  | .new text => text
  | .join a b => a.Error ++ "\n".toList ++ b.Error

/-- A command built by Go `exec.Command(name, arg...)`: the binary and the arguments
after it. -/
structure Cmd where
  Name : GoString
  Args : List GoString
deriving DecidableEq, Repr

/-- One run of a command with `cmd.Run()`: whether `Run` returned an error (the process
did not start or exited with a non-zero status), and what the two buffers captured. -/
structure RunResult where
  failed : Bool
  stdout : GoString
  stderr : GoString
deriving DecidableEq, Repr

/-- The outcome of one call of `Generate`: the commands the operating system was asked
to run, the string and the error returned. -/
structure GenerateOutcome where
  ran : List Cmd
  result : GoString
  err : Option GoError
deriving DecidableEq, Repr

/-- A command that `os.StartProcess` refuses: its name or one of its arguments holds a
NUL, which no argument of a process can hold. -/
def Cmd.hasNUL (cmd : Cmd) : Bool :=
  cmd.Name.contains '\x00' || cmd.Args.any (fun a => a.contains '\x00')

/-- Go `cmd.Run()` with the two buffers attached, over the operating system `os`, which
gives the outcome of running a command.  A command with a NUL in its name or in an
argument never reaches the operating system: `Run` returns an error, no process is
started and both buffers stay empty.  The second component lists the commands the
operating system was asked to run. -/
def Cmd.Run (os : Cmd → RunResult) (cmd : Cmd) : RunResult × List Cmd :=
  if cmd.hasNUL then (⟨true, [], []⟩, []) else (os cmd, [cmd])

/-- Go `claudeJSONSchema`. -/
def claudeJSONSchema : GoString :=
  "\x7b\"type\":\"object\",\"properties\":\x7b\"response\":\x7b\"type\":\"string\"\x7d\x7d,\"required\":[\"response\"]\x7d".toList

/-- Go `(*ClaudeClient).Generate`, over the operating system `os`. -/
def ClaudeClient.Generate (os : Cmd → RunResult) (systemPrompt userPrompt : GoString) :
    GenerateOutcome :=
  let cmd : Cmd :=
    { Name := "claude".toList
      Args := ["-p".toList, userPrompt,
        "--append-system-prompt".toList, systemPrompt,
        "--output-format".toList, "json".toList,
        "--json-schema".toList, claudeJSONSchema] }
  let (out, ran) := cmd.Run os
  if out.failed then
    { ran := ran, result := [], err := some (.join .ErrCLIExecution (.new out.stderr)) }
  else
    let (result, err) := parseClaudeResponse out.stdout
    match err with
    | some e => { ran := ran, result := [], err := some e }
    | none => { ran := ran, result := result, err := none }

/-- Go `(*GeminiClient).Generate`, over the operating system `os`. -/
def GeminiClient.Generate (os : Cmd → RunResult) (systemPrompt userPrompt : GoString) :
    GenerateOutcome :=
  let prompt := systemPrompt ++ "\n\n".toList ++ userPrompt
  let cmd : Cmd :=
    { Name := "gemini".toList
      Args := ["-p".toList, prompt, "--output-format".toList, "json".toList] }
  let (out, ran) := cmd.Run os
  if out.failed then
    { ran := ran, result := [], err := some (.join .ErrCLIExecution (.new out.stderr)) }
  else
    let (result, err) := parseGeminiResponse out.stdout
    match err with
    | some e => { ran := ran, result := [], err := some e }
    | none => { ran := ran, result := result, err := none }

/-- Go `(*ContinueClient).Generate`, over the operating system `os`. -/
def ContinueClient.Generate (os : Cmd → RunResult) (systemPrompt userPrompt : GoString) :
    GenerateOutcome :=
  let prompt := systemPrompt ++ "\n\n".toList ++ userPrompt
  let cmd : Cmd :=
    { Name := "cn".toList
      Args := ["-p".toList, prompt, "--format".toList, "json".toList, "--silent".toList] }
  let (out, ran) := cmd.Run os
  if out.failed then
    { ran := ran, result := [], err := some (.join .ErrCLIExecution (.new out.stderr)) }
  else
    let (result, err) := parseContinueResponse out.stdout
    match err with
    | some e => { ran := ran, result := [], err := some e }
    | none => { ran := ran, result := result, err := none }

/-- Go `NewClaudeClient()` as a `Generator`. -/
def NewClaudeClient (os : Cmd → RunResult) : Generator :=
  ⟨fun s u => ((ClaudeClient.Generate os s u).result, (ClaudeClient.Generate os s u).err)⟩

/-- Go `NewGeminiClient()` as a `Generator`. -/
def NewGeminiClient (os : Cmd → RunResult) : Generator :=
  ⟨fun s u => ((GeminiClient.Generate os s u).result, (GeminiClient.Generate os s u).err)⟩

/-- Go `NewContinueClient()` as a `Generator`. -/
def NewContinueClient (os : Cmd → RunResult) : Generator :=
  ⟨fun s u => ((ContinueClient.Generate os s u).result, (ContinueClient.Generate os s u).err)⟩

/-- The contract of an adapter's `Generate` with the parser `parse` and the command
`cmd`, for the outcome `o` of a call over the operating system `os`: the operating
system was asked to run what the run of `cmd` asks it to run; when that run failed, the
result is the empty string and the error is `ErrCLIExecution` joined with a new error
whose text is the captured standard error, so that `errors.Is` finds `ErrCLIExecution`
in it and its text ends with the captured standard error; when the run succeeded, the
result and the error are those of the parser on the captured standard output. -/
def GenerateContract (parse : GoString → GoString × Option GoError) (os : Cmd → RunResult)
    (cmd : Cmd) (o : GenerateOutcome) : Prop :=
  o.ran = (cmd.Run os).2 ∧
    if (cmd.Run os).1.failed = true then
      o.result = [] ∧
      o.err = some (.join .ErrCLIExecution (.new (cmd.Run os).1.stderr)) ∧
      (GoError.join .ErrCLIExecution (.new (cmd.Run os).1.stderr)).Is .ErrCLIExecution = true ∧
      (GoError.join .ErrCLIExecution (.new (cmd.Run os).1.stderr)).Error =
        "CLI execution failed\n".toList ++ (cmd.Run os).1.stderr
    else
      (o.result, o.err) = parse (cmd.Run os).1.stdout

/-- The response writer carries the four cross-origin headers, with `origin` as the
allowed origin. -/
def HasCORSHeaders (origin : GoString) (w : ResponseRecorder) : Prop :=
  w.Header.lookup "Access-Control-Allow-Origin".toList = some origin ∧
  w.Header.lookup "Access-Control-Allow-Methods".toList = some "POST, GET, OPTIONS".toList ∧
  w.Header.lookup "Access-Control-Allow-Headers".toList = some "Content-Type".toList ∧
  w.Header.lookup "Access-Control-Allow-Private-Network".toList = some "true".toList

/-! ## Go `os` and `strconv` as `internal/config` uses them -/

/-- The process environment: the value of each variable, `none` when it is unset. -/
abbrev Environ := GoString → Option GoString

/-- Go `os.Getenv`: the value of the variable, the empty string when it is unset. -/
def Getenv (env : Environ) (key : GoString) : GoString :=
  (env key).getD []

/-- The errors inside the `*strconv.NumError` of `strconv.Atoi`. -/
inductive NumError where
  | ErrSyntax
  | ErrRange
deriving DecidableEq, Repr

/-- An ASCII digit `0` to `9`. -/
def isDigit (c : Char) : Bool :=
  decide ('0' ≤ c) && decide (c ≤ '9')

/-- The value of an ASCII digit. -/
def digitVal (c : Char) : Nat := c.toNat - '0'.toNat

/-- Go `IntSize` on a 64-bit platform. -/
def intSize : Nat := 64

/-- The largest `uint64`. -/
def maxUint64 : Nat := 2 ^ 64 - 1

/-- The digit loop of Go `strconv.ParseUint(s, 10, 64)` from the value `n` read so far: a
character that is no digit is a syntax error, a value above the largest `uint64` is a
range error raised at the digit that exceeds it. -/
def parseUintLoop : Nat → GoString → Nat × Option NumError
  | n, [] => (n, none)
  | n, c :: cs =>
    if isDigit c then
      if n * 10 + digitVal c > maxUint64 then (maxUint64, some .ErrRange)
      else parseUintLoop (n * 10 + digitVal c) cs
    else (0, some .ErrSyntax)

/-- Go `strconv.ParseUint(s, 10, 64)`. -/
def ParseUint (s : GoString) : Nat × Option NumError :=
  if s = [] then (0, some .ErrSyntax) else parseUintLoop 0 s

/-- Go `strconv.Atoi`, which gives what `strconv.ParseInt(s, 10, 0)` gives: an optional
sign, then digits; a value outside the range of `int` is a range error. -/
def Atoi (s : GoString) : Int × Option NumError :=
  match s with
  | [] => (0, some .ErrSyntax)
  | c :: t =>
    let neg := c = '-'
    let (un, err) := ParseUint (if c = '+' ∨ c = '-' then t else s)
    if err = some .ErrSyntax then (0, err)
    else if ¬ neg ∧ un ≥ 2 ^ (intSize - 1) then ((2 : Int) ^ (intSize - 1) - 1, some .ErrRange)
    else if neg ∧ un > 2 ^ (intSize - 1) then (-(2 : Int) ^ (intSize - 1), some .ErrRange)
    else (if neg then -(un : Int) else (un : Int), none)

/-! ## `internal/config/config.go` -/

/-- Go `defaultPort`. -/
def defaultPort : Int := 4000

/-- Go `defaultAllowedOrigin`. -/
def defaultAllowedOrigin : GoString := "http://localhost:3000".toList

/-- Go `defaultProvider`. -/
def defaultProvider : GoString := "claude".toList

/-- Go `Config`. -/
structure Config where
  Port : Int
  AllowedOrigin : GoString
  Provider : GoString
  SystemPromptPath : GoString
  SystemPrompt : GoString
  TLSCert : GoString
  TLSKey : GoString
deriving DecidableEq, Repr

/-- Go `Config{}`: the zero value. -/
def Config.zero : Config := ⟨0, [], [], [], [], [], []⟩

/-- Go `Config.TLSEnabled`. -/
def Config.TLSEnabled (c : Config) : Bool :=
  decide (c.TLSCert ≠ []) && decide (c.TLSKey ≠ [])

/-- The errors `Load` makes with `fmt.Errorf`, one per call site; the second wraps the
error of `os.ReadFile`, the third carries the path. -/
inductive LoadError where
  | systemPromptRequired
  | readFailed (err : GoError)
  | systemPromptEmpty (path : GoString)
deriving DecidableEq, Repr

/-- Go `err.Error()` on the errors of `Load`. -/
def LoadError.Error : LoadError → GoString
  | .systemPromptRequired =>
    "LOCAL_AI_TOOL_PROXY_SYSTEM_PROMPT environment variable is required".toList
  | .readFailed err => "failed to read system prompt file: ".toList ++ err.Error
  | .systemPromptEmpty path => "system prompt file is empty: ".toList ++ path

/-- Go `Load`, over the environment and over `os.ReadFile` as a function from the path to
the content and the error. -/
def Load (env : Environ) (ReadFile : GoString → GoString × Option GoError) :
    Config × Option LoadError :=
  let cfg : Config :=
    { Port := defaultPort, AllowedOrigin := defaultAllowedOrigin, Provider := defaultProvider,
      SystemPromptPath := [], SystemPrompt := [], TLSCert := [], TLSKey := [] }
  let portStr := Getenv env "LOCAL_AI_TOOL_PROXY_PORT".toList
  let cfg :=
    if portStr ≠ [] then
      let (port, err) := Atoi portStr
      if err = none ∧ port > 0 ∧ port < 65536 then { cfg with Port := port } else cfg
    else cfg
  let origin := Getenv env "LOCAL_AI_TOOL_PROXY_ALLOWED_ORIGIN".toList
  let cfg := if origin ≠ [] then { cfg with AllowedOrigin := origin } else cfg
  let provider := Getenv env "LOCAL_AI_TOOL_PROXY_PROVIDER".toList
  let cfg := if provider ≠ [] then { cfg with Provider := provider } else cfg
  let cfg := { cfg with TLSCert := Getenv env "LOCAL_AI_TOOL_PROXY_TLS_CERT".toList }
  let cfg := { cfg with TLSKey := Getenv env "LOCAL_AI_TOOL_PROXY_TLS_KEY".toList }
  let cfg := { cfg with
    SystemPromptPath := Getenv env "LOCAL_AI_TOOL_PROXY_SYSTEM_PROMPT".toList }
  if cfg.SystemPromptPath = [] then (Config.zero, some .systemPromptRequired)
  else
    let (data, err) := ReadFile cfg.SystemPromptPath
    match err with
    | some e => (Config.zero, some (.readFailed e))
    | none =>
      let cfg := { cfg with SystemPrompt := TrimSpace data }
      if cfg.SystemPrompt = [] then
        (Config.zero, some (.systemPromptEmpty cfg.SystemPromptPath))
      else (cfg, none)

/-- The integer a text denotes in base 10: an optional sign `+` or `-`, then one or more
digits `0` to `9`; `none` for every other text. -/
def decimalInteger (s : GoString) : Option Int :=
  let value (ds : GoString) : Int := ((ds.foldl (fun n c => n * 10 + digitVal c) 0 : Nat) : Int)
  match s with
  | '-' :: ds => if ds ≠ [] ∧ ds.all isDigit = true then some (- value ds) else none
  | '+' :: ds => if ds ≠ [] ∧ ds.all isDigit = true then some (value ds) else none
  | ds => if ds ≠ [] ∧ ds.all isDigit = true then some (value ds) else none

/-! ## `internal/handler/handler.go` over providers with state -/

/-- The interface `provider.Generator` as the handler meets it at run time: a call of
`Generate` returns a string and an error and changes the state of the world around the
handler (the subprocess it runs, what the next call will answer). -/
structure StatefulGenerator (σ : Type) where
  Generate : GoString → GoString → σ → (GoString × Option GoError) × σ

/-- Go `Handler` with providers that have state. -/
structure StatefulHandler (σ : Type) where
  providers : List (GoString × StatefulGenerator σ)
  defaultProvider : GoString
  allowedOrigin : GoString
  systemPrompt : GoString

/-- The fields of the handler that `setCORSHeaders`, `sendError` and `sendJSON` read. -/
def StatefulHandler.settings {σ : Type} (h : StatefulHandler σ) : Handler :=
  { providers := []
    defaultProvider := h.defaultProvider
    allowedOrigin := h.allowedOrigin
    systemPrompt := h.systemPrompt }

/-- What a run of `HandlePrompt` over providers with state leaves: the response, the log
lines and the state after the run. -/
structure StatefulOutcome (σ : Type) where
  w : ResponseRecorder
  log : List LogEntry
  state : σ

/-- Go `(*Handler).HandlePrompt`, with the state passed through: each call of `Generate`
is one step of the state, and the statements after the call see the state it left. -/
def StatefulHandler.HandlePrompt {σ : Type} (h : StatefulHandler σ) (r : HTTPRequest)
    (s : σ) : StatefulOutcome σ :=
  let w := h.settings.setCORSHeaders ResponseRecorder.new
  if r.Method = "OPTIONS".toList then
    { w := w.WriteHeader 200, log := [], state := s }
  else if r.Method ≠ "POST".toList then
    { w := h.settings.sendError w "Method not allowed".toList 405, log := [], state := s }
  else
    let (req, ok) := decodeRequest r.Body
    if ¬ ok then
      { w := h.settings.sendError w "Invalid JSON".toList 400, log := [.invalidJSON],
        state := s }
    else if req.User = [] then
      { w := h.settings.sendError w "The 'user' field is required".toList 400,
        log := [.missingUser req.User], state := s }
    else
      let providerName := if req.Provider = [] then h.defaultProvider else req.Provider
      match h.providers.lookup providerName with
      | none =>
        { w := h.settings.sendError w ("Unknown provider: ".toList ++ providerName) 400,
          log := [.unknownProvider providerName], state := s }
      | some p =>
        let ((result, err), s1) := p.Generate h.systemPrompt req.User s
        match err with
        | some e =>
          { w := h.settings.sendError w "Failed to generate response".toList 500,
            log := [.generating providerName req.User, .cliFailed providerName e],
            state := s1 }
        | none =>
          { w := h.settings.sendJSON w { ResponseText := result, Error := [] },
            log := [.generating providerName req.User, .success],
            state := s1 }

/-- A provider without state of its own, as a provider over the list of the calls made
so far: a call returns what the provider returns and adds itself to the list. -/
def Generator.recording (name : GoString) (p : Generator) :
    StatefulGenerator (List GenerateCall) :=
  ⟨fun systemPrompt userPrompt calls =>
    (p.Generate systemPrompt userPrompt, calls ++ [⟨name, systemPrompt, userPrompt⟩])⟩

/-- A handler over providers without state, as a handler over the list of the calls made
so far. -/
def Handler.recording (h : Handler) : StatefulHandler (List GenerateCall) :=
  { providers := h.providers.map (fun kv => (kv.1, kv.2.recording kv.1))
    defaultProvider := h.defaultProvider
    allowedOrigin := h.allowedOrigin
    systemPrompt := h.systemPrompt }

/-! ## `internal/handler/handler_test.go`: the test doubles -/

/-- Go `mockGenerator`: `Generate` returns the stored response and error. -/
def mockGenerator (response : GoString) (err : Option GoError) : Generator :=
  ⟨fun _ _ => (response, err)⟩

/-- Go `newTestHandler`: one provider, `claude`, which is also the default. -/
def newTestHandler (mock : Generator) : Handler :=
  { providers := [("claude".toList, mock)]
    defaultProvider := "claude".toList
    allowedOrigin := "http://localhost:3000".toList
    systemPrompt := "You are a test assistant.".toList }

/-- Go `newTestHandlerWithProviders`. -/
def newTestHandlerWithProviders (providers : List (GoString × Generator))
    (defaultProvider : GoString) : Handler :=
  { providers := providers
    defaultProvider := defaultProvider
    allowedOrigin := "http://localhost:3000".toList
    systemPrompt := "You are a test assistant.".toList }

/-! ## Lemmas: white space -/

theorem dropWhile_eq_nil_of_all {p : Char → Bool} :
    ∀ (s : GoString), (∀ c ∈ s, p c = true) → s.dropWhile p = []
  | [], _ => rfl
  | c :: cs, h => by
    have hc : p c = true := h c (List.mem_cons_self _ _)
    have hcs : ∀ d ∈ cs, p d = true := fun d hd => h d (List.mem_cons_of_mem _ hd)
    simp [List.dropWhile, hc, dropWhile_eq_nil_of_all cs hcs]

theorem TrimSpace_blank (s : GoString) (h : ∀ c ∈ s, isSpace c = true) : TrimSpace s = [] := by
  unfold TrimSpace
  rw [dropWhile_eq_nil_of_all s h]
  rfl

theorem not_isSpace_of_digit (c : Char) (h : '1' ≤ c ∧ c ≤ '9') : isSpace c = false := by
  have h1 := h.1
  have h2 := h.2
  rw [Char.le_def] at h1 h2
  have h3 : 49 ≤ c.toNat := h1
  have h4 : c.toNat ≤ 57 := h2
  simp only [isSpace, Bool.or_eq_false_iff, Bool.and_eq_false_iff, beq_eq_false_iff_ne,
    decide_eq_false_iff_not]
  omega

theorem stateBeginValue_space (c : Char) (h : isSpace c = true) :
    stateBeginValue [] c = .next [] .beginValue ∨ stateBeginValue [] c = .error := by
  unfold stateBeginValue
  by_cases hj : isJSONSpace c = true
  · left; simp [hj]
  · right
    have e1 : c ≠ '\x7b' := by rintro rfl; exact absurd h (by decide)
    have e2 : c ≠ '[' := by rintro rfl; exact absurd h (by decide)
    have e3 : c ≠ '"' := by rintro rfl; exact absurd h (by decide)
    have e4 : c ≠ '-' := by rintro rfl; exact absurd h (by decide)
    have e5 : c ≠ '0' := by rintro rfl; exact absurd h (by decide)
    have e6 : c ≠ 't' := by rintro rfl; exact absurd h (by decide)
    have e7 : c ≠ 'f' := by rintro rfl; exact absurd h (by decide)
    have e8 : c ≠ 'n' := by rintro rfl; exact absurd h (by decide)
    have e9 : ¬ ('1' ≤ c ∧ c ≤ '9') := by
      intro hd
      rw [not_isSpace_of_digit c hd] at h
      exact Bool.noConfusion h
    simp [hj, e1, e2, e3, e4, e5, e6, e7, e8, e9]

/-- A text of white space only holds no JSON value. -/
theorem readValue_blank : ∀ (s : GoString), (∀ c ∈ s, isSpace c = true) →
    scanLoop [] .beginValue s = none
  | [], _ => rfl
  | c :: cs, h => by
    have hc : isSpace c = true := h c (List.mem_cons_self _ _)
    have hcs : ∀ d ∈ cs, isSpace d = true := fun d hd => h d (List.mem_cons_of_mem _ hd)
    unfold scanLoop
    simp only [scanStep]
    rcases stateBeginValue_space c hc with h1 | h1
    · rw [h1]; exact readValue_blank cs hcs
    · rw [h1]

theorem parseJSON_blank (s : GoString) (h : ∀ c ∈ s, isSpace c = true) : parseJSON s = none := by
  unfold parseJSON readValue
  rw [readValue_blank s h]

/-! ## The parsers on blank output -/

/-- C2: on a standard output that is empty or holds white space only (`unicode.IsSpace`),
`parseClaudeResponse`, `parseGeminiResponse` and `parseContinueResponse` each return the
empty string and the error `ErrParsing`. -/
theorem parsers_blank_ErrParsing (stdout : GoString) (h : ∀ c ∈ stdout, isSpace c = true) :
    parseClaudeResponse stdout = ([], some .ErrParsing) ∧
    parseGeminiResponse stdout = ([], some .ErrParsing) ∧
    parseContinueResponse stdout = ([], some .ErrParsing) := by
  have hj := parseJSON_blank stdout h
  have ht := TrimSpace_blank stdout h
  simp [parseClaudeResponse, parseGeminiResponse, parseContinueResponse, unmarshalClaude,
    unmarshalGemini, unmarshalContinue, hj, ht]

theorem parsers_blank_ErrParsing_witness :
    (∀ c ∈ " \t\n ".toList, isSpace c = true) ∧
    parseClaudeResponse " \t\n ".toList = ([], some .ErrParsing) ∧
    parseGeminiResponse " \t\n ".toList = ([], some .ErrParsing) ∧
    parseContinueResponse " \t\n ".toList = ([], some .ErrParsing) :=
  ⟨by decide, parsers_blank_ErrParsing " \t\n ".toList (by decide)⟩

/-! ## The dispatcher -/

/-- The status and the JSON document of an error response. -/
theorem sendError_body (h : Handler) (w : ResponseRecorder) (msg : GoString) (code : Nat)
    (hm : msg ≠ []) (hw : w.Body = []) :
    (h.sendError w msg code).Body = [.object [("error".toList, .string msg)]] ∧
    (h.sendError w msg code).Code = code := by
  simp [Handler.sendError, ResponseRecorder.encode, ResponseRecorder.WriteHeader,
    ResponseRecorder.setHeader, Response.toJSON, hm, hw]

/-- A POST whose body decodes without error into a `Request` with an empty `User` is
answered with status 400 and the error message `The 'user' field is required`, whatever
the `Provider` field holds, and `Generate` is not called. -/
theorem HandlePrompt_of_empty_user (h : Handler) (body : GoString) (req : Request)
    (hdec : decodeRequest body = (req, true)) (hu : req.User = []) :
    (h.HandlePrompt ⟨"POST".toList, body⟩).w.Code = 400 ∧
    (h.HandlePrompt ⟨"POST".toList, body⟩).w.Body =
      [.object [("error".toList, .string "The 'user' field is required".toList)]] ∧
    (h.HandlePrompt ⟨"POST".toList, body⟩).calls = [] := by
  have hne : "POST".toList ≠ "OPTIONS".toList := by decide
  simp [Handler.HandlePrompt, hdec, hu, hne, Handler.sendError, ResponseRecorder.encode,
    ResponseRecorder.WriteHeader, ResponseRecorder.setHeader, Response.toJSON,
    Handler.setCORSHeaders, ResponseRecorder.new]

/-- A POST whose body decodes without error into a `Request` with a non-empty `User` and
a non-empty `Provider` value `v` that is no key of the registry is answered with status
400 and the error message `Unknown provider: ` followed by `v` as it is, and `Generate`
is not called. -/
theorem HandlePrompt_of_unregistered (h : Handler) (body : GoString) (req : Request)
    (v : GoString) (hdec : decodeRequest body = (req, true)) (hu : req.User ≠ [])
    (hp : req.Provider = v) (hv : v ≠ []) (hreg : v ∉ h.providers.map Prod.fst) :
    (h.HandlePrompt ⟨"POST".toList, body⟩).w.Code = 400 ∧
    (h.HandlePrompt ⟨"POST".toList, body⟩).w.Body =
      [.object [("error".toList, .string ("Unknown provider: ".toList ++ v))]] ∧
    (h.HandlePrompt ⟨"POST".toList, body⟩).calls = [] := by
  have hne : "POST".toList ≠ "OPTIONS".toList := by decide
  have hl : h.providers.lookup v = none := by
    rw [List.lookup_eq_none_iff]
    intro kv hkv
    simp only [List.mem_map, not_exists, not_and] at hreg
    have := hreg kv hkv
    exact bne_iff_ne.mpr (fun hv2 => this hv2.symm)
  subst hp
  have hm : "Unknown provider: ".toList ++ req.Provider ≠ [] :=
    List.append_ne_nil_of_left_ne_nil (by decide) _
  have w1 : (h.HandlePrompt ⟨"POST".toList, body⟩) =
      { w := h.sendError (h.setCORSHeaders ResponseRecorder.new)
          ("Unknown provider: ".toList ++ req.Provider) 400,
        log := [.unknownProvider req.Provider], calls := [] } := by
    unfold Handler.HandlePrompt
    simp only [hne, if_false, hdec, ne_eq, not_true_eq_false, Bool.not_eq_true, hu, hv, hl]
  rw [w1]
  have hb := sendError_body h (h.setCORSHeaders ResponseRecorder.new)
    ("Unknown provider: ".toList ++ req.Provider) 400 hm rfl
  exact ⟨hb.2, hb.1, rfl⟩

/-- C10: when the resolved provider returns an error, whatever the error and whatever
the string returned with it, the response is status 500 with the error message
`Failed to generate response`; the whole response is a function of the configured
origin alone, so two failing runs with the same origin give the same response and no
text of the error reaches the client. -/
theorem HandlePrompt_generator_error (h h2 : Handler) (body body2 : GoString)
    (req req2 : Request) (p p2 : Generator) (result result2 : GoString) (e e2 : GoError)
    (hdec : decodeRequest body = (req, true)) (hu : req.User ≠ [])
    (hp : h.providers.lookup (if req.Provider = [] then h.defaultProvider else req.Provider)
      = some p)
    (herr : p.Generate h.systemPrompt req.User = (result, some e))
    (hdec2 : decodeRequest body2 = (req2, true)) (hu2 : req2.User ≠ [])
    (hp2 : h2.providers.lookup
      (if req2.Provider = [] then h2.defaultProvider else req2.Provider) = some p2)
    (herr2 : p2.Generate h2.systemPrompt req2.User = (result2, some e2))
    (horigin : h.allowedOrigin = h2.allowedOrigin) :
    (h.HandlePrompt ⟨"POST".toList, body⟩).w.Code = 500 ∧
    (h.HandlePrompt ⟨"POST".toList, body⟩).w.Body =
      [.object [("error".toList, .string "Failed to generate response".toList)]] ∧
    (h.HandlePrompt ⟨"POST".toList, body⟩).w = (h2.HandlePrompt ⟨"POST".toList, body2⟩).w := by
  have hne : "POST".toList ≠ "OPTIONS".toList := by decide
  have w1 : (h.HandlePrompt ⟨"POST".toList, body⟩).w =
      h.sendError (h.setCORSHeaders ResponseRecorder.new)
        "Failed to generate response".toList 500 := by
    unfold Handler.HandlePrompt
    simp only [hne, if_false, hdec, ne_eq, not_true_eq_false, Bool.not_eq_true, hu, hp, herr]
  have w2 : (h2.HandlePrompt ⟨"POST".toList, body2⟩).w =
      h2.sendError (h2.setCORSHeaders ResponseRecorder.new)
        "Failed to generate response".toList 500 := by
    unfold Handler.HandlePrompt
    simp only [hne, if_false, hdec2, ne_eq, not_true_eq_false, Bool.not_eq_true, hu2, hp2, herr2]
  rw [w1, w2]
  refine ⟨rfl, rfl, ?_⟩
  simp only [Handler.sendError, Handler.setCORSHeaders, horigin]

theorem HandlePrompt_generator_error_witness :
    ((newTestHandler (mockGenerator [] (some (.join .ErrCLIExecution
        (.new "secret stderr".toList))))).HandlePrompt
      ⟨"POST".toList, "\x7b\"user\":\"Say hello\"\x7d".toList⟩).w =
    ((newTestHandler (mockGenerator [] (some .ErrParsing))).HandlePrompt
      ⟨"POST".toList, "\x7b\"user\":\"Other\"\x7d".toList⟩).w :=
  (HandlePrompt_generator_error
    (newTestHandler (mockGenerator [] (some (.join .ErrCLIExecution
        (.new "secret stderr".toList)))))
    (newTestHandler (mockGenerator [] (some .ErrParsing)))
    "\x7b\"user\":\"Say hello\"\x7d".toList "\x7b\"user\":\"Other\"\x7d".toList
    ⟨"Say hello".toList, []⟩ ⟨"Other".toList, []⟩ _ _ [] []
    (.join .ErrCLIExecution (.new "secret stderr".toList)) .ErrParsing
    (by decide) (by decide) rfl rfl (by decide) (by decide) rfl rfl rfl).2.2

/-! ## Lemmas: decoding into structs -/

theorem foldl_filter_of_skip {α β : Type} (f : β → α → β) (p : α → Bool)
    (hskip : ∀ b a, p a = false → f b a = b) :
    ∀ (l : List α) (b : β), l.foldl f b = (l.filter p).foldl f b
  | [], _ => rfl
  | a :: l, b => by
    cases hp : p a
    · simp [List.filter, hp, hskip b a hp, foldl_filter_of_skip f p hskip l b]
    · simp [List.filter, hp, foldl_filter_of_skip f p hskip l (f b a)]

theorem findField_singleton (n key : GoString) :
    findField [n] key = some 0 ∨ findField [n] key = none := by
  unfold findField
  simp only [List.findIdx?_cons, List.findIdx?_nil]
  by_cases h1 : (n == key) = true
  · left; simp [h1]
  · by_cases h2 : (foldName n == foldName key) = true
    · left; simp [h1, h2]
    · right; simp [h1, h2]

theorem ClaudeStructuredOutput_setMember_skip (acc : ClaudeStructuredOutput × Bool)
    (kv : GoString × JSON) (h : (findField ["response".toList] kv.1 == some 0) = false) :
    ClaudeStructuredOutput.setMember acc kv = acc := by
  unfold ClaudeStructuredOutput.setMember
  rcases findField_singleton "response".toList kv.1 with h1 | h1
  · rw [h1] at h; exact absurd h (by decide)
  · rw [h1]

theorem ClaudeEnvelope_setMember_skip (acc : ClaudeEnvelope × Bool)
    (kv : GoString × JSON)
    (h : (findField ["structured_output".toList] kv.1 == some 0) = false) :
    ClaudeEnvelope.setMember acc kv = acc := by
  unfold ClaudeEnvelope.setMember
  rcases findField_singleton "structured_output".toList kv.1 with h1 | h1
  · rw [h1] at h; exact absurd h (by decide)
  · rw [h1]

theorem GeminiEnvelope_setMember_skip (acc : GeminiEnvelope × Bool)
    (kv : GoString × JSON) (h : (findField ["response".toList] kv.1 == some 0) = false) :
    GeminiEnvelope.setMember acc kv = acc := by
  unfold GeminiEnvelope.setMember
  rcases findField_singleton "response".toList kv.1 with h1 | h1
  · rw [h1] at h; exact absurd h (by decide)
  · rw [h1]

theorem findField_of_membersOf {names : List GoString} {i : Nat}
    {ms : List (GoString × JSON)} {kv : GoString × JSON} {l : List (GoString × JSON)}
    (h : membersOf names i ms = kv :: l) : findField names kv.1 = some i := by
  have hm : kv ∈ membersOf names i ms := by rw [h]; exact List.mem_cons_self _ _
  unfold membersOf at hm
  have := (List.mem_filter.mp hm).2
  simpa using this

/-- The inner struct of the Claude envelope decoded from an object in which exactly one
key selects the field `response`. -/
theorem ClaudeStructuredOutput_decode_single (cur : ClaudeStructuredOutput)
    (ms : List (GoString × JSON)) (k : GoString) (v : JSON)
    (h : membersOf ["response".toList] 0 ms = [(k, v)]) :
    ClaudeStructuredOutput.decode cur (.object ms) =
      (⟨(storeString cur.Response v).1⟩, (storeString cur.Response v).2) := by
  have hk := findField_of_membersOf h
  show List.foldl ClaudeStructuredOutput.setMember (cur, true) ms = _
  rw [foldl_filter_of_skip ClaudeStructuredOutput.setMember
    (fun kv => findField ["response".toList] kv.1 == some 0)
    (fun b a => ClaudeStructuredOutput_setMember_skip b a)]
  unfold membersOf at h
  rw [h]
  simp only [List.foldl, ClaudeStructuredOutput.setMember]
  simp only at hk
  rw [hk]
  simp

/-- The Claude envelope decoded from an object in which exactly one key selects the
field `structured_output`. -/
theorem ClaudeEnvelope_decode_single (cur : ClaudeEnvelope)
    (ms : List (GoString × JSON)) (k : GoString) (v : JSON)
    (h : membersOf ["structured_output".toList] 0 ms = [(k, v)]) :
    ClaudeEnvelope.decode cur (.object ms) =
      (⟨(ClaudeStructuredOutput.decode cur.StructuredOutput v).1⟩,
        (ClaudeStructuredOutput.decode cur.StructuredOutput v).2) := by
  have hk := findField_of_membersOf h
  show List.foldl ClaudeEnvelope.setMember (cur, true) ms = _
  rw [foldl_filter_of_skip ClaudeEnvelope.setMember
    (fun kv => findField ["structured_output".toList] kv.1 == some 0)
    (fun b a => ClaudeEnvelope_setMember_skip b a)]
  unfold membersOf at h
  rw [h]
  simp only [List.foldl, ClaudeEnvelope.setMember]
  simp only at hk
  rw [hk]
  simp

/-- The Gemini envelope decoded from an object in which exactly one key selects the
field `response`. -/
theorem GeminiEnvelope_decode_single (cur : GeminiEnvelope)
    (ms : List (GoString × JSON)) (k : GoString) (v : JSON)
    (h : membersOf ["response".toList] 0 ms = [(k, v)]) :
    GeminiEnvelope.decode cur (.object ms) =
      (⟨(storeString cur.Response v).1⟩, (storeString cur.Response v).2) := by
  have hk := findField_of_membersOf h
  show List.foldl GeminiEnvelope.setMember (cur, true) ms = _
  rw [foldl_filter_of_skip GeminiEnvelope.setMember
    (fun kv => findField ["response".toList] kv.1 == some 0)
    (fun b a => GeminiEnvelope_setMember_skip b a)]
  unfold membersOf at h
  rw [h]
  simp only [List.foldl, GeminiEnvelope.setMember]
  simp only at hk
  rw [hk]
  simp

/-! ## The structured tier of the parsers -/

/-- C1, as amended: when the standard output is a JSON object in which exactly one key
selects the field `structured_output` (by its exact name or by case folding), the value
of that key is an object in which exactly one key selects the field `response`, and the
value of that one is a non-empty string `X`, then `parseClaudeResponse` returns `X` as
it is, neither trimmed nor stripped of fences, and no error.  Keys that select no field
may be present at both levels. -/
theorem parseClaudeResponse_structured (stdout : GoString)
    (ms ms2 : List (GoString × JSON)) (k1 k2 X : GoString)
    (hjson : parseJSON stdout = some (.object ms))
    (h1 : membersOf ["structured_output".toList] 0 ms = [(k1, .object ms2)])
    (h2 : membersOf ["response".toList] 0 ms2 = [(k2, .string X)])
    (hX : X ≠ []) :
    parseClaudeResponse stdout = (X, none) := by
  unfold parseClaudeResponse unmarshalClaude
  rw [hjson]
  simp only [ClaudeEnvelope_decode_single _ ms k1 _ h1,
    ClaudeStructuredOutput_decode_single _ ms2 k2 _ h2, storeString]
  simp [hX]

theorem parseClaudeResponse_structured_witness :
    parseClaudeResponse
      "\x7b\"structured_output\":\x7b\"response\":\"```sql\\nSELECT 1\\n```\"\x7d,\"type\":\"result\"\x7d".toList
      = ("```sql\nSELECT 1\n```".toList, none) :=
  parseClaudeResponse_structured _
    [("structured_output".toList, .object [("response".toList, .string "```sql\nSELECT 1\n```".toList)]),
     ("type".toList, .string "result".toList)]
    [("response".toList, .string "```sql\nSELECT 1\n```".toList)]
    "structured_output".toList "response".toList "```sql\nSELECT 1\n```".toList
    (by rfl) (by rfl) (by rfl) (by decide)

/-- C1 fails as stated: this output is a JSON object whose `structured_output.response`
is the non-empty string `X`, with one other key, `Structured_Output`; the other key
selects the same struct field by case folding and overwrites the response with the
empty string, so the parser falls back to the whole raw text instead of `X`. -/
theorem parseClaudeResponse_other_key_counterexample :
    parseJSON
      "\x7b\"structured_output\":\x7b\"response\":\"X\"\x7d,\"Structured_Output\":\x7b\"response\":\"\"\x7d\x7d".toList
      = some (.object
          [("structured_output".toList, .object [("response".toList, .string "X".toList)]),
           ("Structured_Output".toList, .object [("response".toList, .string [])])]) ∧
    parseClaudeResponse
      "\x7b\"structured_output\":\x7b\"response\":\"X\"\x7d,\"Structured_Output\":\x7b\"response\":\"\"\x7d\x7d".toList
      = ("\x7b\"structured_output\":\x7b\"response\":\"X\"\x7d,\"Structured_Output\":\x7b\"response\":\"\"\x7d\x7d".toList,
         none) ∧
    parseClaudeResponse
      "\x7b\"structured_output\":\x7b\"response\":\"X\"\x7d,\"Structured_Output\":\x7b\"response\":\"\"\x7d\x7d".toList
      ≠ ("X".toList, none) :=
  ⟨by rfl, by decide, by decide⟩

theorem findField_pair (r s key : GoString) (hrs : foldName r ≠ foldName s) :
    findField [r, s] key =
      if findField [r] key = some 0 then some 0
      else if findField [s] key = some 0 then some 1
      else none := by
  unfold findField
  simp only [List.findIdx?_cons, List.findIdx?_nil]
  by_cases h1 : (r == key) = true
  · simp [h1]
  · by_cases h2 : (s == key) = true
    · have hk : s = key := beq_iff_eq.mp h2
      subst hk
      have h3 : (foldName r == foldName s) = false := beq_eq_false_iff_ne.mpr hrs
      simp [h1, h3]
    · by_cases h3 : (foldName r == foldName key) = true
      · simp [h1, h2, h3]
      · by_cases h4 : (foldName s == foldName key) = true
        · simp [h1, h2, h3, h4]
        · simp [h1, h2, h3, h4]

theorem findField_response_status (key : GoString) :
    findField ["response".toList, "status".toList] key =
      if findField ["response".toList] key = some 0 then some 0
      else if findField ["status".toList] key = some 0 then some 1
      else none :=
  findField_pair _ _ key (by decide)

/-- Decoding into `continueResponse` agrees with decoding into the Gemini envelope on
the field `Response` and on the error, when every member that selects `status` is a
string. -/
theorem continueResponse_foldl_eq_gemini :
    ∀ (ms : List (GoString × JSON)) (cur : continueResponse) (b : Bool),
      (∀ kv ∈ membersOf ["status".toList] 0 ms, ∃ s, kv.2 = .string s) →
      ((ms.foldl continueResponse.setMember (cur, b)).1.Response =
        (ms.foldl GeminiEnvelope.setMember (⟨cur.Response⟩, b)).1.Response) ∧
      ((ms.foldl continueResponse.setMember (cur, b)).2 =
        (ms.foldl GeminiEnvelope.setMember (⟨cur.Response⟩, b)).2)
  | [], _, _, _ => ⟨rfl, rfl⟩
  | kv :: ms, cur, b, h => by
    have hms : ∀ kv2 ∈ membersOf ["status".toList] 0 ms, ∃ s, kv2.2 = .string s := by
      intro kv2 hkv2
      apply h kv2
      unfold membersOf at hkv2 ⊢
      rw [List.filter_cons]
      split
      · exact List.mem_cons_of_mem _ hkv2
      · exact hkv2
    simp only [List.foldl]
    have hc : continueResponse.setMember (cur, b) kv =
        (⟨(GeminiEnvelope.setMember (⟨cur.Response⟩, b) kv).1.Response,
          (continueResponse.setMember (cur, b) kv).1.Status⟩,
          (GeminiEnvelope.setMember (⟨cur.Response⟩, b) kv).2) := by
      unfold continueResponse.setMember GeminiEnvelope.setMember
      rw [findField_response_status]
      rcases findField_singleton "response".toList kv.1 with h1 | h1
      · rw [h1]; rfl
      · rcases findField_singleton "status".toList kv.1 with h2 | h2
        · have hmem : kv ∈ membersOf ["status".toList] 0 (kv :: ms) := by
            unfold membersOf
            rw [List.filter_cons, h2]
            exact List.mem_cons_self _ _
          obtain ⟨s, hs⟩ := h kv hmem
          rw [h1, h2, hs]
          cases b <;> rfl
        · rw [h1, h2]; rfl
    rw [hc]
    exact continueResponse_foldl_eq_gemini ms _ _ hms

/-- C4, as amended: when the standard output is a JSON object in which exactly one key
selects the field `response` (by its exact name or by case folding), with a non-empty
string `X` as its value, and every key that selects the field `status` has a string as
its value, then `parseGeminiResponse` and `parseContinueResponse` both return
`CleanResponse X` and no error. -/
theorem parse_response_field (stdout : GoString) (ms : List (GoString × JSON))
    (k X : GoString)
    (hjson : parseJSON stdout = some (.object ms))
    (h1 : membersOf ["response".toList] 0 ms = [(k, .string X)])
    (hX : X ≠ [])
    (hstatus : ∀ kv ∈ membersOf ["status".toList] 0 ms, ∃ s, kv.2 = .string s) :
    parseGeminiResponse stdout = (CleanResponse X, none) ∧
    parseContinueResponse stdout = (CleanResponse X, none) := by
  have hg : GeminiEnvelope.decode ⟨[]⟩ (.object ms) = (⟨X⟩, true) := by
    rw [GeminiEnvelope_decode_single _ ms k _ h1]
    rfl
  have hc := continueResponse_foldl_eq_gemini ms ⟨[], []⟩ true hstatus
  have hg2 : ms.foldl GeminiEnvelope.setMember (⟨[]⟩, true) = (⟨X⟩, true) := hg
  rw [hg2] at hc
  constructor
  · unfold parseGeminiResponse unmarshalGemini
    rw [hjson]
    simp [hg, hX]
  · unfold parseContinueResponse unmarshalContinue
    rw [hjson]
    show (if (ms.foldl continueResponse.setMember (⟨[], []⟩, true)).2 = true ∧
        (ms.foldl continueResponse.setMember (⟨[], []⟩, true)).1.Response ≠ [] then _ else _)
        = _
    rw [hc.1, hc.2]
    simp [hX]

theorem parse_response_field_witness :
    parseGeminiResponse "\x7b\"response\":\"```sql\\nSELECT 1\\n```\"\x7d".toList
      = ("SELECT 1".toList, none) ∧
    parseContinueResponse "\x7b\"response\":\"```sql\\nSELECT 1\\n```\"\x7d".toList
      = ("SELECT 1".toList, none) :=
  (parse_response_field "\x7b\"response\":\"```sql\\nSELECT 1\\n```\"\x7d".toList
    [("response".toList, .string "```sql\nSELECT 1\n```".toList)]
    "response".toList "```sql\nSELECT 1\n```".toList
    (by rfl) (by rfl) (by decide)
    (by
      intro kv hkv
      have e : membersOf ["status".toList] 0
          [("response".toList, JSON.string "```sql\nSELECT 1\n```".toList)] = [] := by rfl
      rw [e] at hkv
      exact absurd hkv (List.not_mem_nil _))).imp
    (fun h => h.trans (by decide)) (fun h => h.trans (by decide))

/-- C4 fails as stated: this output is a JSON object whose top-level `response` is the
non-empty string `X` and which has no `status`; its other key, `Response`, selects the
same struct field by case folding and overwrites it with the empty string, so both
parsers fall back to the raw text instead of `CleanResponse X`. -/
theorem parse_response_field_other_key_counterexample :
    parseJSON "\x7b\"response\":\"X\",\"Response\":\"\"\x7d".toList
      = some (.object [("response".toList, .string "X".toList),
          ("Response".toList, .string [])]) ∧
    CleanResponse "X".toList = "X".toList ∧
    parseGeminiResponse "\x7b\"response\":\"X\",\"Response\":\"\"\x7d".toList
      = ("\x7b\"response\":\"X\",\"Response\":\"\"\x7d".toList, none) ∧
    parseContinueResponse "\x7b\"response\":\"X\",\"Response\":\"\"\x7d".toList
      = ("\x7b\"response\":\"X\",\"Response\":\"\"\x7d".toList, none) :=
  ⟨by rfl, by decide, by decide, by decide⟩

/-! ## The fallback tier of `parseClaudeResponse` -/

/-- The field `Response` of the inner struct stays empty while no key that selects it
holds a non-empty string. -/
theorem ClaudeStructuredOutput_foldl_empty : ∀ (ms : List (GoString × JSON))
    (acc : ClaudeStructuredOutput × Bool), acc.1.Response = [] →
    (∀ kv ∈ membersOf ["response".toList] 0 ms, ∀ X, kv.2 = .string X → X = []) →
    (ms.foldl ClaudeStructuredOutput.setMember acc).1.Response = []
  | [], _, hacc, _ => hacc
  | kv :: ms, acc, hacc, h => by
    rw [List.foldl_cons]
    apply ClaudeStructuredOutput_foldl_empty ms
    · unfold ClaudeStructuredOutput.setMember
      rcases findField_singleton "response".toList kv.1 with h1 | h1
      · rw [h1]
        have hm : kv ∈ membersOf ["response".toList] 0 (kv :: ms) := by
          unfold membersOf
          exact List.mem_filter.mpr ⟨List.mem_cons_self _ _, by rw [h1]; rfl⟩
        have hkv := h kv hm
        simp only
        cases hv : kv.2 with
        | string s => rw [hv] at hkv; exact hkv s rfl
        | null => exact hacc
        | bool b => exact hacc
        | number n => exact hacc
        | array a => exact hacc
        | object o => exact hacc
      · rw [h1]
        exact hacc
    · intro kv2 hkv2
      apply h kv2
      unfold membersOf at hkv2 ⊢
      exact List.mem_filter.mpr
        ⟨List.mem_cons_of_mem _ (List.mem_filter.mp hkv2).1, (List.mem_filter.mp hkv2).2⟩

/-- The field `StructuredOutput.Response` of the envelope stays empty while no key that
selects it, inside an object under a key that selects `structured_output`, holds a
non-empty string. -/
theorem ClaudeEnvelope_foldl_empty : ∀ (ms : List (GoString × JSON))
    (acc : ClaudeEnvelope × Bool), acc.1.StructuredOutput.Response = [] →
    (∀ kv ∈ membersOf ["structured_output".toList] 0 ms, ∀ ms2, kv.2 = .object ms2 →
      ∀ kv2 ∈ membersOf ["response".toList] 0 ms2, ∀ X, kv2.2 = .string X → X = []) →
    (ms.foldl ClaudeEnvelope.setMember acc).1.StructuredOutput.Response = []
  | [], _, hacc, _ => hacc
  | kv :: ms, acc, hacc, h => by
    rw [List.foldl_cons]
    apply ClaudeEnvelope_foldl_empty ms
    · unfold ClaudeEnvelope.setMember
      rcases findField_singleton "structured_output".toList kv.1 with h1 | h1
      · rw [h1]
        have hm : kv ∈ membersOf ["structured_output".toList] 0 (kv :: ms) := by
          unfold membersOf
          exact List.mem_filter.mpr ⟨List.mem_cons_self _ _, by rw [h1]; rfl⟩
        have hkv := h kv hm
        simp only
        cases hv : kv.2 with
        | object ms2 =>
          exact ClaudeStructuredOutput_foldl_empty ms2 _ hacc (hkv ms2 hv)
        | null => exact hacc
        | bool b => exact hacc
        | number n => exact hacc
        | array a => exact hacc
        | string s => exact hacc
      · rw [h1]
        exact hacc
    · intro kv2 hkv2
      apply h kv2
      unfold membersOf at hkv2 ⊢
      exact List.mem_filter.mpr
        ⟨List.mem_cons_of_mem _ (List.mem_filter.mp hkv2).1, (List.mem_filter.mp hkv2).2⟩

/-- C5, as amended: when the trimmed standard output is non-empty and the output is not
valid JSON, or its JSON value is not an object, or it is an object in which no key that
selects the field `response` (by its exact name or by case folding), inside an object
held by a key that selects the field `structured_output`, holds a non-empty string,
then `parseClaudeResponse` returns `strings.TrimSpace` of the whole output and no
error. -/
theorem parseClaudeResponse_fallback (stdout : GoString) (htrim : TrimSpace stdout ≠ [])
    (h : ∀ ms, parseJSON stdout = some (.object ms) →
      ∀ kv ∈ membersOf ["structured_output".toList] 0 ms, ∀ ms2, kv.2 = .object ms2 →
        ∀ kv2 ∈ membersOf ["response".toList] 0 ms2, ∀ X, kv2.2 = .string X → X = []) :
    parseClaudeResponse stdout = (TrimSpace stdout, none) := by
  have hresp : (unmarshalClaude stdout).1.StructuredOutput.Response = [] := by
    unfold unmarshalClaude
    cases hj : parseJSON stdout with
    | none => rfl
    | some v =>
      cases v with
      | object ms => exact ClaudeEnvelope_foldl_empty ms _ rfl (h ms hj)
      | null => rfl
      | bool b => rfl
      | number n => rfl
      | array a => rfl
      | string s => rfl
  unfold parseClaudeResponse
  simp [hresp, htrim]

theorem parseClaudeResponse_fallback_witness :
    parseClaudeResponse "\x7b\"structured_output\":\x7b\"response\":\"\"\x7d\x7d".toList
      = ("\x7b\"structured_output\":\x7b\"response\":\"\"\x7d\x7d".toList, none) ∧
    parseClaudeResponse "  SELECT * FROM users;\n".toList
      = ("SELECT * FROM users;".toList, none) :=
  ⟨(parseClaudeResponse_fallback
      "\x7b\"structured_output\":\x7b\"response\":\"\"\x7d\x7d".toList (by decide)
      (by
        intro ms hms
        have e : parseJSON "\x7b\"structured_output\":\x7b\"response\":\"\"\x7d\x7d".toList
            = some (.object [("structured_output".toList,
                .object [("response".toList, .string [])])]) := by rfl
        rw [e] at hms
        cases hms
        intro kv hkv ms2 hms2 kv2 hkv2 X hX
        have e1 : membersOf ["structured_output".toList] 0
            [("structured_output".toList, JSON.object [("response".toList, .string [])])]
            = [("structured_output".toList, JSON.object [("response".toList, .string [])])] := by
          rfl
        rw [e1, List.mem_singleton] at hkv
        rw [hkv] at hms2
        cases hms2
        have e2 : membersOf ["response".toList] 0 [("response".toList, JSON.string [])]
            = [("response".toList, JSON.string [])] := by rfl
        rw [e2, List.mem_singleton] at hkv2
        rw [hkv2] at hX
        cases hX
        rfl)).trans (by decide),
    (parseClaudeResponse_fallback "  SELECT * FROM users;\n".toList (by decide)
      (by
        intro ms hms
        have e : parseJSON "  SELECT * FROM users;\n".toList = none := by rfl
        rw [e] at hms
        exact Option.noConfusion hms)).trans (by decide)⟩

/-- C5 fails as stated: in this output `structured_output` has no member named
`response`, and the trimmed text is non-empty, yet the parser does not return the
trimmed raw text: the key `RESPONSE` selects the field by case folding and its value
`hi` is returned. -/
theorem parseClaudeResponse_fallback_counterexample :
    parseJSON "\x7b\"structured_output\":\x7b\"RESPONSE\":\"hi\"\x7d\x7d".toList
      = some (.object [("structured_output".toList,
          .object [("RESPONSE".toList, .string "hi".toList)])]) ∧
    TrimSpace "\x7b\"structured_output\":\x7b\"RESPONSE\":\"hi\"\x7d\x7d".toList
      = "\x7b\"structured_output\":\x7b\"RESPONSE\":\"hi\"\x7d\x7d".toList ∧
    parseClaudeResponse "\x7b\"structured_output\":\x7b\"RESPONSE\":\"hi\"\x7d\x7d".toList
      = ("hi".toList, none) :=
  ⟨by rfl, by decide, by decide⟩

/-! ## Lemmas: the code-block pattern -/

theorem codeBlockRegex_matchHere (s : GoString) :
    codeBlockRegex.matchHere s =
      match stripLiteral fence s with
      | some rest => afterOpenFence rest
      | none => none := rfl

theorem stripLiteral_eq_some : ∀ (l s rest : GoString),
    stripLiteral l s = some rest ↔ s = l ++ rest
  | [], s, rest => by simp [stripLiteral, eq_comm]
  | a :: as, [], rest => by simp [stripLiteral]
  | a :: as, c :: cs, rest => by
    unfold stripLiteral
    by_cases h : a = c
    · subst h
      simp [stripLiteral_eq_some as cs rest]
    · simp only [h, if_false]
      constructor
      · intro h2; exact Option.noConfusion h2
      · intro h2
        simp only [List.cons_append, List.cons.injEq] at h2
        exact absurd h2.1.symm h

theorem stripLiteral_append (l rest : GoString) : stripLiteral l (l ++ rest) = some rest :=
  (stripLiteral_eq_some l _ rest).mpr rfl

/-- What the greedy star returns was returned by the continuation after a run of `p`. -/
theorem greedyStar_some (p : Char → Bool) (k : GoString → Option MatchResult) :
    ∀ (s : GoString) (m : MatchResult), greedyStar p k s = some m →
      ∃ a b, s = a ++ b ∧ (∀ c ∈ a, p c = true) ∧ k b = some m
  | [], m, h => ⟨[], [], rfl, by simp, h⟩
  | c :: cs, m, h => by
    unfold greedyStar at h
    by_cases hp : p c = true
    · simp only [hp, if_true] at h
      cases hg : greedyStar p k cs with
      | some r =>
        rw [hg] at h
        obtain ⟨a, b, hab, ha, hk⟩ := greedyStar_some p k cs r hg
        refine ⟨c :: a, b, by simp [hab], ?_, ?_⟩
        · intro d hd
          rcases List.mem_cons.mp hd with rfl | hd
          · exact hp
          · exact ha d hd
        · simpa using h ▸ hk
      | none =>
        rw [hg] at h
        exact ⟨[], c :: cs, rfl, by simp, h⟩
    · simp only [hp] at h
      exact ⟨[], c :: cs, rfl, by simp, h⟩

/-- The greedy star fails only when the continuation fails after every run of `p`. -/
theorem greedyStar_none (p : Char → Bool) (k : GoString → Option MatchResult) :
    ∀ (s : GoString), greedyStar p k s = none →
      ∀ a b, s = a ++ b → (∀ c ∈ a, p c = true) → k b = none
  | [], h, a, b, hab, _ => by
    have ha : a = [] := by
      cases a with
      | nil => rfl
      | cons x xs => simp at hab
    subst ha
    simp at hab
    subst hab
    exact h
  | c :: cs, h, a, b, hab, ha => by
    unfold greedyStar at h
    cases a with
    | nil =>
      simp at hab
      subst hab
      by_cases hp : p c = true
      · simp only [hp, if_true] at h
        cases hg : greedyStar p k cs with
        | some r => rw [hg] at h; exact Option.noConfusion h
        | none => rw [hg] at h; exact h
      · simp only [hp] at h
        exact h
    | cons x xs =>
      simp at hab
      obtain ⟨hx, hxs⟩ := hab
      subst hx
      have hp : p c = true := ha c (List.mem_cons_self _ _)
      simp only [hp, if_true] at h
      cases hg : greedyStar p k cs with
      | some r => rw [hg] at h; exact Option.noConfusion h
      | none =>
        exact greedyStar_none p k cs hg xs b hxs
          (fun d hd => ha d (List.mem_cons_of_mem _ hd))

/-- On an input that does not start with a rune of `p` the greedy star is the
continuation. -/
theorem greedyStar_of_not_head (p : Char → Bool) (k : GoString → Option MatchResult)
    (c : Char) (cs : GoString) (h : p c = false) : greedyStar p k (c :: cs) = k (c :: cs) := by
  unfold greedyStar
  simp [h]

/-- The greedy star takes the whole run of `p` when the continuation accepts after it. -/
theorem greedyStar_run (p : Char → Bool) (k : GoString → Option MatchResult) :
    ∀ (a b : GoString) (m : MatchResult), (∀ c ∈ a, p c = true) →
      (∀ c cs, b = c :: cs → p c = false) → k b = some m → greedyStar p k (a ++ b) = some m
  | [], b, m, _, hb, hk => by
    cases b with
    | nil => simpa [greedyStar] using hk
    | cons c cs => rw [List.nil_append, greedyStar_of_not_head p k c cs (hb c cs rfl)]; exact hk
  | x :: xs, b, m, ha, hb, hk => by
    have hx : p x = true := ha x (List.mem_cons_self _ _)
    have ih := greedyStar_run p k xs b m (fun d hd => ha d (List.mem_cons_of_mem _ hd)) hb hk
    show greedyStar p k (x :: (xs ++ b)) = some m
    unfold greedyStar
    simp [hx, ih]

/-- What the lazy star returns was returned by the continuation at the first point
where the continuation accepts. -/
theorem lazyStar_some (p : Char → Bool) (k : GoString → Option MatchResult) :
    ∀ (s : GoString) (m : MatchResult), lazyStar p k s = some m →
      ∃ a b, s = a ++ b ∧ k b = some m ∧
        ∀ a1 a2, a = a1 ++ a2 → a2 ≠ [] → k (a2 ++ b) = none
  | [], m, h => by
    refine ⟨[], [], rfl, h, ?_⟩
    intro a1 a2 h12 hne
    have : a2 = [] := (List.append_eq_nil.mp h12.symm).2
    exact absurd this hne
  | c :: cs, m, h => by
    unfold lazyStar at h
    cases hk : k (c :: cs) with
    | some r =>
      rw [hk] at h
      refine ⟨[], c :: cs, rfl, by rw [hk]; exact h, ?_⟩
      intro a1 a2 h12 hne
      have : a2 = [] := (List.append_eq_nil.mp h12.symm).2
      exact absurd this hne
    | none =>
      rw [hk] at h
      by_cases hp : p c = true
      · simp only [hp, if_true] at h
        obtain ⟨a, b, hab, hkb, hmin⟩ := lazyStar_some p k cs m h
        refine ⟨c :: a, b, by simp [hab], hkb, ?_⟩
        intro a1 a2 h12 hne
        cases a1 with
        | nil =>
          simp only [List.nil_append] at h12
          subst h12
          rw [List.cons_append, ← hab]
          exact hk
        | cons x xs =>
          simp only [List.cons_append, List.cons.injEq] at h12
          exact hmin xs a2 h12.2 hne
      · simp only [hp] at h
        exact Option.noConfusion h

/-- The lazy star over every rune succeeds as soon as the continuation accepts
somewhere. -/
theorem lazyStar_isSome (k : GoString → Option MatchResult) :
    ∀ (a b : GoString) (m : MatchResult), k b = some m →
      ∃ m2, lazyStar isAnyChar k (a ++ b) = some m2
  | [], b, m, hk => by
    cases b with
    | nil => exact ⟨m, by simpa [lazyStar] using hk⟩
    | cons c cs => exact ⟨m, by simp [lazyStar, hk]⟩
  | x :: xs, b, m, hk => by
    obtain ⟨m2, h2⟩ := lazyStar_isSome k xs b m hk
    show ∃ m2, lazyStar isAnyChar k (x :: (xs ++ b)) = some m2
    unfold lazyStar
    cases hkx : k (x :: (xs ++ b)) with
    | some r => exact ⟨r, rfl⟩
    | none => exact ⟨m2, by simp [isAnyChar, h2]⟩

theorem take_length_sub (g rest : GoString) :
    (g ++ rest).take ((g ++ rest).length - rest.length) = g := by
  have : (g ++ rest).length - rest.length = g.length := by simp
  rw [this, List.take_left']
  rfl

theorem isReSpace_backtick : isReSpace '\x60' = false := by decide

/-- The closing fence matches at three backticks. -/
theorem closeFence_fence (z : GoString) : closeFence (fence ++ z) = some ⟨z, none⟩ := by
  show greedyStar isReSpace _ ('\x60' :: ('\x60' :: '\x60' :: z)) = _
  rw [greedyStar_of_not_head _ _ _ _ isReSpace_backtick]
  show (match stripLiteral fence (fence ++ z) with
    | some rest => matchEnd rest
    | none => none) = _
  rw [stripLiteral_append]
  rfl

/-- The closing fence matches only a run of `\s` followed by three backticks. -/
theorem closeFence_some (s : GoString) (m : MatchResult) (h : closeFence s = some m) :
    ∃ ws z, s = ws ++ fence ++ z ∧ (∀ c ∈ ws, isReSpace c = true) ∧ m = ⟨z, none⟩ := by
  obtain ⟨a, b, hab, ha, hk⟩ := greedyStar_some _ _ s m h
  cases hs : stripLiteral fence b with
  | none => simp [hs] at hk
  | some rest =>
    simp only [hs, matchEnd] at hk
    have hb := (stripLiteral_eq_some fence b rest).mp hs
    refine ⟨a, rest, by rw [hab, hb, List.append_assoc], ha, ?_⟩
    exact (Option.some.inj hk).symm

/-- The closing fence matches after any run of `\s` before three backticks. -/
theorem closeFence_isSome (ws z : GoString) (h : ∀ c ∈ ws, isReSpace c = true) :
    closeFence (ws ++ fence ++ z) = some ⟨z, none⟩ := by
  rw [List.append_assoc]
  apply greedyStar_run _ _ ws (fence ++ z) _ h
  · intro c cs hc
    simp only [fence, List.cons_append, List.cons.injEq] at hc
    rw [← hc.1]
    exact isReSpace_backtick
  · show (match stripLiteral fence (fence ++ z) with
      | some rest => matchEnd rest
      | none => none) = _
    rw [stripLiteral_append]
    rfl

/-- The capture group: the captured text is not empty, the closing fence matches right
after it, and at no earlier point inside it. -/
theorem captureBody_some (s : GoString) (m : MatchResult) (h : captureBody s = some m) :
    ∃ g rest z, s = g ++ rest ∧ g ≠ [] ∧ closeFence rest = some ⟨z, none⟩ ∧
      m = ⟨z, some g⟩ ∧
      ∀ u v, g = u ++ v → u ≠ [] → v ≠ [] → closeFence (v ++ rest) = none := by
  cases s with
  | nil => simp [captureBody, oneChar] at h
  | cons x s2 =>
    simp only [captureBody, oneChar, isAnyChar, if_true] at h
    obtain ⟨a, b, hab, hkb, hmin⟩ := lazyStar_some _ _ s2 m h
    cases hc : closeFence b with
    | none => simp [hc] at hkb
    | some m0 =>
      obtain ⟨ws, z, _, _, hm0⟩ := closeFence_some b m0 hc
      simp only [hc] at hkb
      have hm := (Option.some.inj hkb).symm
      have htake : (x :: s2).take ((x :: s2).length - b.length) = x :: a := by
        rw [hab]
        exact take_length_sub (x :: a) b
      refine ⟨x :: a, b, z, by simp [hab], by simp, by rw [hc, hm0], ?_, ?_⟩
      · rw [hm, htake, hm0]
      · intro u v huv hu hv
        cases u with
        | nil => exact absurd rfl hu
        | cons y ys =>
          simp only [List.cons_append, List.cons.injEq] at huv
          have := hmin ys v huv.2 hv
          cases hcv : closeFence (v ++ b) with
          | none => rfl
          | some r => simp [hcv] at this

/-- The capture group matches whenever a closing fence follows at least one rune. -/
theorem captureBody_isSome (g rest : GoString) (m0 : MatchResult) (hg : g ≠ [])
    (hc : closeFence rest = some m0) : ∃ m, captureBody (g ++ rest) = some m := by
  cases g with
  | nil => exact absurd rfl hg
  | cons x xs =>
    simp only [captureBody, List.cons_append, oneChar, isAnyChar, if_true]
    exact lazyStar_isSome _ xs rest
      { m0 with group1 := some ((x :: (xs ++ rest)).take ((x :: (xs ++ rest)).length - rest.length)) }
      (by simp [hc])

theorem greedyStar_isSome (p : Char → Bool) (k : GoString → Option MatchResult)
    (s : GoString) (m : MatchResult) (h : k s = some m) : ∃ m2, greedyStar p k s = some m2 := by
  cases hg : greedyStar p k s with
  | some r => exact ⟨r, rfl⟩
  | none =>
    have := greedyStar_none p k s hg [] s rfl (by simp)
    rw [this] at h
    exact Option.noConfusion h

/-- What the pattern returns after the opening fence was returned by the capture group
on a suffix. -/
theorem afterOpenFence_some (s : GoString) (m : MatchResult) (h : afterOpenFence s = some m) :
    ∃ x s2, s = x ++ s2 ∧ captureBody s2 = some m := by
  unfold afterOpenFence at h
  cases h1 : oneChar isWordChar (greedyStar isWordChar (greedyStar isReSpace captureBody)) s with
  | some r =>
    rw [h1] at h
    have hr : r = m := Option.some.inj h
    subst hr
    cases s with
    | nil => simp [oneChar] at h1
    | cons c cs =>
      unfold oneChar at h1
      by_cases hw : isWordChar c = true
      · simp only [hw, if_true] at h1
        obtain ⟨a, b, hab, _, hk⟩ := greedyStar_some _ _ cs r h1
        obtain ⟨a2, b2, hab2, _, hk2⟩ := greedyStar_some _ _ b r hk
        exact ⟨c :: a ++ a2, b2, by simp [hab, hab2], hk2⟩
      · simp only [hw] at h1
        exact Option.noConfusion h1
  | none =>
    rw [h1] at h
    obtain ⟨a, b, hab, _, hk⟩ := greedyStar_some _ _ s m h
    exact ⟨a, b, hab, hk⟩

/-- After the opening fence the pattern matches whenever the capture group does. -/
theorem afterOpenFence_isSome (s : GoString) (m : MatchResult) (h : captureBody s = some m) :
    ∃ m2, afterOpenFence s = some m2 := by
  unfold afterOpenFence
  cases h1 : oneChar isWordChar (greedyStar isWordChar (greedyStar isReSpace captureBody)) s with
  | some r => exact ⟨r, rfl⟩
  | none => exact greedyStar_isSome _ _ s m h

/-- A match of the code-block pattern at the front of `s` spans a fence pair, and its
group is a capture of `captureBody`. -/
theorem matchHere_some (s : GoString) (m : MatchResult)
    (h : codeBlockRegex.matchHere s = some m) :
    ∃ x s2, s = fence ++ x ++ s2 ∧ captureBody s2 = some m := by
  rw [codeBlockRegex_matchHere] at h
  cases hs : stripLiteral fence s with
  | none => simp [hs] at h
  | some rest =>
    simp only [hs] at h
    obtain ⟨x, s2, hx, hc⟩ := afterOpenFence_some rest m h
    refine ⟨x, s2, ?_, hc⟩
    rw [(stripLiteral_eq_some fence s rest).mp hs, hx, List.append_assoc]

/-- The code-block pattern matches at the front of every fence pair. -/
theorem matchHere_isSome (b c : GoString) (hb : b ≠ []) :
    ∃ m, codeBlockRegex.matchHere (fence ++ b ++ fence ++ c) = some m := by
  rw [codeBlockRegex_matchHere, List.append_assoc, List.append_assoc, stripLiteral_append]
  obtain ⟨m1, h1⟩ := captureBody_isSome b (fence ++ c) _ hb (closeFence_fence c)
  exact afterOpenFence_isSome _ m1 h1

/-- What `FindStringSubmatch` returns comes from a match at the front of a suffix. -/
theorem FindStringSubmatch_some (r : Regex) :
    ∀ (s : GoString) (l : List GoString), r.FindStringSubmatch s = some l →
      ∃ pre t m, s = pre ++ t ∧ r.matchHere t = some m ∧
        l = [t.take (t.length - m.rest.length), m.group1.getD []]
  | [], l, h => by
    unfold Regex.FindStringSubmatch at h
    cases hm : r.matchHere [] with
    | none => simp [hm] at h
    | some m =>
      simp only [hm] at h
      exact ⟨[], [], m, rfl, hm, by simpa using (Option.some.inj h).symm⟩
  | c :: cs, l, h => by
    unfold Regex.FindStringSubmatch at h
    cases hm : r.matchHere (c :: cs) with
    | none =>
      simp only [hm] at h
      obtain ⟨pre, t, m, hs, ht, hl⟩ := FindStringSubmatch_some r cs l h
      exact ⟨c :: pre, t, m, by simp [hs], ht, hl⟩
    | some m =>
      simp only [hm] at h
      exact ⟨[], c :: cs, m, rfl, hm, (Option.some.inj h).symm⟩

/-- `FindStringSubmatch` fails only when the pattern matches at the front of no suffix. -/
theorem FindStringSubmatch_none (r : Regex) :
    ∀ (s : GoString), r.FindStringSubmatch s = none →
      ∀ pre t, s = pre ++ t → r.matchHere t = none
  | [], h, pre, t, hs => by
    have ht : t = [] := (List.append_eq_nil.mp hs.symm).2
    subst ht
    unfold Regex.FindStringSubmatch at h
    cases hm : r.matchHere [] with
    | none => rfl
    | some m => simp [hm] at h
  | c :: cs, h, pre, t, hs => by
    unfold Regex.FindStringSubmatch at h
    cases hm : r.matchHere (c :: cs) with
    | some m => simp [hm] at h
    | none =>
      simp only [hm] at h
      cases pre with
      | nil =>
        simp only [List.nil_append] at hs
        rw [← hs]
        exact hm
      | cons x xs =>
        simp only [List.cons_append, List.cons.injEq] at hs
        exact FindStringSubmatch_none r cs h xs t hs.2

/-- The code-block pattern matches somewhere in `s` exactly when `s` holds a fence
pair. -/
theorem FindStringSubmatch_isSome_iff (s : GoString) :
    (∃ l, codeBlockRegex.FindStringSubmatch s = some l) ↔ HasFencePair s := by
  constructor
  · rintro ⟨l, hl⟩
    obtain ⟨pre, t, m, hs, ht, _⟩ := FindStringSubmatch_some _ s l hl
    obtain ⟨x, s2, hx, hc⟩ := matchHere_some t m ht
    obtain ⟨g, rest, z, hg, hne, hcl, _, _⟩ := captureBody_some s2 m hc
    obtain ⟨ws, z2, hws, _, _⟩ := closeFence_some rest _ hcl
    refine ⟨pre, x ++ g ++ ws, z2, ?_, ?_⟩
    · rw [hs, hx, hg, hws]
      simp only [List.append_assoc]
    · intro h0
      have h1 := (List.append_eq_nil.mp h0).1
      exact hne (List.append_eq_nil.mp h1).2
  · rintro ⟨a, b, c, hs, hb⟩
    cases hf : codeBlockRegex.FindStringSubmatch s with
    | some l => exact ⟨l, rfl⟩
    | none =>
      obtain ⟨m, hm⟩ := matchHere_isSome b c hb
      have := FindStringSubmatch_none _ s hf a (fence ++ b ++ fence ++ c)
        (by rw [hs]; simp only [List.append_assoc])
      rw [this] at hm
      exact Option.noConfusion hm

theorem FindStringSubmatch_eq_none_iff (s : GoString) :
    codeBlockRegex.FindStringSubmatch s = none ↔ ¬ HasFencePair s := by
  rw [← FindStringSubmatch_isSome_iff]
  cases codeBlockRegex.FindStringSubmatch s with
  | none => simp
  | some l => simp

/-! ## Lemmas: `strings.TrimSpace` -/

theorem dropWhile_head_not {p : Char → Bool} : ∀ (s : GoString) (x : Char) (r : GoString),
    s.dropWhile p = x :: r → p x = false
  | [], x, r, h => by simp at h
  | c :: cs, x, r, h => by
    by_cases hp : p c = true
    · rw [List.dropWhile_cons_of_pos hp] at h
      exact dropWhile_head_not cs x r h
    · have hp2 : p c = false := by simpa using hp
      rw [List.dropWhile_cons_of_neg hp] at h
      simp only [List.cons.injEq] at h
      rw [← h.1]
      exact hp2

theorem rdropWhile_append_of_all {p : Char → Bool} (d b : GoString)
    (hb : ∀ c ∈ b, p c = true) : (d ++ b).rdropWhile p = d.rdropWhile p := by
  unfold List.rdropWhile
  rw [List.reverse_append, List.dropWhile_append_of_pos]
  intro c hc
  exact hb c (List.mem_reverse.mp hc)

/-- `TrimSpace` removes a prefix and a suffix of white space. -/
theorem TrimSpace_infix (s : GoString) :
    ∃ a b, s = a ++ TrimSpace s ++ b ∧ (∀ c ∈ a, isSpace c = true) ∧
      (∀ c ∈ b, isSpace c = true) := by
  refine ⟨s.takeWhile isSpace, (s.dropWhile isSpace).rtakeWhile isSpace, ?_, ?_, ?_⟩
  · unfold TrimSpace
    have h1 : (s.dropWhile isSpace).rdropWhile isSpace ++ (s.dropWhile isSpace).rtakeWhile isSpace
        = s.dropWhile isSpace := by
      unfold List.rdropWhile List.rtakeWhile
      rw [← List.reverse_append, List.takeWhile_append_dropWhile, List.reverse_reverse]
    rw [List.append_assoc, h1, List.takeWhile_append_dropWhile]
  · intro c hc
    exact List.mem_takeWhile_imp hc
  · intro c hc
    exact List.mem_rtakeWhile_imp hc

/-- `TrimSpace` is idempotent. -/
theorem TrimSpace_idem (s : GoString) : TrimSpace (TrimSpace s) = TrimSpace s := by
  have hd : (TrimSpace s).dropWhile isSpace = TrimSpace s := by
    cases ht : TrimSpace s with
    | nil => rfl
    | cons x xs =>
      have hpre : TrimSpace s <+: s.dropWhile isSpace := List.rdropWhile_prefix _ _
      obtain ⟨r, hr⟩ := hpre
      rw [ht] at hr
      have hx : isSpace x = false := dropWhile_head_not s x (xs ++ r) hr.symm
      rw [List.dropWhile_cons_of_neg (by simp [hx])]
  show ((TrimSpace s).dropWhile isSpace).rdropWhile isSpace = TrimSpace s
  rw [hd]
  exact List.rdropWhile_idempotent _ _

/-- White space around a string does not change what `TrimSpace` returns. -/
theorem TrimSpace_append_spaces (a s b : GoString) (ha : ∀ c ∈ a, isSpace c = true)
    (hb : ∀ c ∈ b, isSpace c = true) : TrimSpace (a ++ s ++ b) = TrimSpace s := by
  unfold TrimSpace
  rw [List.append_assoc, List.dropWhile_append_of_pos ha, List.dropWhile_append]
  cases hd : s.dropWhile isSpace with
  | nil =>
    simp only [List.isEmpty_nil, if_true]
    rw [dropWhile_eq_nil_of_all b hb]
  | cons x xs =>
    simp only [List.isEmpty_cons, Bool.false_eq_true, if_false]
    exact rdropWhile_append_of_all _ b hb

/-! ## `CleanResponse` -/

theorem CleanResponse_of_none (s : GoString)
    (h : codeBlockRegex.FindStringSubmatch s = none) : CleanResponse s = TrimSpace s := by
  unfold CleanResponse
  rw [h]

theorem CleanResponse_of_some (s w g : GoString)
    (h : codeBlockRegex.FindStringSubmatch s = some [w, g]) : CleanResponse s = TrimSpace g := by
  unfold CleanResponse
  rw [h]

theorem HasFencePair_of_infix (l r t : GoString) (h : HasFencePair r) :
    HasFencePair (l ++ r ++ t) := by
  obtain ⟨a, b, c, hr, hb⟩ := h
  exact ⟨l ++ a, b, c ++ t, by rw [hr]; simp only [List.append_assoc], hb⟩

theorem fence_infix_of_HasFencePair (s : GoString) (h : HasFencePair s) : fence <:+: s := by
  obtain ⟨a, b, c, hs, _⟩ := h
  exact ⟨a, b ++ fence ++ c, by rw [hs]; simp only [List.append_assoc]⟩

/-- No part of a captured text holds a fence pair: the lazy group stops before the
first closing fence. -/
theorem captureBody_no_pair (s2 : GoString) (m : MatchResult) (g : GoString)
    (h : captureBody s2 = some m) (hg : m.group1 = some g) (l r t : GoString)
    (hlrt : g = l ++ r ++ t) : ¬ HasFencePair r := by
  rintro ⟨a, b, c, hr, hb⟩
  obtain ⟨g2, rest, z, _, _, _, hm, hmin⟩ := captureBody_some s2 m h
  rw [hm] at hg
  have hgg : g2 = g := Option.some.inj hg
  subst hgg
  have hsplit : g2 = (l ++ a ++ fence ++ b) ++ (fence ++ c ++ t) := by
    rw [hlrt, hr]
    simp only [List.append_assoc]
  have hu : l ++ a ++ fence ++ b ≠ [] := by
    intro h0
    exact hb (List.append_eq_nil.mp h0).2
  have hv : fence ++ c ++ t ≠ [] := by
    intro h0
    have := (List.append_eq_nil.mp (List.append_eq_nil.mp h0).1).1
    exact absurd this (by decide)
  have hnone := hmin _ _ hsplit hu hv
  rw [List.append_assoc, List.append_assoc, closeFence_fence] at hnone
  exact Option.noConfusion hnone

/-- C7: when no fence matches in `s`, and so whenever `s` holds no three backticks in a
row, `CleanResponse s` is `strings.TrimSpace s`: `s` without a prefix and a suffix of
white space, the rest unchanged. -/
theorem CleanResponse_no_fence (s : GoString)
    (h : codeBlockRegex.FindStringSubmatch s = none ∨ ¬ fence <:+: s) :
    CleanResponse s = TrimSpace s ∧
    ∃ a b, s = a ++ CleanResponse s ++ b ∧ (∀ c ∈ a, isSpace c = true) ∧
      (∀ c ∈ b, isSpace c = true) := by
  have hnone : codeBlockRegex.FindStringSubmatch s = none := by
    rcases h with h | h
    · exact h
    · rw [FindStringSubmatch_eq_none_iff]
      exact fun hp => h (fence_infix_of_HasFencePair s hp)
  have hc := CleanResponse_of_none s hnone
  refine ⟨hc, ?_⟩
  rw [hc]
  exact TrimSpace_infix s

theorem CleanResponse_no_fence_witness :
    ¬ fence <:+: "  SELECT COUNT(*) FROM `aws_iam`.actions  ".toList ∧
    CleanResponse "  SELECT COUNT(*) FROM `aws_iam`.actions  ".toList
      = "SELECT COUNT(*) FROM `aws_iam`.actions".toList :=
  ⟨by decide,
   (CleanResponse_no_fence "  SELECT COUNT(*) FROM `aws_iam`.actions  ".toList
      (Or.inr (by decide))).1.trans (by decide)⟩

/-- C3: `CleanResponse` is idempotent. -/
theorem CleanResponse_idempotent (s : GoString) :
    CleanResponse (CleanResponse s) = CleanResponse s := by
  cases hf : codeBlockRegex.FindStringSubmatch s with
  | none =>
    rw [CleanResponse_of_none s hf]
    have hn : codeBlockRegex.FindStringSubmatch (TrimSpace s) = none := by
      rw [FindStringSubmatch_eq_none_iff]
      intro hp
      obtain ⟨a, b, hs, _, _⟩ := TrimSpace_infix s
      have := HasFencePair_of_infix a _ b hp
      rw [← hs] at this
      exact (FindStringSubmatch_eq_none_iff s).mp hf this
    rw [CleanResponse_of_none _ hn, TrimSpace_idem]
  | some l =>
    obtain ⟨pre, t, m, _, ht, hl⟩ := FindStringSubmatch_some _ s l hf
    obtain ⟨x, s2, _, hc⟩ := matchHere_some t m ht
    obtain ⟨g, rest, z, _, _, _, hm, _⟩ := captureBody_some s2 m hc
    have hg : m.group1 = some g := by rw [hm]
    rw [hg] at hl
    rw [hl] at hf
    rw [CleanResponse_of_some s _ g hf]
    have hn : codeBlockRegex.FindStringSubmatch (TrimSpace g) = none := by
      rw [FindStringSubmatch_eq_none_iff]
      obtain ⟨a, b, hs, _, _⟩ := TrimSpace_infix g
      exact captureBody_no_pair s2 m g hc hg a (TrimSpace g) b hs
    rw [CleanResponse_of_none _ hn, TrimSpace_idem]

/-! ## Lemmas: the match on a fenced block -/

/-- The lazy star stops at the first point where the continuation accepts. -/
theorem lazyStar_eq (k : GoString → Option MatchResult) :
    ∀ (a b : GoString) (m : MatchResult), k b = some m →
      (∀ a1 a2, a = a1 ++ a2 → a2 ≠ [] → k (a2 ++ b) = none) →
      lazyStar isAnyChar k (a ++ b) = some m
  | [], b, m, hk, _ => by
    cases b with
    | nil => simpa [lazyStar] using hk
    | cons c cs => simp [lazyStar, hk]
  | x :: xs, b, m, hk, hmin => by
    have h0 : k (x :: xs ++ b) = none := hmin [] (x :: xs) rfl (by simp)
    have ih := lazyStar_eq k xs b m hk (fun a1 a2 h12 hne =>
      hmin (x :: a1) a2 (by simp [h12]) hne)
    show lazyStar isAnyChar k (x :: (xs ++ b)) = some m
    unfold lazyStar
    rw [show k (x :: (xs ++ b)) = none from h0]
    simp [isAnyChar, ih]

/-- The capture group takes the text up to the first point where the closing fence
matches. -/
theorem captureBody_eq (g rest z : GoString) (hg : g ≠ [])
    (hc : closeFence rest = some ⟨z, none⟩)
    (hmin : ∀ u v, g = u ++ v → u ≠ [] → v ≠ [] → closeFence (v ++ rest) = none) :
    captureBody (g ++ rest) = some ⟨z, some g⟩ := by
  cases g with
  | nil => exact absurd rfl hg
  | cons x xs =>
    simp only [captureBody, List.cons_append, oneChar, isAnyChar, if_true]
    apply lazyStar_eq
    · simp only [hc]
      have := take_length_sub (x :: xs) rest
      simp only [List.cons_append] at this
      rw [this]
    · intro a1 a2 h12 hne
      have := hmin (x :: a1) a2 (by simp [h12]) (by simp) hne
      simp [this]

theorem mem_fence (c : Char) (h : c ∈ fence) : c = '\x60' := by
  simp only [fence, List.mem_cons, List.mem_singleton, List.not_mem_nil, or_false, or_self] at h
  exact h

/-- A literal at the front of `X ++ n :: Y` is at the front of `X` or holds `n`. -/
theorem prefix_append_cons (l X Y : GoString) (n : Char) (h : l <+: X ++ n :: Y) :
    l <+: X ∨ n ∈ l := by
  obtain ⟨t, ht⟩ := h
  rcases List.append_eq_append_iff.mp ht with ⟨a, hX, _⟩ | ⟨c, hl, hc⟩
  · left; exact ⟨a, hX.symm⟩
  · cases c with
    | nil => left; rw [hl]; simp
    | cons y ys =>
      right
      simp only [List.cons_append, List.cons.injEq] at hc
      rw [hl, hc.1]
      simp

/-- Inside a text that holds no three backticks and is followed by a line break, the
closing fence does not match before the trailing `\s` run. -/
theorem closeFence_none_inside (v0 trail R : GoString) (y : Char)
    (hy : isReSpace y = false) (hnf : ¬ fence <:+: v0 ++ [y] ++ trail) :
    closeFence (v0 ++ [y] ++ trail ++ '\n' :: R) = none := by
  cases hcf : closeFence (v0 ++ [y] ++ trail ++ '\n' :: R) with
  | none => rfl
  | some m =>
    exfalso
    obtain ⟨ws, z, hs, hws, _⟩ := closeFence_some _ m hcf
    have hs2 : (v0 ++ [y]) ++ (trail ++ '\n' :: R) = ws ++ (fence ++ z) := by
      simp only [List.append_assoc] at hs ⊢
      exact hs
    rcases List.append_eq_append_iff.mp hs2 with ⟨a, hwsa, _⟩ | ⟨c, hv, hc⟩
    · have : isReSpace y = true := hws y (by rw [hwsa]; simp)
      rw [hy] at this
      exact Bool.noConfusion this
    · have hpre : fence <+: c ++ trail ++ '\n' :: R :=
        ⟨z, by rw [hc]; simp only [List.append_assoc]⟩
      rcases prefix_append_cons fence (c ++ trail) R '\n' hpre with h1 | h1
      · apply hnf
        obtain ⟨t, ht⟩ := h1
        refine ⟨ws, t, ?_⟩
        rw [hv, List.append_assoc ws c trail, ← ht]
        simp only [List.append_assoc]
      · exact absurd (mem_fence _ h1) (by decide)

theorem isSpace_of_isReSpace (c : Char) (h : isReSpace c = true) : isSpace c = true := by
  simp only [isReSpace, Bool.or_eq_true, beq_iff_eq] at h
  simp only [isSpace, Bool.or_eq_true, Bool.and_eq_true, beq_iff_eq, decide_eq_true_eq]
  omega

theorem isWordChar_newline : isWordChar '\n' = false := by decide

theorem isReSpace_newline : isReSpace '\n' = true := by decide

/-- Before the first three backticks of a text the code-block pattern does not match. -/
theorem matchHere_none_in_prefix (P T p1 p2 : GoString) (hP1 : ¬ fence <:+: P)
    (hP2 : ¬ ['\x60'] <:+ P) (hP : P = p1 ++ p2) (hp2 : p2 ≠ []) :
    codeBlockRegex.matchHere (p2 ++ T) = none := by
  rw [codeBlockRegex_matchHere]
  cases hs : stripLiteral fence (p2 ++ T) with
  | none => rfl
  | some rest =>
    exfalso
    have h := (stripLiteral_eq_some fence _ rest).mp hs
    rcases List.append_eq_append_iff.mp h with ⟨a, hf, _⟩ | ⟨c, hc, _⟩
    · rcases List.eq_nil_or_concat p2 with h0 | ⟨q, y, hq⟩
      · exact hp2 h0
      · apply hP2
        have hy : y = '\x60' := by
          apply mem_fence
          rw [hf, hq]
          simp
        refine ⟨p1 ++ q, ?_⟩
        rw [hP, hq, ← hy]
        simp
    · apply hP1
      exact ⟨p1, c, by rw [hP, hc]; simp only [List.append_assoc]⟩

/-- The search skips a prefix in which the pattern matches nowhere. -/
theorem FindStringSubmatch_skip (r : Regex) : ∀ (P T : GoString),
    (∀ p1 p2, P = p1 ++ p2 → p2 ≠ [] → r.matchHere (p2 ++ T) = none) →
    r.FindStringSubmatch (P ++ T) = r.FindStringSubmatch T
  | [], _, _ => rfl
  | x :: xs, T, h => by
    have h0 : r.matchHere (x :: (xs ++ T)) = none := h [] (x :: xs) rfl (by simp)
    have ih := FindStringSubmatch_skip r xs T (fun p1 p2 h12 hne =>
      h (x :: p1) p2 (by simp [h12]) hne)
    show r.FindStringSubmatch (x :: (xs ++ T)) = _
    conv_lhs => unfold Regex.FindStringSubmatch
    rw [h0]
    exact ih

/-- The search reports a match at the front of the text. -/
theorem FindStringSubmatch_here (r : Regex) (T : GoString) (m : MatchResult)
    (h : r.matchHere T = some m) :
    r.FindStringSubmatch T = some [T.take (T.length - m.rest.length), m.group1.getD []] := by
  cases T with
  | nil =>
    unfold Regex.FindStringSubmatch
    rw [h]
    simp
  | cons c cs =>
    unfold Regex.FindStringSubmatch
    rw [h]

/-- The match of the pattern after the opening fence of a block whose content starts
and ends with a rune outside `\s`. -/
theorem afterOpenFence_block (L lead core0 core1 trail S : GoString) (x y : Char)
    (hL : ∀ c ∈ L, isWordChar c = true)
    (hlead : ∀ c ∈ lead, isReSpace c = true) (htrail : ∀ c ∈ trail, isReSpace c = true)
    (hcore : core0 ++ [y] = x :: core1)
    (hx : isReSpace x = false) (hy : isReSpace y = false)
    (hnf : ¬ fence <:+: core0 ++ [y] ++ trail) :
    afterOpenFence (L ++ '\n' :: (lead ++ (core0 ++ [y] ++ trail ++ '\n' :: (fence ++ S))))
      = some ⟨S, some (core0 ++ [y])⟩ := by
  -- the capture group
  have hclose : closeFence (trail ++ '\n' :: (fence ++ S)) = some ⟨S, none⟩ := by
    have := closeFence_isSome (trail ++ ['\n']) S (by
      intro c hc
      rcases List.mem_append.mp hc with h1 | h1
      · exact htrail c h1
      · rw [List.mem_singleton.mp h1]; exact isReSpace_newline)
    simpa only [List.append_assoc, List.singleton_append] using this
  have hmin : ∀ u v, core0 ++ [y] = u ++ v → u ≠ [] → v ≠ [] →
      closeFence (v ++ (trail ++ '\n' :: (fence ++ S))) = none := by
    intro u v huv _ hv
    rcases List.append_eq_append_iff.mp huv with ⟨a, hu, ha⟩ | ⟨c, hc0, hc⟩
    · -- `u = core0 ++ a`, `[y] = a ++ v`
      cases a with
      | nil =>
        simp only [List.nil_append] at ha
        rw [← ha]
        have := closeFence_none_inside [] trail (fence ++ S) y hy (by
          intro hin
          apply hnf
          obtain ⟨s1, s2, hs⟩ := hin
          refine ⟨core0 ++ s1, s2, ?_⟩
          simp only [List.append_assoc, List.nil_append] at hs ⊢
          rw [hs])
        simpa only [List.nil_append, List.append_assoc] using this
      | cons a0 as =>
        have hlen := congrArg List.length ha
        simp only [List.length_cons, List.length_nil, List.length_append] at hlen
        have : v.length = 0 := by omega
        exact absurd (List.length_eq_zero.mp this) hv
    · -- `core0 = u ++ c`, `v = c ++ [y]`
      rw [hc]
      have := closeFence_none_inside c trail (fence ++ S) y hy (by
        intro hin
        apply hnf
        obtain ⟨s1, s2, hs⟩ := hin
        refine ⟨u ++ s1, s2, ?_⟩
        rw [hc0]
        simp only [List.append_assoc] at hs ⊢
        rw [hs])
      simpa only [List.append_assoc] using this
  have hcap : captureBody (core0 ++ [y] ++ trail ++ '\n' :: (fence ++ S))
      = some ⟨S, some (core0 ++ [y])⟩ := by
    have := captureBody_eq (core0 ++ [y]) (trail ++ '\n' :: (fence ++ S)) S (by simp) hclose hmin
    simpa only [List.append_assoc] using this
  -- the `\s*` before the group
  have hws : greedyStar isReSpace captureBody
      ('\n' :: (lead ++ (core0 ++ [y] ++ trail ++ '\n' :: (fence ++ S))))
      = some ⟨S, some (core0 ++ [y])⟩ := by
    have := greedyStar_run isReSpace captureBody ('\n' :: lead)
      (core0 ++ [y] ++ trail ++ '\n' :: (fence ++ S)) _ (by
        intro c hc
        rcases List.mem_cons.mp hc with h1 | h1
        · rw [h1]; exact isReSpace_newline
        · exact hlead c h1) (by
        intro c cs hc
        rw [hcore] at hc
        simp only [List.cons_append, List.cons.injEq] at hc
        rw [← hc.1]
        exact hx) hcap
    simpa only [List.cons_append] using this
  -- the optional language tag
  unfold afterOpenFence
  cases L with
  | nil =>
    simp only [List.nil_append, oneChar, isWordChar_newline]
    exact hws
  | cons l ls =>
    have hl : isWordChar l = true := hL l (List.mem_cons_self _ _)
    have htag := greedyStar_run isWordChar (greedyStar isReSpace captureBody) ls
      ('\n' :: (lead ++ (core0 ++ [y] ++ trail ++ '\n' :: (fence ++ S)))) _
      (fun c hc => hL c (List.mem_cons_of_mem _ hc)) (by
        intro c cs hc
        simp only [List.cons.injEq] at hc
        rw [← hc.1]
        exact isWordChar_newline) hws
    simp only [List.cons_append, oneChar, hl, if_true, htag]

/-- A text with a rune outside `\s` is a core that starts and ends outside `\s`, between
two runs of `\s`. -/
theorem exists_core (C : GoString) (h : ∃ c ∈ C, isReSpace c = false) :
    ∃ lead core0 core1 trail x y, C = lead ++ (core0 ++ [y]) ++ trail ∧
      core0 ++ [y] = x :: core1 ∧ isReSpace x = false ∧ isReSpace y = false ∧
      (∀ c ∈ lead, isReSpace c = true) ∧ (∀ c ∈ trail, isReSpace c = true) := by
  obtain ⟨c0, hc0, hc0s⟩ := h
  have hC : C.takeWhile isReSpace ++ C.dropWhile isReSpace = C :=
    List.takeWhile_append_dropWhile _ _
  cases hd : C.dropWhile isReSpace with
  | nil =>
    have := (List.dropWhile_eq_nil_iff).mp hd c0 hc0
    rw [hc0s] at this
    exact Bool.noConfusion this
  | cons x C2 =>
    have hx : isReSpace x = false := dropWhile_head_not C x C2 hd
    have hsplit : (x :: C2).rdropWhile isReSpace ++ (x :: C2).rtakeWhile isReSpace = x :: C2 := by
      unfold List.rdropWhile List.rtakeWhile
      rw [← List.reverse_append, List.takeWhile_append_dropWhile, List.reverse_reverse]
    have hne : (x :: C2).rdropWhile isReSpace ≠ [] := by
      intro h0
      have := (List.rdropWhile_eq_nil_iff).mp h0 x (List.mem_cons_self _ _)
      rw [hx] at this
      exact Bool.noConfusion this
    have hlast := List.rdropWhile_last_not isReSpace (x :: C2) hne
    rcases List.eq_nil_or_concat ((x :: C2).rdropWhile isReSpace) with h0 | ⟨core0, y, hcore⟩
    · exact absurd h0 hne
    · rw [List.concat_eq_append] at hcore
      have hy : isReSpace y = false := by
        have : ((x :: C2).rdropWhile isReSpace).getLast hne = y := by
          simp only [hcore]
          simp
        rw [this] at hlast
        simpa using hlast
      have hhead : ∃ core1, core0 ++ [y] = x :: core1 := by
        rw [hcore] at hsplit
        cases core0 with
        | nil =>
          simp only [List.nil_append, List.singleton_append, List.cons.injEq] at hsplit
          exact ⟨[], by rw [hsplit.1]; rfl⟩
        | cons z zs =>
          simp only [List.cons_append, List.cons.injEq] at hsplit
          exact ⟨zs ++ [y], by rw [hsplit.1]; rfl⟩
      obtain ⟨core1, hcore1⟩ := hhead
      refine ⟨C.takeWhile isReSpace, core0, core1, (x :: C2).rtakeWhile isReSpace, x, y,
        ?_, hcore1, hx, hy, ?_, ?_⟩
      · rw [List.append_assoc, ← hcore, hsplit, ← hd, hC]
      · intro c hc
        exact List.mem_takeWhile_imp hc
      · intro c hc
        exact List.mem_rtakeWhile_imp hc

/-- C6: for a prefix `P` without three backticks in a row and not ending in a backtick,
a language tag `L` of word runes, a content `C` without three backticks in a row and
with a rune that is not white space, and any suffix `S`, `CleanResponse` of `P`, the
fence, `L`, a line break, `C`, a line break, the fence and `S` is `TrimSpace C`: the
prefix, the tag and the suffix are dropped, whatever fences the suffix holds. -/
theorem CleanResponse_fenced_block (P L C S : GoString)
    (hP1 : ¬ fence <:+: P) (hP2 : ¬ ['\x60'] <:+ P)
    (hL : ∀ c ∈ L, isWordChar c = true)
    (hC1 : ¬ fence <:+: C) (hC2 : ∃ c ∈ C, isSpace c = false) :
    CleanResponse (P ++ fence ++ L ++ ['\n'] ++ C ++ ['\n'] ++ fence ++ S) = TrimSpace C := by
  have hC3 : ∃ c ∈ C, isReSpace c = false := by
    obtain ⟨c, hc, hs⟩ := hC2
    refine ⟨c, hc, ?_⟩
    cases hr : isReSpace c with
    | false => rfl
    | true =>
      rw [isSpace_of_isReSpace c hr] at hs
      exact Bool.noConfusion hs
  obtain ⟨lead, core0, core1, trail, x, y, hC, hcore, hx, hy, hlead, htrail⟩ := exists_core C hC3
  have hnf : ¬ fence <:+: core0 ++ [y] ++ trail := by
    intro hin
    apply hC1
    obtain ⟨s1, s2, hs⟩ := hin
    refine ⟨lead ++ s1, s2, ?_⟩
    rw [hC]
    simp only [List.append_assoc] at hs ⊢
    rw [hs]
  have hafter := afterOpenFence_block L lead core0 core1 trail S x y hL hlead htrail hcore
    hx hy hnf
  have hshape : P ++ fence ++ L ++ ['\n'] ++ C ++ ['\n'] ++ fence ++ S =
      P ++ (fence ++ (L ++ '\n' :: (lead ++ (core0 ++ [y] ++ trail ++ '\n' :: (fence ++ S))))) := by
    rw [hC]
    simp only [List.append_assoc, List.singleton_append, List.cons_append, List.nil_append]
  have hhere : codeBlockRegex.matchHere
      (fence ++ (L ++ '\n' :: (lead ++ (core0 ++ [y] ++ trail ++ '\n' :: (fence ++ S)))))
      = some ⟨S, some (core0 ++ [y])⟩ := by
    rw [codeBlockRegex_matchHere, stripLiteral_append]
    exact hafter
  have hfind := FindStringSubmatch_here _ _ _ hhere
  have hskip := FindStringSubmatch_skip codeBlockRegex P
    (fence ++ (L ++ '\n' :: (lead ++ (core0 ++ [y] ++ trail ++ '\n' :: (fence ++ S)))))
    (fun p1 p2 h12 hne => matchHere_none_in_prefix P _ p1 p2 hP1 hP2 h12 hne)
  rw [hshape, CleanResponse_of_some _ _ (core0 ++ [y]) (hskip.trans hfind), hC]
  exact (TrimSpace_append_spaces lead (core0 ++ [y]) trail
    (fun c hc => isSpace_of_isReSpace c (hlead c hc))
    (fun c hc => isSpace_of_isReSpace c (htrail c hc))).symm

theorem CleanResponse_fenced_block_witness :
    CleanResponse ("Here you go:\n".toList ++ fence ++ "sql".toList ++ ['\n'] ++
      "SELECT * FROM users".toList ++ ['\n'] ++ fence ++ "\nand ```more``` text".toList)
      = "SELECT * FROM users".toList :=
  (CleanResponse_fenced_block "Here you go:\n".toList "sql".toList
    "SELECT * FROM users".toList "\nand ```more``` text".toList
    (by decide) (by decide) (by decide) (by decide) (by decide)).trans (by decide)

/-! ## The dispatcher: success, provider resolution, methods -/

/-- The outcome of `HandlePrompt` on a POST that decodes into a request with a user,
by the result of the lookup of the resolved provider name. -/
theorem HandlePrompt_accepted (h : Handler) (body : GoString) (req : Request)
    (hdec : decodeRequest body = (req, true)) (hu : req.User ≠ []) :
    h.HandlePrompt ⟨"POST".toList, body⟩ =
      match h.providers.lookup (if req.Provider = [] then h.defaultProvider else req.Provider) with
      | none =>
        { w := h.sendError (h.setCORSHeaders ResponseRecorder.new)
            ("Unknown provider: ".toList ++
              (if req.Provider = [] then h.defaultProvider else req.Provider)) 400,
          log := [.unknownProvider
            (if req.Provider = [] then h.defaultProvider else req.Provider)],
          calls := [] }
      | some p =>
        match (p.Generate h.systemPrompt req.User).2 with
        | some e =>
          { w := h.sendError (h.setCORSHeaders ResponseRecorder.new)
              "Failed to generate response".toList 500,
            log := [.generating
              (if req.Provider = [] then h.defaultProvider else req.Provider) req.User,
              .cliFailed (if req.Provider = [] then h.defaultProvider else req.Provider) e],
            calls := [⟨if req.Provider = [] then h.defaultProvider else req.Provider,
              h.systemPrompt, req.User⟩] }
        | none =>
          { w := h.sendJSON (h.setCORSHeaders ResponseRecorder.new)
              { ResponseText := (p.Generate h.systemPrompt req.User).1, Error := [] },
            log := [.generating
              (if req.Provider = [] then h.defaultProvider else req.Provider) req.User,
              .success],
            calls := [⟨if req.Provider = [] then h.defaultProvider else req.Provider,
              h.systemPrompt, req.User⟩] } := by
  have hne : "POST".toList ≠ "OPTIONS".toList := by decide
  unfold Handler.HandlePrompt
  simp only [hne, if_false, hdec, ne_eq, not_true_eq_false, Bool.not_eq_true, hu]

theorem lookup_of_mem_nodup {β : Type} : ∀ (l : List (GoString × β)) (k : GoString) (v : β),
    (l.map Prod.fst).Nodup → (k, v) ∈ l → l.lookup k = some v
  | [], _, _, _, hm => absurd hm (List.not_mem_nil _)
  | (k0, v0) :: l, k, v, hn, hm => by
    simp only [List.map_cons, List.nodup_cons] at hn
    rcases List.mem_cons.mp hm with h1 | h1
    · simp only [Prod.mk.injEq] at h1
      rw [h1.1, h1.2]
      simp [List.lookup]
    · have hk : k ≠ k0 := by
        rintro rfl
        exact hn.1 (List.mem_map.mpr ⟨(k, v), h1, rfl⟩)
      have hb : (k == k0) = false := beq_eq_false_iff_ne.mpr hk
      rw [List.lookup, hb]
      exact lookup_of_mem_nodup l k v hn.2 h1

theorem lookup_eq_none_of_not_mem {β : Type} (l : List (GoString × β)) (k : GoString)
    (h : k ∉ l.map Prod.fst) : l.lookup k = none := by
  rw [List.lookup_eq_none_iff]
  intro kv hkv
  simp only [List.mem_map, not_exists, not_and] at h
  exact bne_iff_ne.mpr (fun hv2 => h kv hkv hv2.symm)

/-- C11, as amended: when the resolved provider returns a text `t` and no error, the
response is status 200 with one JSON object: `{"response": t}` when `t` is not empty,
and the empty object when `t` is the empty string (the field is `omitempty`); it never
has an error member. -/
theorem HandlePrompt_success (h : Handler) (body : GoString) (req : Request)
    (p : Generator) (t : GoString)
    (hdec : decodeRequest body = (req, true)) (hu : req.User ≠ [])
    (hp : h.providers.lookup (if req.Provider = [] then h.defaultProvider else req.Provider)
      = some p)
    (hgen : p.Generate h.systemPrompt req.User = (t, none)) :
    (h.HandlePrompt ⟨"POST".toList, body⟩).w.Code = 200 ∧
    (h.HandlePrompt ⟨"POST".toList, body⟩).w.Body =
      [.object (if t = [] then [] else [("response".toList, .string t)])] ∧
    (h.HandlePrompt ⟨"POST".toList, body⟩).w.Written = [] := by
  rw [HandlePrompt_accepted h body req hdec hu, hp]
  simp only [hgen]
  refine ⟨rfl, ?_, rfl⟩
  by_cases ht : t = []
  · simp [Handler.sendJSON, ResponseRecorder.encode, ResponseRecorder.setHeader,
      Response.toJSON, Handler.setCORSHeaders, ResponseRecorder.new, ht]
  · simp [Handler.sendJSON, ResponseRecorder.encode, ResponseRecorder.setHeader,
      Response.toJSON, Handler.setCORSHeaders, ResponseRecorder.new, ht]

theorem HandlePrompt_success_witness :
    ((newTestHandler (mockGenerator "4".toList none)).HandlePrompt
      ⟨"POST".toList, "\x7b\"user\":\"What is 2+2?\"\x7d".toList⟩).w.Body =
      [.object [("response".toList, .string "4".toList)]] :=
  (HandlePrompt_success (newTestHandler (mockGenerator "4".toList none))
    "\x7b\"user\":\"What is 2+2?\"\x7d".toList ⟨"What is 2+2?".toList, []⟩
    (mockGenerator "4".toList none) "4".toList (by decide) (by decide) rfl rfl).2.1

/-- C11 fails as stated when the text is empty: the Gemini adapter, on the standard
output `{"response":" "}`, returns the empty string and no error, and the response is
status 200 with the empty JSON object, which has no `response` field. -/
theorem HandlePrompt_empty_text_counterexample :
    GeminiClient.Generate (fun _ => ⟨false, "\x7b\"response\":\" \"\x7d".toList, []⟩)
      "You are a test assistant.".toList "hi".toList
      = { ran := [⟨"gemini".toList, ["-p".toList, "You are a test assistant.\n\nhi".toList,
            "--output-format".toList, "json".toList]⟩],
          result := [], err := none } ∧
    ((newTestHandlerWithProviders
        [("gemini".toList,
          NewGeminiClient (fun _ => ⟨false, "\x7b\"response\":\" \"\x7d".toList, []⟩))]
        "gemini".toList).HandlePrompt
      ⟨"POST".toList, "\x7b\"user\":\"hi\"\x7d".toList⟩).w.Code = 200 ∧
    ((newTestHandlerWithProviders
        [("gemini".toList,
          NewGeminiClient (fun _ => ⟨false, "\x7b\"response\":\" \"\x7d".toList, []⟩))]
        "gemini".toList).HandlePrompt
      ⟨"POST".toList, "\x7b\"user\":\"hi\"\x7d".toList⟩).w.Body = [.object []] :=
  ⟨by decide, by rfl, by rfl⟩

/-- C12: for a POST that decodes into a request with a user, the provider name is the
request's `Provider` when that is not empty and the configured default otherwise.  When
the registry (a map: its keys are distinct) has an entry `p` under exactly that name,
`p.Generate` is called once with the system prompt and the user text and the response is
built from what it returns; when no key is equal to the name, no provider is called and
the answer is 400. -/
theorem HandlePrompt_provider_resolution (h : Handler) (body : GoString) (req : Request)
    (hdec : decodeRequest body = (req, true)) (hu : req.User ≠ [])
    (hmap : (h.providers.map Prod.fst).Nodup) :
    (∀ p, ((if req.Provider = [] then h.defaultProvider else req.Provider), p) ∈ h.providers →
      (h.HandlePrompt ⟨"POST".toList, body⟩).calls =
        [⟨if req.Provider = [] then h.defaultProvider else req.Provider,
          h.systemPrompt, req.User⟩] ∧
      (h.HandlePrompt ⟨"POST".toList, body⟩).w =
        match (p.Generate h.systemPrompt req.User).2 with
        | some _ => h.sendError (h.setCORSHeaders ResponseRecorder.new)
            "Failed to generate response".toList 500
        | none => h.sendJSON (h.setCORSHeaders ResponseRecorder.new)
            { ResponseText := (p.Generate h.systemPrompt req.User).1, Error := [] }) ∧
    ((if req.Provider = [] then h.defaultProvider else req.Provider) ∉
        h.providers.map Prod.fst →
      (h.HandlePrompt ⟨"POST".toList, body⟩).calls = [] ∧
      (h.HandlePrompt ⟨"POST".toList, body⟩).w.Code = 400) := by
  constructor
  · intro p hp
    rw [HandlePrompt_accepted h body req hdec hu, lookup_of_mem_nodup _ _ _ hmap hp]
    simp only
    cases hg : (p.Generate h.systemPrompt req.User).2 with
    | none => exact ⟨rfl, rfl⟩
    | some e => exact ⟨rfl, rfl⟩
  · intro hn
    rw [HandlePrompt_accepted h body req hdec hu, lookup_eq_none_of_not_mem _ _ hn]
    exact ⟨rfl, rfl⟩

theorem HandlePrompt_provider_resolution_witness :
    ((newTestHandlerWithProviders
        [("claude".toList, mockGenerator "claude response".toList none),
         ("gemini".toList, mockGenerator "gemini response".toList none)]
        "claude".toList).HandlePrompt
      ⟨"POST".toList, "\x7b\"user\":\"Hello\",\"provider\":\"gemini\"\x7d".toList⟩).calls =
      [⟨"gemini".toList, "You are a test assistant.".toList, "Hello".toList⟩] ∧
    ((newTestHandlerWithProviders
        [("claude".toList, mockGenerator "claude response".toList none),
         ("gemini".toList, mockGenerator "gemini response".toList none)]
        "claude".toList).HandlePrompt
      ⟨"POST".toList, "\x7b\"user\":\"Hello\",\"provider\":\"Claude\"\x7d".toList⟩).w.Code
      = 400 :=
  ⟨((HandlePrompt_provider_resolution _
      "\x7b\"user\":\"Hello\",\"provider\":\"gemini\"\x7d".toList
      ⟨"Hello".toList, "gemini".toList⟩ (by decide) (by decide) (by decide)).1
      (mockGenerator "gemini response".toList none)
      (List.mem_cons_of_mem _ (List.mem_cons_self _ _))).1,
   ((HandlePrompt_provider_resolution _
      "\x7b\"user\":\"Hello\",\"provider\":\"Claude\"\x7d".toList
      ⟨"Hello".toList, "Claude".toList⟩ (by decide) (by decide) (by decide)).2
      (by decide)).2⟩

/-- C18: a request to `HandlePrompt` whose method is not POST is answered without the
body being read and without a provider being called: status 200 and an empty body for
OPTIONS, status 405 and the error message `Method not allowed` for every other
method. -/
theorem HandlePrompt_method (h : Handler) (method body : GoString)
    (hm : method ≠ "POST".toList) :
    (if method = "OPTIONS".toList then
      (h.HandlePrompt ⟨method, body⟩).w.Code = 200 ∧
      (h.HandlePrompt ⟨method, body⟩).w.Body = [] ∧
      (h.HandlePrompt ⟨method, body⟩).w.Written = []
    else
      (h.HandlePrompt ⟨method, body⟩).w.Code = 405 ∧
      (h.HandlePrompt ⟨method, body⟩).w.Body =
        [.object [("error".toList, .string "Method not allowed".toList)]] ∧
      (h.HandlePrompt ⟨method, body⟩).w.Written = []) ∧
    (h.HandlePrompt ⟨method, body⟩).calls = [] ∧
    (h.HandlePrompt ⟨method, body⟩).log = [] ∧
    ∀ body2, h.HandlePrompt ⟨method, body2⟩ = h.HandlePrompt ⟨method, body⟩ := by
  by_cases ho : method = "OPTIONS".toList
  · have e : ∀ b, h.HandlePrompt ⟨method, b⟩ =
        { w := (h.setCORSHeaders ResponseRecorder.new).WriteHeader 200,
          log := [], calls := [] } := by
      intro b
      unfold Handler.HandlePrompt
      simp only [ho, if_true]
    rw [if_pos ho, e body]
    refine ⟨⟨rfl, rfl, rfl⟩, rfl, rfl, fun b => (e b)⟩
  · have e : ∀ b, h.HandlePrompt ⟨method, b⟩ =
        { w := h.sendError (h.setCORSHeaders ResponseRecorder.new)
            "Method not allowed".toList 405,
          log := [], calls := [] } := by
      intro b
      unfold Handler.HandlePrompt
      simp only [ho, if_false, ne_eq, hm, not_false_eq_true, if_true]
    rw [if_neg ho, e body]
    refine ⟨⟨rfl, rfl, rfl⟩, rfl, rfl, fun b => (e b)⟩

theorem HandlePrompt_method_witness :
    ((newTestHandler (mockGenerator [] none)).HandlePrompt
      ⟨"GET".toList, "\x7b\"user\":\"hi\"\x7d".toList⟩).w.Code = 405 ∧
    ((newTestHandler (mockGenerator [] none)).HandlePrompt
      ⟨"OPTIONS".toList, "\x7b\"user\":\"hi\"\x7d".toList⟩).w.Code = 200 :=
  ⟨(HandlePrompt_method (newTestHandler (mockGenerator [] none)) "GET".toList
      "\x7b\"user\":\"hi\"\x7d".toList (by decide)).1.1,
   (HandlePrompt_method (newTestHandler (mockGenerator [] none)) "OPTIONS".toList
      "\x7b\"user\":\"hi\"\x7d".toList (by decide)).1.1⟩

/-! ## The Gemini and Continue parsers compared -/

/-- Decoding into `continueResponse` agrees with decoding into the Gemini envelope on
the field `Response` and on the error, when every member that selects `status` is a
string or `null`. -/
theorem continueResponse_foldl_eq_gemini_null :
    ∀ (ms : List (GoString × JSON)) (cur : continueResponse) (b : Bool),
      (∀ kv ∈ membersOf ["status".toList] 0 ms, (∃ s, kv.2 = .string s) ∨ kv.2 = .null) →
      ((ms.foldl continueResponse.setMember (cur, b)).1.Response =
        (ms.foldl GeminiEnvelope.setMember (⟨cur.Response⟩, b)).1.Response) ∧
      ((ms.foldl continueResponse.setMember (cur, b)).2 =
        (ms.foldl GeminiEnvelope.setMember (⟨cur.Response⟩, b)).2)
  | [], _, _, _ => ⟨rfl, rfl⟩
  | kv :: ms, cur, b, h => by
    have hms : ∀ kv2 ∈ membersOf ["status".toList] 0 ms,
        (∃ s, kv2.2 = .string s) ∨ kv2.2 = .null := by
      intro kv2 hkv2
      apply h kv2
      unfold membersOf at hkv2 ⊢
      rw [List.filter_cons]
      split
      · exact List.mem_cons_of_mem _ hkv2
      · exact hkv2
    simp only [List.foldl]
    have hc : continueResponse.setMember (cur, b) kv =
        (⟨(GeminiEnvelope.setMember (⟨cur.Response⟩, b) kv).1.Response,
          (continueResponse.setMember (cur, b) kv).1.Status⟩,
          (GeminiEnvelope.setMember (⟨cur.Response⟩, b) kv).2) := by
      unfold continueResponse.setMember GeminiEnvelope.setMember
      rw [findField_response_status]
      rcases findField_singleton "response".toList kv.1 with h1 | h1
      · rw [h1]; rfl
      · rcases findField_singleton "status".toList kv.1 with h2 | h2
        · have hmem : kv ∈ membersOf ["status".toList] 0 (kv :: ms) := by
            unfold membersOf
            rw [List.filter_cons, h2]
            exact List.mem_cons_self _ _
          rcases h kv hmem with ⟨s, hs⟩ | hs
          · rw [h1, h2, hs]
            cases b <;> rfl
          · rw [h1, h2, hs]
            cases b <;> rfl
        · rw [h1, h2]; rfl
    rw [hc]
    exact continueResponse_foldl_eq_gemini_null ms _ _ hms

/-- C13, as amended: `parseGeminiResponse` and `parseContinueResponse` return the same
result on every standard output, except possibly on a JSON object in which a key that
selects the field `status` has a value that is neither a string nor `null`. -/
theorem parseGemini_eq_parseContinue (stdout : GoString)
    (h : ∀ ms, parseJSON stdout = some (.object ms) →
      ∀ kv ∈ membersOf ["status".toList] 0 ms, (∃ s, kv.2 = .string s) ∨ kv.2 = .null) :
    parseGeminiResponse stdout = parseContinueResponse stdout := by
  unfold parseGeminiResponse parseContinueResponse unmarshalGemini unmarshalContinue
  cases hj : parseJSON stdout with
  | none => rfl
  | some v =>
    cases v with
    | object ms =>
      have hc := continueResponse_foldl_eq_gemini_null ms ⟨[], []⟩ true (h ms hj)
      show (if (ms.foldl GeminiEnvelope.setMember (⟨[]⟩, true)).2 = true ∧
          (ms.foldl GeminiEnvelope.setMember (⟨[]⟩, true)).1.Response ≠ [] then _ else _) =
        (if (ms.foldl continueResponse.setMember (⟨[], []⟩, true)).2 = true ∧
          (ms.foldl continueResponse.setMember (⟨[], []⟩, true)).1.Response ≠ [] then _
          else _)
      rw [hc.1, hc.2]
    | null => rfl
    | bool b => rfl
    | number l => rfl
    | string s => rfl
    | array es => rfl

theorem parseGemini_eq_parseContinue_witness :
    parseGeminiResponse
      "\x7b\"response\":\"SELECT 1\",\"status\":\"success\",\"note\":5\x7d".toList =
    parseContinueResponse
      "\x7b\"response\":\"SELECT 1\",\"status\":\"success\",\"note\":5\x7d".toList :=
  parseGemini_eq_parseContinue
    "\x7b\"response\":\"SELECT 1\",\"status\":\"success\",\"note\":5\x7d".toList
    (by
      intro ms hms kv hkv
      have e : parseJSON
          "\x7b\"response\":\"SELECT 1\",\"status\":\"success\",\"note\":5\x7d".toList =
          some (.object [("response".toList, .string "SELECT 1".toList),
            ("status".toList, .string "success".toList),
            ("note".toList, .number "5".toList)]) := by rfl
      rw [e] at hms
      have hms2 := JSON.object.inj (Option.some.inj hms)
      subst hms2
      have e2 : membersOf ["status".toList] 0
          [("response".toList, JSON.string "SELECT 1".toList),
            ("status".toList, JSON.string "success".toList),
            ("note".toList, JSON.number "5".toList)] =
          [("status".toList, JSON.string "success".toList)] := by rfl
      rw [e2] at hkv
      rw [List.mem_singleton.mp hkv]
      exact Or.inl ⟨_, rfl⟩)

/-- C13 fails as stated: on this output the Gemini parser returns the field `response`,
while the Continue parser, whose struct has a string field `status`, gets a type error
from `json.Unmarshal` and falls back to the raw text. -/
theorem parseGemini_ne_parseContinue_counterexample :
    parseGeminiResponse "\x7b\"response\":\"x\",\"status\":5\x7d".toList
      = ("x".toList, none) ∧
    parseContinueResponse "\x7b\"response\":\"x\",\"status\":5\x7d".toList
      = ("\x7b\"response\":\"x\",\"status\":5\x7d".toList, none) :=
  ⟨by decide, by decide⟩

/-! ## Text after the first fenced block -/

/-- The match of the code-block pattern on a text whose first fenced block is well
formed: group 1 is a part of the content of that block which trims to the trimmed
content, whatever follows the closing fence. -/
theorem FindStringSubmatch_fenced_block (P L C S : GoString)
    (hP1 : ¬ fence <:+: P) (hP2 : ¬ ['\x60'] <:+ P)
    (hL : ∀ c ∈ L, isWordChar c = true)
    (hC1 : ¬ fence <:+: C) (hC2 : ∃ c ∈ C, isSpace c = false) :
    ∃ w g, codeBlockRegex.FindStringSubmatch
        (P ++ fence ++ L ++ ['\n'] ++ C ++ ['\n'] ++ fence ++ S) = some [w, g] ∧
      TrimSpace g = TrimSpace C := by
  have hC3 : ∃ c ∈ C, isReSpace c = false := by
    obtain ⟨c, hc, hs⟩ := hC2
    refine ⟨c, hc, ?_⟩
    cases hr : isReSpace c with
    | false => rfl
    | true =>
      rw [isSpace_of_isReSpace c hr] at hs
      exact Bool.noConfusion hs
  obtain ⟨lead, core0, core1, trail, x, y, hC, hcore, hx, hy, hlead, htrail⟩ := exists_core C hC3
  have hnf : ¬ fence <:+: core0 ++ [y] ++ trail := by
    intro hin
    apply hC1
    obtain ⟨s1, s2, hs⟩ := hin
    refine ⟨lead ++ s1, s2, ?_⟩
    rw [hC]
    simp only [List.append_assoc] at hs ⊢
    rw [hs]
  have hshape : P ++ fence ++ L ++ ['\n'] ++ C ++ ['\n'] ++ fence ++ S =
      P ++ (fence ++ (L ++ '\n' :: (lead ++ (core0 ++ [y] ++ trail ++ '\n' :: (fence ++ S))))) := by
    rw [hC]
    simp only [List.append_assoc, List.singleton_append, List.cons_append, List.nil_append]
  have hhere : codeBlockRegex.matchHere
      (fence ++ (L ++ '\n' :: (lead ++ (core0 ++ [y] ++ trail ++ '\n' :: (fence ++ S)))))
      = some ⟨S, some (core0 ++ [y])⟩ := by
    rw [codeBlockRegex_matchHere, stripLiteral_append]
    exact afterOpenFence_block L lead core0 core1 trail S x y hL hlead htrail hcore hx hy hnf
  have hskip := FindStringSubmatch_skip codeBlockRegex P
    (fence ++ (L ++ '\n' :: (lead ++ (core0 ++ [y] ++ trail ++ '\n' :: (fence ++ S)))))
    (fun p1 p2 h12 hne => matchHere_none_in_prefix P _ p1 p2 hP1 hP2 h12 hne)
  have hfind := hskip.trans (FindStringSubmatch_here _ _ _ hhere)
  rw [← hshape] at hfind
  refine ⟨_, core0 ++ [y], hfind, ?_⟩
  rw [hC]
  exact (TrimSpace_append_spaces lead (core0 ++ [y]) trail
    (fun c hc => isSpace_of_isReSpace c (hlead c hc))
    (fun c hc => isSpace_of_isReSpace c (htrail c hc))).symm

/-- C14, as amended: only the first fence pair is used, and what follows it is dropped.
For a first fenced block (prefix `P`, tag `L` and content `C` as in C6) followed by
further text `S1`, a later fenced block with tag `L2` and content `C2`, and a rest `S3`,
`CleanResponse` returns `TrimSpace C`: the further text and the later block are not in
the result, which holds no three backticks in a row. -/
theorem CleanResponse_later_block_dropped (P L C S1 L2 C2 S3 : GoString)
    (hP1 : ¬ fence <:+: P) (hP2 : ¬ ['\x60'] <:+ P)
    (hL : ∀ c ∈ L, isWordChar c = true)
    (hC1 : ¬ fence <:+: C) (hC2 : ∃ c ∈ C, isSpace c = false) :
    CleanResponse (P ++ fence ++ L ++ ['\n'] ++ C ++ ['\n'] ++ fence ++
        (S1 ++ fence ++ L2 ++ ['\n'] ++ C2 ++ ['\n'] ++ fence ++ S3)) = TrimSpace C ∧
    ¬ fence <:+: CleanResponse (P ++ fence ++ L ++ ['\n'] ++ C ++ ['\n'] ++ fence ++
        (S1 ++ fence ++ L2 ++ ['\n'] ++ C2 ++ ['\n'] ++ fence ++ S3)) := by
  obtain ⟨w, g, hfind, hg⟩ := FindStringSubmatch_fenced_block P L C
    (S1 ++ fence ++ L2 ++ ['\n'] ++ C2 ++ ['\n'] ++ fence ++ S3) hP1 hP2 hL hC1 hC2
  have hclean := (CleanResponse_of_some _ w g hfind).trans hg
  refine ⟨hclean, ?_⟩
  rw [hclean]
  intro hin
  apply hC1
  obtain ⟨a, b, hs, _, _⟩ := TrimSpace_infix C
  obtain ⟨s1, s2, h12⟩ := hin
  refine ⟨a ++ s1, s2 ++ b, ?_⟩
  rw [hs, ← h12]
  simp only [List.append_assoc]

theorem CleanResponse_later_block_dropped_witness :
    CleanResponse ([] ++ fence ++ "sql".toList ++ ['\n'] ++ "SELECT 1".toList ++ ['\n'] ++
        fence ++ ("\nor else\n".toList ++ fence ++ "sql".toList ++ ['\n'] ++
          "SELECT 2".toList ++ ['\n'] ++ fence ++ "\nbye".toList)) = "SELECT 1".toList :=
  (CleanResponse_later_block_dropped [] "sql".toList "SELECT 1".toList "\nor else\n".toList
    "sql".toList "SELECT 2".toList "\nbye".toList
    (by decide) (by decide) (by decide) (by decide) (by decide)).1.trans (by decide)

/-- C14 fails as stated: this input is a first fenced block, further text and a later
fenced block; the result is the content of the first block alone, and neither the
further text nor the later block remains in it. -/
theorem CleanResponse_later_block_counterexample :
    CleanResponse "```\nfirst\n```\nmiddle\n```\nsecond\n```".toList = "first".toList ∧
    ¬ "second".toList <:+: CleanResponse "```\nfirst\n```\nmiddle\n```\nsecond\n```".toList ∧
    ¬ "middle".toList <:+: CleanResponse "```\nfirst\n```\nmiddle\n```\nsecond\n```".toList :=
  ⟨by decide, by decide, by decide⟩

/-! ## The adapters -/

theorem parseClaudeResponse_err (data : GoString) (e : GoError)
    (h : (parseClaudeResponse data).2 = some e) : parseClaudeResponse data = ([], some e) := by
  unfold parseClaudeResponse at h ⊢
  simp only at h ⊢
  split at h
  · exact Option.noConfusion h
  · split at h
    · exact Option.noConfusion h
    · rename_i h1 h2
      simp only [h1, h2, if_false]
      simp only [Option.some.injEq] at h
      rw [h]

theorem parseGeminiResponse_err (data : GoString) (e : GoError)
    (h : (parseGeminiResponse data).2 = some e) : parseGeminiResponse data = ([], some e) := by
  unfold parseGeminiResponse at h ⊢
  simp only at h ⊢
  split at h
  · exact Option.noConfusion h
  · split at h
    · exact Option.noConfusion h
    · rename_i h1 h2
      simp only [h1, h2, if_false]
      simp only [Option.some.injEq] at h
      rw [h]

theorem parseContinueResponse_err (data : GoString) (e : GoError)
    (h : (parseContinueResponse data).2 = some e) :
    parseContinueResponse data = ([], some e) := by
  unfold parseContinueResponse at h ⊢
  simp only at h ⊢
  split at h
  · exact Option.noConfusion h
  · split at h
    · exact Option.noConfusion h
    · rename_i h1 h2
      simp only [h1, h2, if_false]
      simp only [Option.some.injEq] at h
      rw [h]

theorem joined_error_is (stderr : GoString) :
    (GoError.join .ErrCLIExecution (.new stderr)).Is .ErrCLIExecution = true ∧
    (GoError.join .ErrCLIExecution (.new stderr)).Error =
      "CLI execution failed\n".toList ++ stderr := by
  constructor
  · simp [GoError.Is]
  · rfl

/-- The run of a command without NUL is the answer of the operating system, which was
asked to run this one command. -/
theorem Cmd_Run_of_not_hasNUL (os : Cmd → RunResult) (cmd : Cmd) (h : cmd.hasNUL = false) :
    cmd.Run os = (os cmd, [cmd]) := by
  unfold Cmd.Run
  rw [h]
  rfl

/-- The run of a command with a NUL fails with empty buffers and the operating system is
not asked to run anything. -/
theorem Cmd_Run_of_hasNUL (os : Cmd → RunResult) (cmd : Cmd) (h : cmd.hasNUL = true) :
    cmd.Run os = (⟨true, [], []⟩, []) := by
  unfold Cmd.Run
  rw [h]
  rfl

/-- The outcome of `ClaudeClient.Generate` by the run of its command. -/
theorem ClaudeClient_Generate_eq (os : Cmd → RunResult) (systemPrompt userPrompt : GoString)
    (cmd : Cmd)
    (hcmd : cmd = ⟨"claude".toList, ["-p".toList, userPrompt,
      "--append-system-prompt".toList, systemPrompt, "--output-format".toList,
      "json".toList, "--json-schema".toList, claudeJSONSchema]⟩) :
    ClaudeClient.Generate os systemPrompt userPrompt =
      if (cmd.Run os).1.failed = true then
        { ran := (cmd.Run os).2, result := [],
          err := some (.join .ErrCLIExecution (.new (cmd.Run os).1.stderr)) }
      else
        { ran := (cmd.Run os).2, result := (parseClaudeResponse (cmd.Run os).1.stdout).1,
          err := (parseClaudeResponse (cmd.Run os).1.stdout).2 } := by
  subst hcmd
  unfold ClaudeClient.Generate
  simp only
  split
  · rfl
  · cases hp : (parseClaudeResponse (Cmd.Run os _).1.stdout).2 with
    | none => simp only [hp]
    | some e =>
      simp only [hp]
      rw [show (parseClaudeResponse (Cmd.Run os _).1.stdout).1 = [] from
        congrArg Prod.fst (parseClaudeResponse_err _ e hp)]

/-- The outcome of `GeminiClient.Generate` by the run of its command. -/
theorem GeminiClient_Generate_eq (os : Cmd → RunResult) (systemPrompt userPrompt : GoString)
    (cmd : Cmd)
    (hcmd : cmd = ⟨"gemini".toList, ["-p".toList, systemPrompt ++ "\n\n".toList ++ userPrompt,
      "--output-format".toList, "json".toList]⟩) :
    GeminiClient.Generate os systemPrompt userPrompt =
      if (cmd.Run os).1.failed = true then
        { ran := (cmd.Run os).2, result := [],
          err := some (.join .ErrCLIExecution (.new (cmd.Run os).1.stderr)) }
      else
        { ran := (cmd.Run os).2, result := (parseGeminiResponse (cmd.Run os).1.stdout).1,
          err := (parseGeminiResponse (cmd.Run os).1.stdout).2 } := by
  subst hcmd
  unfold GeminiClient.Generate
  simp only
  split
  · rfl
  · cases hp : (parseGeminiResponse (Cmd.Run os _).1.stdout).2 with
    | none => simp only [hp]
    | some e =>
      simp only [hp]
      rw [show (parseGeminiResponse (Cmd.Run os _).1.stdout).1 = [] from
        congrArg Prod.fst (parseGeminiResponse_err _ e hp)]

/-- The outcome of `ContinueClient.Generate` by the run of its command. -/
theorem ContinueClient_Generate_eq (os : Cmd → RunResult) (systemPrompt userPrompt : GoString)
    (cmd : Cmd)
    (hcmd : cmd = ⟨"cn".toList, ["-p".toList, systemPrompt ++ "\n\n".toList ++ userPrompt,
      "--format".toList, "json".toList, "--silent".toList]⟩) :
    ContinueClient.Generate os systemPrompt userPrompt =
      if (cmd.Run os).1.failed = true then
        { ran := (cmd.Run os).2, result := [],
          err := some (.join .ErrCLIExecution (.new (cmd.Run os).1.stderr)) }
      else
        { ran := (cmd.Run os).2, result := (parseContinueResponse (cmd.Run os).1.stdout).1,
          err := (parseContinueResponse (cmd.Run os).1.stdout).2 } := by
  subst hcmd
  unfold ContinueClient.Generate
  simp only
  split
  · rfl
  · cases hp : (parseContinueResponse (Cmd.Run os _).1.stdout).2 with
    | none => simp only [hp]
    | some e =>
      simp only [hp]
      rw [show (parseContinueResponse (Cmd.Run os _).1.stdout).1 = [] from
        congrArg Prod.fst (parseContinueResponse_err _ e hp)]

/-- An outcome computed from the run of a command as the adapters do meets the
contract for that command. -/
theorem GenerateContract_of_eq (parse : GoString → GoString × Option GoError)
    (os : Cmd → RunResult) (o : GenerateOutcome) (cmd : Cmd)
    (h : o = if (cmd.Run os).1.failed = true then
        { ran := (cmd.Run os).2, result := [],
          err := some (.join .ErrCLIExecution (.new (cmd.Run os).1.stderr)) }
      else
        { ran := (cmd.Run os).2, result := (parse (cmd.Run os).1.stdout).1,
          err := (parse (cmd.Run os).1.stdout).2 }) :
    GenerateContract parse os cmd o := by
  refine ⟨?_, ?_⟩
  · rw [h]
    split <;> rfl
  · rw [h]
    by_cases hf : (cmd.Run os).1.failed = true
    · rw [if_pos hf, if_pos hf]
      exact ⟨rfl, rfl, (joined_error_is _).1, (joined_error_is _).2⟩
    · rw [if_neg hf, if_neg hf]

/-- C15: each adapter's `Generate` meets the contract with its own parser, for the run
of its own command: a failed run gives the empty string and `ErrCLIExecution` joined
with the captured standard error, whatever the standard output holds; a successful run
gives what the parser returns on the standard output, whatever the standard error
holds. -/
theorem Generate_contract (os : Cmd → RunResult) (systemPrompt userPrompt : GoString) :
    GenerateContract parseClaudeResponse os
      ⟨"claude".toList, ["-p".toList, userPrompt, "--append-system-prompt".toList,
        systemPrompt, "--output-format".toList, "json".toList, "--json-schema".toList,
        claudeJSONSchema]⟩
      (ClaudeClient.Generate os systemPrompt userPrompt) ∧
    GenerateContract parseGeminiResponse os
      ⟨"gemini".toList, ["-p".toList, systemPrompt ++ "\n\n".toList ++ userPrompt,
        "--output-format".toList, "json".toList]⟩
      (GeminiClient.Generate os systemPrompt userPrompt) ∧
    GenerateContract parseContinueResponse os
      ⟨"cn".toList, ["-p".toList, systemPrompt ++ "\n\n".toList ++ userPrompt,
        "--format".toList, "json".toList, "--silent".toList]⟩
      (ContinueClient.Generate os systemPrompt userPrompt) :=
  ⟨GenerateContract_of_eq _ os _ _ (ClaudeClient_Generate_eq os systemPrompt userPrompt _ rfl),
   GenerateContract_of_eq _ os _ _ (GeminiClient_Generate_eq os systemPrompt userPrompt _ rfl),
   GenerateContract_of_eq _ os _ _ (ContinueClient_Generate_eq os systemPrompt userPrompt _ rfl)⟩

theorem contains_NUL_false (s : GoString) (h : '\x00' ∉ s) : s.contains '\x00' = false := by
  cases hc : s.contains '\x00' with
  | false => rfl
  | true => exact absurd (List.elem_iff.mp hc) h

theorem contains_NUL_true (s : GoString) (h : '\x00' ∈ s) : s.contains '\x00' = true :=
  List.elem_iff.mpr h

/-- The command of the Claude adapter holds a NUL exactly when a prompt does. -/
theorem claude_hasNUL (systemPrompt userPrompt : GoString) :
    Cmd.hasNUL ⟨"claude".toList, ["-p".toList, userPrompt,
      "--append-system-prompt".toList, systemPrompt, "--output-format".toList,
      "json".toList, "--json-schema".toList, claudeJSONSchema]⟩ =
      (userPrompt.contains '\x00' || systemPrompt.contains '\x00') := by
  have h1 : ("claude".toList).contains '\x00' = false := by decide
  have h2 : ("-p".toList).contains '\x00' = false := by decide
  have h3 : ("--append-system-prompt".toList).contains '\x00' = false := by decide
  have h4 : ("--output-format".toList).contains '\x00' = false := by decide
  have h5 : ("json".toList).contains '\x00' = false := by decide
  have h6 : ("--json-schema".toList).contains '\x00' = false := by decide
  have h7 : claudeJSONSchema.contains '\x00' = false := by decide
  unfold Cmd.hasNUL
  simp only [List.any_cons, List.any_nil, h1, h2, h3, h4, h5, h6, h7, Bool.false_or,
    Bool.or_false]

/-- The command of the Gemini adapter holds a NUL exactly when a prompt does. -/
theorem gemini_hasNUL (systemPrompt userPrompt : GoString) :
    Cmd.hasNUL ⟨"gemini".toList, ["-p".toList, systemPrompt ++ "\n\n".toList ++ userPrompt,
      "--output-format".toList, "json".toList]⟩ =
      (systemPrompt.contains '\x00' || userPrompt.contains '\x00') := by
  have h1 : ("gemini".toList).contains '\x00' = false := by decide
  have h2 : ("-p".toList).contains '\x00' = false := by decide
  have h4 : ("--output-format".toList).contains '\x00' = false := by decide
  have h5 : ("json".toList).contains '\x00' = false := by decide
  have h6 : (systemPrompt ++ "\n\n".toList ++ userPrompt).contains '\x00' =
      (systemPrompt.contains '\x00' || userPrompt.contains '\x00') := by
    cases hs : systemPrompt.contains '\x00' <;> cases hu : userPrompt.contains '\x00'
    · apply contains_NUL_false
      intro hm
      rcases List.mem_append.mp hm with hm | hm
      · rcases List.mem_append.mp hm with hm | hm
        · rw [contains_NUL_true _ hm] at hs; exact Bool.noConfusion hs
        · exact absurd hm (by decide)
      · rw [contains_NUL_true _ hm] at hu; exact Bool.noConfusion hu
    · exact contains_NUL_true _ (List.mem_append_right _ (List.elem_iff.mp hu))
    · exact contains_NUL_true _
        (List.mem_append_left _ (List.mem_append_left _ (List.elem_iff.mp hs)))
    · exact contains_NUL_true _ (List.mem_append_right _ (List.elem_iff.mp hu))
  unfold Cmd.hasNUL
  simp only [List.any_cons, List.any_nil, h1, h2, h4, h5, h6, Bool.false_or, Bool.or_false]

/-- The command of the Continue adapter holds a NUL exactly when a prompt does. -/
theorem continue_hasNUL (systemPrompt userPrompt : GoString) :
    Cmd.hasNUL ⟨"cn".toList, ["-p".toList, systemPrompt ++ "\n\n".toList ++ userPrompt,
      "--format".toList, "json".toList, "--silent".toList]⟩ =
      (systemPrompt.contains '\x00' || userPrompt.contains '\x00') := by
  have h1 : ("cn".toList).contains '\x00' = false := by decide
  have h2 : ("-p".toList).contains '\x00' = false := by decide
  have h4 : ("--format".toList).contains '\x00' = false := by decide
  have h5 : ("json".toList).contains '\x00' = false := by decide
  have h7 : ("--silent".toList).contains '\x00' = false := by decide
  have h6 : (systemPrompt ++ "\n\n".toList ++ userPrompt).contains '\x00' =
      (systemPrompt.contains '\x00' || userPrompt.contains '\x00') := by
    cases hs : systemPrompt.contains '\x00' <;> cases hu : userPrompt.contains '\x00'
    · apply contains_NUL_false
      intro hm
      rcases List.mem_append.mp hm with hm | hm
      · rcases List.mem_append.mp hm with hm | hm
        · rw [contains_NUL_true _ hm] at hs; exact Bool.noConfusion hs
        · exact absurd hm (by decide)
      · rw [contains_NUL_true _ hm] at hu; exact Bool.noConfusion hu
    · exact contains_NUL_true _ (List.mem_append_right _ (List.elem_iff.mp hu))
    · exact contains_NUL_true _
        (List.mem_append_left _ (List.mem_append_left _ (List.elem_iff.mp hs)))
    · exact contains_NUL_true _ (List.mem_append_right _ (List.elem_iff.mp hu))
  unfold Cmd.hasNUL
  simp only [List.any_cons, List.any_nil, h1, h2, h4, h5, h6, h7, Bool.false_or,
    Bool.or_false]

/-- C16, as amended: the command of `ClaudeClient.Generate` is the binary `claude` with
eight arguments: `-p`, the user prompt, `--append-system-prompt`, the system prompt,
`--output-format`, `json`, `--json-schema` and the schema; each prompt is one argument,
passed as it is.  When no prompt holds a NUL, the operating system is asked to run
exactly this command, and what `Generate` returns is computed from what the operating
system answers for it: a failed run gives the error with the captured standard error,
a successful run gives what the parser returns on the captured standard output.  When a
prompt holds a NUL, the operating system is asked to run nothing and `Generate` returns
the empty string and `ErrCLIExecution` joined with an error of empty text. -/
theorem ClaudeClient_Generate_command (os : Cmd → RunResult)
    (systemPrompt userPrompt : GoString) (cmd : Cmd)
    (hcmd : cmd = { Name := "claude".toList
                    Args := ["-p".toList, userPrompt, "--append-system-prompt".toList,
                      systemPrompt, "--output-format".toList, "json".toList,
                      "--json-schema".toList,
                      "\x7b\"type\":\"object\",\"properties\":\x7b\"response\":\x7b\"type\":\"string\"\x7d\x7d,\"required\":[\"response\"]\x7d".toList] }) :
    cmd.Args.length = 8 ∧
    ('\x00' ∉ systemPrompt → '\x00' ∉ userPrompt →
      (ClaudeClient.Generate os systemPrompt userPrompt).ran = [cmd] ∧
      ((os cmd).failed = true →
        (ClaudeClient.Generate os systemPrompt userPrompt).result = [] ∧
        (ClaudeClient.Generate os systemPrompt userPrompt).err =
          some (.join .ErrCLIExecution (.new (os cmd).stderr))) ∧
      ((os cmd).failed = false →
        ((ClaudeClient.Generate os systemPrompt userPrompt).result,
          (ClaudeClient.Generate os systemPrompt userPrompt).err) =
          parseClaudeResponse (os cmd).stdout)) ∧
    ('\x00' ∈ systemPrompt ∨ '\x00' ∈ userPrompt →
      (ClaudeClient.Generate os systemPrompt userPrompt).ran = [] ∧
      (ClaudeClient.Generate os systemPrompt userPrompt).result = [] ∧
      (ClaudeClient.Generate os systemPrompt userPrompt).err =
        some (.join .ErrCLIExecution (.new []))) := by
  have hcmd2 : cmd = ⟨"claude".toList, ["-p".toList, userPrompt,
      "--append-system-prompt".toList, systemPrompt, "--output-format".toList,
      "json".toList, "--json-schema".toList, claudeJSONSchema]⟩ := hcmd
  have heq := ClaudeClient_Generate_eq os systemPrompt userPrompt cmd hcmd2
  have hnul := claude_hasNUL systemPrompt userPrompt
  rw [← hcmd2] at hnul
  refine ⟨by rw [hcmd]; rfl, ?_, ?_⟩
  · intro hs hu
    have hrun : cmd.Run os = (os cmd, [cmd]) := by
      apply Cmd_Run_of_not_hasNUL
      rw [hnul, contains_NUL_false _ hs, contains_NUL_false _ hu]
      rfl
    rw [hrun] at heq
    refine ⟨?_, ?_, ?_⟩
    · rw [heq]
      split <;> rfl
    · intro hf
      rw [heq, if_pos hf]
      exact ⟨rfl, rfl⟩
    · intro hf
      rw [heq, if_neg (by rw [hf]; exact Bool.noConfusion)]
  · intro h
    have hrun : cmd.Run os = (⟨true, [], []⟩, []) := by
      apply Cmd_Run_of_hasNUL
      rw [hnul]
      rcases h with h | h
      · rw [contains_NUL_true _ h, Bool.or_true]
      · rw [contains_NUL_true _ h, Bool.true_or]
    rw [hrun] at heq
    rw [heq]
    exact ⟨rfl, rfl, rfl⟩

theorem ClaudeClient_Generate_command_witness :
    (ClaudeClient.Generate
      (fun _ => ⟨false, "\x7b\"structured_output\":\x7b\"response\":\"4\"\x7d\x7d".toList, []⟩)
      "You are a test assistant.".toList "What is 2+2? Say --help".toList).ran =
      [⟨"claude".toList, ["-p".toList, "What is 2+2? Say --help".toList,
        "--append-system-prompt".toList, "You are a test assistant.".toList,
        "--output-format".toList, "json".toList, "--json-schema".toList,
        claudeJSONSchema]⟩] ∧
    (ClaudeClient.Generate
      (fun _ => ⟨false, "\x7b\"structured_output\":\x7b\"response\":\"4\"\x7d\x7d".toList, []⟩)
      "You are a test assistant.".toList "What is 2+2? Say --help".toList).result
      = "4".toList :=
  ⟨((ClaudeClient_Generate_command
      (fun _ => ⟨false, "\x7b\"structured_output\":\x7b\"response\":\"4\"\x7d\x7d".toList, []⟩)
      "You are a test assistant.".toList "What is 2+2? Say --help".toList _ rfl).2.1
      (by decide) (by decide)).1,
    (congrArg Prod.fst (((ClaudeClient_Generate_command
      (fun _ => ⟨false, "\x7b\"structured_output\":\x7b\"response\":\"4\"\x7d\x7d".toList, []⟩)
      "You are a test assistant.".toList "What is 2+2? Say --help".toList _ rfl).2.1
      (by decide) (by decide)).2.2 rfl)).trans (by decide)⟩

/-- C16 fails as stated for a prompt with a NUL: over an operating system that runs
every command with success, `ClaudeClient.Generate` with the user prompt `a`, NUL, `b`
runs no command at all and returns the empty string and an error. -/
theorem ClaudeClient_Generate_NUL_counterexample :
    ClaudeClient.Generate
      (fun _ => ⟨false, "\x7b\"structured_output\":\x7b\"response\":\"4\"\x7d\x7d".toList, []⟩)
      "You are a test assistant.".toList ['a', '\x00', 'b']
      = { ran := [], result := [], err := some (.join .ErrCLIExecution (.new [])) } ∧
    ClaudeClient.Generate
      (fun _ => ⟨false, "\x7b\"structured_output\":\x7b\"response\":\"4\"\x7d\x7d".toList, []⟩)
      "You are a test assistant.".toList ['a', 'b']
      = { ran := [⟨"claude".toList, ["-p".toList, ['a', 'b'],
            "--append-system-prompt".toList, "You are a test assistant.".toList,
            "--output-format".toList, "json".toList, "--json-schema".toList,
            claudeJSONSchema]⟩],
          result := "4".toList, err := none } :=
  ⟨by decide, by decide⟩

/-- C17, as amended: the command of `GeminiClient.Generate` is `gemini -p prompt
--output-format json` and the command of `ContinueClient.Generate` is `cn -p prompt
--format json --silent`, where `prompt` is one argument: the system prompt, two line
breaks and the user prompt.  When no prompt holds a NUL, the operating system is asked
to run exactly this command, and what `Generate` returns is computed from what the
operating system answers for it.  When a prompt holds a NUL, the operating system is
asked to run nothing and `Generate` returns the empty string and `ErrCLIExecution`
joined with an error of empty text. -/
theorem concatenating_Generate_command (os : Cmd → RunResult)
    (systemPrompt userPrompt : GoString) (gemini cn : Cmd)
    (hgemini : gemini = { Name := "gemini".toList
                          Args := ["-p".toList, systemPrompt ++ ['\n', '\n'] ++ userPrompt,
                            "--output-format".toList, "json".toList] })
    (hcn : cn = { Name := "cn".toList
                  Args := ["-p".toList, systemPrompt ++ ['\n', '\n'] ++ userPrompt,
                    "--format".toList, "json".toList, "--silent".toList] }) :
    ('\x00' ∉ systemPrompt → '\x00' ∉ userPrompt →
      ((GeminiClient.Generate os systemPrompt userPrompt).ran = [gemini] ∧
        ((os gemini).failed = true →
          (GeminiClient.Generate os systemPrompt userPrompt).result = [] ∧
          (GeminiClient.Generate os systemPrompt userPrompt).err =
            some (.join .ErrCLIExecution (.new (os gemini).stderr))) ∧
        ((os gemini).failed = false →
          ((GeminiClient.Generate os systemPrompt userPrompt).result,
            (GeminiClient.Generate os systemPrompt userPrompt).err) =
            parseGeminiResponse (os gemini).stdout)) ∧
      ((ContinueClient.Generate os systemPrompt userPrompt).ran = [cn] ∧
        ((os cn).failed = true →
          (ContinueClient.Generate os systemPrompt userPrompt).result = [] ∧
          (ContinueClient.Generate os systemPrompt userPrompt).err =
            some (.join .ErrCLIExecution (.new (os cn).stderr))) ∧
        ((os cn).failed = false →
          ((ContinueClient.Generate os systemPrompt userPrompt).result,
            (ContinueClient.Generate os systemPrompt userPrompt).err) =
            parseContinueResponse (os cn).stdout))) ∧
    ('\x00' ∈ systemPrompt ∨ '\x00' ∈ userPrompt →
      (GeminiClient.Generate os systemPrompt userPrompt).ran = [] ∧
      (GeminiClient.Generate os systemPrompt userPrompt).result = [] ∧
      (GeminiClient.Generate os systemPrompt userPrompt).err =
        some (.join .ErrCLIExecution (.new [])) ∧
      (ContinueClient.Generate os systemPrompt userPrompt).ran = [] ∧
      (ContinueClient.Generate os systemPrompt userPrompt).result = [] ∧
      (ContinueClient.Generate os systemPrompt userPrompt).err =
        some (.join .ErrCLIExecution (.new []))) := by
  have hg2 : gemini = ⟨"gemini".toList, ["-p".toList,
      systemPrompt ++ "\n\n".toList ++ userPrompt, "--output-format".toList,
      "json".toList]⟩ := hgemini
  have hc2 : cn = ⟨"cn".toList, ["-p".toList, systemPrompt ++ "\n\n".toList ++ userPrompt,
      "--format".toList, "json".toList, "--silent".toList]⟩ := hcn
  have hgeq := GeminiClient_Generate_eq os systemPrompt userPrompt gemini hg2
  have hceq := ContinueClient_Generate_eq os systemPrompt userPrompt cn hc2
  have hgnul := gemini_hasNUL systemPrompt userPrompt
  have hcnul := continue_hasNUL systemPrompt userPrompt
  rw [← hg2] at hgnul
  rw [← hc2] at hcnul
  constructor
  · intro hs hu
    have hgrun : gemini.Run os = (os gemini, [gemini]) := by
      apply Cmd_Run_of_not_hasNUL
      rw [hgnul, contains_NUL_false _ hs, contains_NUL_false _ hu]
      rfl
    have hcrun : cn.Run os = (os cn, [cn]) := by
      apply Cmd_Run_of_not_hasNUL
      rw [hcnul, contains_NUL_false _ hs, contains_NUL_false _ hu]
      rfl
    rw [hgrun] at hgeq
    rw [hcrun] at hceq
    refine ⟨⟨?_, ?_, ?_⟩, ⟨?_, ?_, ?_⟩⟩
    · rw [hgeq]
      split <;> rfl
    · intro hf
      rw [hgeq, if_pos hf]
      exact ⟨rfl, rfl⟩
    · intro hf
      rw [hgeq, if_neg (by rw [hf]; exact Bool.noConfusion)]
    · rw [hceq]
      split <;> rfl
    · intro hf
      rw [hceq, if_pos hf]
      exact ⟨rfl, rfl⟩
    · intro hf
      rw [hceq, if_neg (by rw [hf]; exact Bool.noConfusion)]
  · intro h
    have hor : (systemPrompt.contains '\x00' || userPrompt.contains '\x00') = true := by
      rcases h with h | h
      · rw [contains_NUL_true _ h, Bool.true_or]
      · rw [contains_NUL_true _ h, Bool.or_true]
    have hgrun : gemini.Run os = (⟨true, [], []⟩, []) :=
      Cmd_Run_of_hasNUL os gemini (by rw [hgnul, hor])
    have hcrun : cn.Run os = (⟨true, [], []⟩, []) :=
      Cmd_Run_of_hasNUL os cn (by rw [hcnul, hor])
    rw [hgrun] at hgeq
    rw [hcrun] at hceq
    rw [hgeq, hceq]
    exact ⟨rfl, rfl, rfl, rfl, rfl, rfl⟩

theorem concatenating_Generate_command_witness :
    (GeminiClient.Generate
      (fun _ => ⟨false, "\x7b\"response\":\"4\"\x7d".toList, []⟩)
      "You are a test assistant.".toList "What is 2+2?".toList).ran =
      [⟨"gemini".toList, ["-p".toList, "You are a test assistant.\n\nWhat is 2+2?".toList,
        "--output-format".toList, "json".toList]⟩] ∧
    (ContinueClient.Generate
      (fun _ => ⟨false, "\x7b\"response\":\"4\"\x7d".toList, []⟩)
      "You are a test assistant.".toList "What is 2+2?".toList).ran =
      [⟨"cn".toList, ["-p".toList, "You are a test assistant.\n\nWhat is 2+2?".toList,
        "--format".toList, "json".toList, "--silent".toList]⟩] :=
  ⟨((concatenating_Generate_command
      (fun _ => ⟨false, "\x7b\"response\":\"4\"\x7d".toList, []⟩)
      "You are a test assistant.".toList "What is 2+2?".toList _ _ rfl rfl).1
      (by decide) (by decide)).1.1,
   ((concatenating_Generate_command
      (fun _ => ⟨false, "\x7b\"response\":\"4\"\x7d".toList, []⟩)
      "You are a test assistant.".toList "What is 2+2?".toList _ _ rfl rfl).1
      (by decide) (by decide)).2.1⟩

/-- C17 fails as stated for a prompt with a NUL: over an operating system that runs
every command with success, the two adapters with the user prompt `a`, NUL, `b` run no
command at all and return the empty string and an error. -/
theorem concatenating_Generate_NUL_counterexample :
    GeminiClient.Generate (fun _ => ⟨false, "\x7b\"response\":\"4\"\x7d".toList, []⟩)
      "You are a test assistant.".toList ['a', '\x00', 'b']
      = { ran := [], result := [], err := some (.join .ErrCLIExecution (.new [])) } ∧
    ContinueClient.Generate (fun _ => ⟨false, "\x7b\"response\":\"4\"\x7d".toList, []⟩)
      "You are a test assistant.".toList ['a', '\x00', 'b']
      = { ran := [], result := [], err := some (.join .ErrCLIExecution (.new [])) } ∧
    GeminiClient.Generate (fun _ => ⟨false, "\x7b\"response\":\"4\"\x7d".toList, []⟩)
      "You are a test assistant.".toList ['a', 'b']
      = { ran := [⟨"gemini".toList, ["-p".toList, "You are a test assistant.\n\nab".toList,
            "--output-format".toList, "json".toList]⟩],
          result := "4".toList, err := none } :=
  ⟨by decide, by decide, by decide⟩

/-! ## The cross-origin headers -/

theorem lookup_set_self (k v : GoString) : ∀ (l : List (GoString × GoString)),
    (l.filter (fun kv => kv.1 ≠ k) ++ [(k, v)]).lookup k = some v
  | [] => by simp [List.lookup]
  | (k0, v0) :: l => by
    by_cases h : k0 = k
    · subst h
      simp only [List.filter_cons, ne_eq, not_true_eq_false, decide_False]
      exact lookup_set_self k0 v l
    · have hb : (k == k0) = false := beq_eq_false_iff_ne.mpr (fun e => h e.symm)
      simp only [List.filter_cons, ne_eq, h, not_false_eq_true, decide_True, if_true,
        List.cons_append, List.lookup, hb]
      exact lookup_set_self k v l

theorem lookup_set_ne (k v k2 : GoString) (hne : k2 ≠ k) :
    ∀ (l : List (GoString × GoString)),
      (l.filter (fun kv => kv.1 ≠ k) ++ [(k, v)]).lookup k2 = l.lookup k2
  | [] => by
    have hb : (k2 == k) = false := beq_eq_false_iff_ne.mpr hne
    simp [List.lookup, hb]
  | (k0, v0) :: l => by
    by_cases h : k0 = k
    · subst h
      have hb : (k2 == k0) = false := beq_eq_false_iff_ne.mpr hne
      simp only [List.filter_cons, ne_eq, not_true_eq_false, decide_False, List.lookup, hb]
      exact lookup_set_ne k0 v k2 hne l
    · simp only [List.filter_cons, ne_eq, h, not_false_eq_true, decide_True, if_true,
        List.cons_append, List.lookup]
      cases (k2 == k0) with
      | true => rfl
      | false => exact lookup_set_ne k v k2 hne l

theorem setHeader_lookup_self (w : ResponseRecorder) (k v : GoString) :
    (w.setHeader k v).Header.lookup k = some v :=
  lookup_set_self k v w.Header

theorem setHeader_lookup_ne (w : ResponseRecorder) (k v k2 : GoString) (hne : k2 ≠ k) :
    (w.setHeader k v).Header.lookup k2 = w.Header.lookup k2 :=
  lookup_set_ne k v k2 hne w.Header

/-- After `setCORSHeaders` the four headers are set. -/
theorem setCORSHeaders_has (h : Handler) (w : ResponseRecorder) :
    HasCORSHeaders h.allowedOrigin (h.setCORSHeaders w) := by
  unfold HasCORSHeaders Handler.setCORSHeaders
  refine ⟨?_, ?_, ?_, ?_⟩
  · rw [setHeader_lookup_ne _ _ _ _ (by decide), setHeader_lookup_ne _ _ _ _ (by decide),
      setHeader_lookup_ne _ _ _ _ (by decide), setHeader_lookup_self]
  · rw [setHeader_lookup_ne _ _ _ _ (by decide), setHeader_lookup_ne _ _ _ _ (by decide),
      setHeader_lookup_self]
  · rw [setHeader_lookup_ne _ _ _ _ (by decide), setHeader_lookup_self]
  · rw [setHeader_lookup_self]

/-- Setting the content type keeps the four headers. -/
theorem HasCORSHeaders_setContentType (origin : GoString) (w : ResponseRecorder)
    (v : GoString) (hw : HasCORSHeaders origin w) :
    HasCORSHeaders origin (w.setHeader "Content-Type".toList v) := by
  unfold HasCORSHeaders at hw ⊢
  rw [setHeader_lookup_ne _ _ _ _ (by decide), setHeader_lookup_ne _ _ _ _ (by decide),
    setHeader_lookup_ne _ _ _ _ (by decide), setHeader_lookup_ne _ _ _ _ (by decide)]
  exact hw

theorem HasCORSHeaders_sendError (h : Handler) (w : ResponseRecorder) (msg : GoString)
    (code : Nat) (hw : HasCORSHeaders h.allowedOrigin w) :
    HasCORSHeaders h.allowedOrigin (h.sendError w msg code) :=
  HasCORSHeaders_setContentType _ w _ hw

theorem HasCORSHeaders_sendJSON (h : Handler) (w : ResponseRecorder) (r : Response)
    (hw : HasCORSHeaders h.allowedOrigin w) :
    HasCORSHeaders h.allowedOrigin (h.sendJSON w r) :=
  HasCORSHeaders_setContentType _ w _ hw

/-- C19: every response of `HandlePrompt`, `HandleProviders`, `HandleHealth` and
`HandleOpenAPI`, for every method, body and registry, carries the four cross-origin
headers: the configured origin, the methods `POST, GET, OPTIONS`, the header
`Content-Type` and the private-network allowance `true`. -/
theorem handlers_have_CORS_headers (h : Handler) (r : HTTPRequest) :
    HasCORSHeaders h.allowedOrigin (h.HandlePrompt r).w ∧
    HasCORSHeaders h.allowedOrigin (h.HandleProviders r).w ∧
    HasCORSHeaders h.allowedOrigin (h.HandleHealth r).w ∧
    HasCORSHeaders h.allowedOrigin (h.HandleOpenAPI r).w := by
  have h0 := setCORSHeaders_has h ResponseRecorder.new
  refine ⟨?_, ?_, ?_, ?_⟩
  · unfold Handler.HandlePrompt
    simp only
    split
    · exact h0
    · split
      · exact HasCORSHeaders_sendError h _ _ _ h0
      · split
        · exact HasCORSHeaders_sendError h _ _ _ h0
        · split
          · exact HasCORSHeaders_sendError h _ _ _ h0
          · split
            · exact HasCORSHeaders_sendError h _ _ _ h0
            · split
              · exact HasCORSHeaders_sendError h _ _ _ h0
              · exact HasCORSHeaders_sendJSON h _ _ h0
  · unfold Handler.HandleProviders
    simp only
    split
    · exact h0
    · split
      · exact HasCORSHeaders_sendError h _ _ _ h0
      · exact HasCORSHeaders_setContentType _ _ _ h0
  · unfold Handler.HandleHealth
    simp only
    split
    · exact h0
    · split
      · exact h0
      · exact h0
  · unfold Handler.HandleOpenAPI
    simp only
    split
    · exact h0
    · exact HasCORSHeaders_setContentType _ _ _ h0

/-! ## The list of providers -/

theorem providerInfos_description (h : Handler) (info : ProviderInfo)
    (hi : info ∈ h.providerInfos) :
    info.Description =
      if (providerDescriptions.lookup info.Name).getD [] = [] then info.Name
      else (providerDescriptions.lookup info.Name).getD [] := by
  unfold Handler.providerInfos at hi
  obtain ⟨kv, _, hkv⟩ := List.mem_map.mp hi
  rw [← hkv]

/-- C20: a GET to `HandleProviders` is answered with status 200 and one JSON object
whose member `providers` lists one entry per entry of the registry: as many entries as
the registry has, with the registry keys as names; the description of an entry is the
one `providerDescriptions` holds for the name when that is not empty, and the name
otherwise; so an entry with a non-empty name has a non-empty description, and when the
keys are among the five built-in names every entry has a non-empty name and
description. -/
theorem HandleProviders_get (h : Handler) (body : GoString) :
    (h.HandleProviders ⟨"GET".toList, body⟩).w.Code = 200 ∧
    (h.HandleProviders ⟨"GET".toList, body⟩).w.Body =
      [.object [("providers".toList, .array (h.providerInfos.map ProviderInfo.toJSON))]] ∧
    h.providerInfos.length = h.providers.length ∧
    h.providerInfos.map (fun info => info.Name) = h.providers.map Prod.fst ∧
    (∀ info ∈ h.providerInfos, info.Description =
      if (providerDescriptions.lookup info.Name).getD [] = [] then info.Name
      else (providerDescriptions.lookup info.Name).getD []) ∧
    (∀ info ∈ h.providerInfos, info.Name ≠ [] → info.Description ≠ []) ∧
    ((∀ k ∈ h.providers.map Prod.fst,
        k ∈ ["claude".toList, "gemini".toList, "codex".toList, "continue".toList,
          "opencode".toList]) →
      ∀ info ∈ h.providerInfos, info.Name ≠ [] ∧ info.Description ≠ []) := by
  have hne1 : "GET".toList ≠ "OPTIONS".toList := by decide
  have hdesc : ∀ info ∈ h.providerInfos, info.Name ≠ [] → info.Description ≠ [] := by
    intro info hi hn
    rw [providerInfos_description h info hi]
    split
    · exact hn
    · assumption
  have hnames : h.providerInfos.map (fun info => info.Name) = h.providers.map Prod.fst := by
    unfold Handler.providerInfos
    rw [List.map_map]
    rfl
  refine ⟨?_, ?_, ?_, hnames, providerInfos_description h, hdesc, ?_⟩
  · unfold Handler.HandleProviders
    simp only [hne1, if_false, ne_eq, not_true_eq_false]
    rfl
  · unfold Handler.HandleProviders
    simp only [hne1, if_false, ne_eq, not_true_eq_false]
    rfl
  · unfold Handler.providerInfos
    exact List.length_map _ _
  · intro hkeys info hi
    have hname : info.Name ∈ h.providers.map Prod.fst := by
      rw [← hnames]
      exact List.mem_map.mpr ⟨info, hi, rfl⟩
    have hn : info.Name ≠ [] := by
      have := hkeys _ hname
      intro h0
      rw [h0] at this
      exact absurd this (by decide)
    exact ⟨hn, hdesc info hi hn⟩

theorem HandleProviders_get_witness :
    ((newTestHandlerWithProviders
        [("claude".toList, mockGenerator [] none), ("gemini".toList, mockGenerator [] none)]
        "claude".toList).HandleProviders ⟨"GET".toList, []⟩).w.Body =
      [.object [("providers".toList, .array
        [.object [("name".toList, .string "claude".toList),
            ("description".toList, .string "Claude Code".toList)],
         .object [("name".toList, .string "gemini".toList),
            ("description".toList, .string "Google Gemini".toList)]])]] :=
  (HandleProviders_get
    (newTestHandlerWithProviders
      [("claude".toList, mockGenerator [] none), ("gemini".toList, mockGenerator [] none)]
      "claude".toList) []).2.1.trans (by rfl)

/-! ## A normalizing parser succeeding with empty text -/

/-- C24: there is a standard output that is not blank, the document
`\x7b"response":" "\x7d`, on which `parseGeminiResponse` and `parseContinueResponse`
return the empty string with a nil error: the decoded field is a single space, which
passes the test for emptiness, and `CleanResponse` then trims it to the empty
string. -/
theorem normalizing_parsers_empty_success :
    ∃ stdout : GoString,
      stdout = "\x7b\"response\":\" \"\x7d".toList ∧
      TrimSpace stdout ≠ [] ∧
      parseGeminiResponse stdout = ([], none) ∧
      parseContinueResponse stdout = ([], none) ∧
      unmarshalGemini stdout = (⟨[' ']⟩, true) ∧
      unmarshalContinue stdout = (⟨[' '], []⟩, true) ∧
      ([' '] : GoString) ≠ [] ∧ CleanResponse [' '] = [] :=
  ⟨"\x7b\"response\":\" \"\x7d".toList, rfl, by decide, by rfl, by rfl, by rfl, by rfl,
    by decide, by rfl⟩

/-! ## Lemmas: `strconv.Atoi` -/

theorem le_foldl_digits : ∀ (ds : GoString) (n : Nat),
    n ≤ ds.foldl (fun n c => n * 10 + digitVal c) n
  | [], n => Nat.le_refl n
  | c :: cs, n => by
    have h := le_foldl_digits cs (n * 10 + digitVal c)
    simp only [List.foldl_cons]
    omega

theorem parseUintLoop_digits : ∀ (ds : GoString) (n : Nat), n ≤ maxUint64 →
    ds.all isDigit = true →
    parseUintLoop n ds =
      if ds.foldl (fun n c => n * 10 + digitVal c) n ≤ maxUint64 then
        (ds.foldl (fun n c => n * 10 + digitVal c) n, none)
      else (maxUint64, some .ErrRange)
  | [], n, hn, _ => by
    simp only [parseUintLoop, List.foldl_nil]
    rw [if_pos hn]
  | c :: cs, n, _, h => by
    simp only [List.all_cons, Bool.and_eq_true] at h
    simp only [parseUintLoop, h.1, if_true, List.foldl_cons]
    by_cases hov : n * 10 + digitVal c > maxUint64
    · have := le_foldl_digits cs (n * 10 + digitVal c)
      rw [if_pos hov, if_neg (by omega)]
    · rw [if_neg hov]
      exact parseUintLoop_digits cs _ (by omega) h.2

theorem parseUintLoop_not_digits : ∀ (ds : GoString) (n : Nat), ds.all isDigit = false →
    parseUintLoop n ds = (0, some .ErrSyntax) ∨ parseUintLoop n ds = (maxUint64, some .ErrRange)
  | [], _, h => by simp at h
  | c :: cs, n, h => by
    simp only [parseUintLoop]
    cases hc : isDigit c
    · left; simp
    · simp only [if_true]
      by_cases hov : n * 10 + digitVal c > maxUint64
      · rw [if_pos hov]; right; rfl
      · rw [if_neg hov]
        refine parseUintLoop_not_digits cs _ ?_
        simpa [List.all_cons, hc] using h

/-- The result of `ParseUint` on one or more digits. -/
theorem ParseUint_digits (ds : GoString) (hne : ds ≠ []) (hd : ds.all isDigit = true) :
    ParseUint ds =
      if ds.foldl (fun n c => n * 10 + digitVal c) 0 ≤ maxUint64 then
        (ds.foldl (fun n c => n * 10 + digitVal c) 0, none)
      else (maxUint64, some .ErrRange) := by
  unfold ParseUint
  rw [if_neg hne]
  exact parseUintLoop_digits ds 0 (Nat.zero_le _) hd

/-- The result of `ParseUint` on a text that is not one or more digits. -/
theorem ParseUint_not_digits (ds : GoString) (h : ¬ (ds ≠ [] ∧ ds.all isDigit = true)) :
    ParseUint ds = (0, some .ErrSyntax) ∨ ParseUint ds = (maxUint64, some .ErrRange) := by
  unfold ParseUint
  by_cases hne : ds = []
  · left; rw [if_pos hne]
  · rw [if_neg hne]
    refine parseUintLoop_not_digits ds 0 ?_
    cases hd : ds.all isDigit
    · rfl
    · exact absurd ⟨hne, hd⟩ h

/-- The sign and the digits `Atoi` and `decimalInteger` split a text into. -/
theorem Atoi_cons (c : Char) (t : GoString) :
    Atoi (c :: t) =
      if (ParseUint (if c = '+' ∨ c = '-' then t else c :: t)).2 = some .ErrSyntax then
        (0, (ParseUint (if c = '+' ∨ c = '-' then t else c :: t)).2)
      else if ¬ c = '-' ∧ (ParseUint (if c = '+' ∨ c = '-' then t else c :: t)).1 ≥ 2 ^ 63 then
        ((2 : Int) ^ 63 - 1, some .ErrRange)
      else if c = '-' ∧ (ParseUint (if c = '+' ∨ c = '-' then t else c :: t)).1 > 2 ^ 63 then
        (-(2 : Int) ^ 63, some .ErrRange)
      else (if c = '-' then -((ParseUint (if c = '+' ∨ c = '-' then t else c :: t)).1 : Int)
        else ((ParseUint (if c = '+' ∨ c = '-' then t else c :: t)).1 : Int), none) := by
  rfl

theorem decimalInteger_cons (c : Char) (t : GoString) :
    decimalInteger (c :: t) =
      if (if c = '+' ∨ c = '-' then t else c :: t) ≠ [] ∧
          (if c = '+' ∨ c = '-' then t else c :: t).all isDigit = true then
        some (if c = '-' then
          -(((if c = '+' ∨ c = '-' then t else c :: t).foldl
            (fun n c => n * 10 + digitVal c) 0 : Nat) : Int)
          else (((if c = '+' ∨ c = '-' then t else c :: t).foldl
            (fun n c => n * 10 + digitVal c) 0 : Nat) : Int))
      else none := by
  by_cases hm : c = '-'
  · subst hm
    simp only [decimalInteger, or_true, if_true]
  · by_cases hp : c = '+'
    · subst hp
      simp only [decimalInteger, true_or, if_true, hm, if_false]
    · simp only [hm, hp, or_self, if_false]
      unfold decimalInteger
      split
      · rename_i h; exact absurd (List.cons.inj h).1 hm
      · rename_i h; exact absurd (List.cons.inj h).1 hp
      · rfl

/-- A text that denotes no integer in base 10 makes `Atoi` return an error. -/
theorem Atoi_of_not_decimal (s : GoString) (h : decimalInteger s = none) :
    (Atoi s).2 ≠ none := by
  cases s with
  | nil => simp [Atoi]
  | cons c t =>
    rw [decimalInteger_cons] at h
    rw [Atoi_cons]
    generalize (if c = '+' ∨ c = '-' then t else c :: t) = ds at h ⊢
    by_cases hcond : ds ≠ [] ∧ ds.all isDigit = true
    · rw [if_pos hcond] at h
      exact Option.noConfusion h
    · rcases ParseUint_not_digits ds hcond with hp | hp
      · rw [hp]
        simp
      · rw [hp]
        have hmax : 9223372036854775808 ≤ maxUint64 := by decide
        have hmax2 : 9223372036854775808 < maxUint64 := by decide
        by_cases hm : c = '-'
        · simp [hm, hmax2]
        · simp [hm, hmax]

/-- On a text that denotes the integer `n` in base 10, `Atoi` returns `n` when it is in
the range of `int`, and a range error otherwise. -/
theorem Atoi_of_decimal (s : GoString) (n : Int) (h : decimalInteger s = some n) :
    (-(2 : Int) ^ 63 ≤ n ∧ n < (2 : Int) ^ 63 → Atoi s = (n, none)) ∧
    (¬ (-(2 : Int) ^ 63 ≤ n ∧ n < (2 : Int) ^ 63) → (Atoi s).2 = some .ErrRange) := by
  cases s with
  | nil => simp [decimalInteger] at h
  | cons c t =>
    rw [decimalInteger_cons] at h
    rw [Atoi_cons]
    generalize (if c = '+' ∨ c = '-' then t else c :: t) = ds at h ⊢
    by_cases hcond : ds ≠ [] ∧ ds.all isDigit = true
    · rw [if_pos hcond] at h
      have hn := Option.some.inj h
      rw [ParseUint_digits ds hcond.1 hcond.2]
      generalize ds.foldl (fun n c => n * 10 + digitVal c) 0 = v at hn ⊢
      have hmaxv : maxUint64 = 18446744073709551615 := by decide
      by_cases hv : v ≤ maxUint64
      · rw [if_pos hv]
        simp only
        by_cases hm : c = '-'
        · simp only [hm, if_true, not_true_eq_false, false_and, if_false, true_and] at hn ⊢
          rw [if_neg (by simp)]
          subst hn
          constructor
          · intro hr
            rw [if_neg (by omega)]
          · intro hr
            rw [if_pos (by omega)]
        · simp only [hm, if_false, not_false_eq_true, true_and, false_and] at hn ⊢
          rw [if_neg (by simp)]
          subst hn
          constructor
          · intro hr
            rw [if_neg (by omega)]
          · intro hr
            rw [if_pos (by omega)]
      · rw [if_neg hv]
        simp only
        rw [if_neg (by simp)]
        by_cases hm : c = '-'
        · simp only [hm, if_true, not_true_eq_false, false_and, if_false, true_and] at hn ⊢
          subst hn
          constructor
          · intro hr
            omega
          · intro _
            rw [if_pos (by decide)]
        · simp only [hm, if_false, not_false_eq_true, true_and, false_and] at hn ⊢
          subst hn
          constructor
          · intro hr
            omega
          · intro _
            rw [if_pos (by decide)]
    · rw [if_neg hcond] at h
      exact Option.noConfusion h

/-! ## `config.Load` -/

/-- The error of `Load`, by the three tests on the system prompt. -/
theorem Load_error (env : Environ) (ReadFile : GoString → GoString × Option GoError) :
    (Load env ReadFile).2 =
      if Getenv env "LOCAL_AI_TOOL_PROXY_SYSTEM_PROMPT".toList = [] then
        some .systemPromptRequired
      else
        match (ReadFile (Getenv env "LOCAL_AI_TOOL_PROXY_SYSTEM_PROMPT".toList)).2 with
        | some e => some (.readFailed e)
        | none =>
          if TrimSpace (ReadFile (Getenv env "LOCAL_AI_TOOL_PROXY_SYSTEM_PROMPT".toList)).1 = []
          then some (.systemPromptEmpty (Getenv env "LOCAL_AI_TOOL_PROXY_SYSTEM_PROMPT".toList))
          else none := by
  unfold Load
  simp only
  by_cases hp : Getenv env "LOCAL_AI_TOOL_PROXY_SYSTEM_PROMPT".toList = []
  · rw [if_pos hp, if_pos hp]
  · rw [if_neg hp, if_neg hp]
    rcases ReadFile (Getenv env "LOCAL_AI_TOOL_PROXY_SYSTEM_PROMPT".toList) with ⟨data, err⟩
    cases err with
    | some e => rfl
    | none =>
      simp only
      by_cases ht : TrimSpace data = []
      · rw [if_pos ht, if_pos ht]
      · rw [if_neg ht, if_neg ht]

/-- A failing `Load` returns the zero `Config`. -/
theorem Load_zero (env : Environ) (ReadFile : GoString → GoString × Option GoError)
    (h : (Load env ReadFile).2 ≠ none) : (Load env ReadFile).1 = Config.zero := by
  revert h
  unfold Load
  simp only
  by_cases hp : Getenv env "LOCAL_AI_TOOL_PROXY_SYSTEM_PROMPT".toList = []
  · rw [if_pos hp]
    intro _; rfl
  · rw [if_neg hp]
    rcases ReadFile (Getenv env "LOCAL_AI_TOOL_PROXY_SYSTEM_PROMPT".toList) with ⟨data, err⟩
    cases err with
    | some e => intro _; rfl
    | none =>
      simp only
      by_cases ht : TrimSpace data = []
      · rw [if_pos ht]
        intro _; rfl
      · rw [if_neg ht]
        intro h; exact absurd rfl h

/-- The fields of the `Config` a successful `Load` returns. -/
theorem Load_fields (env : Environ) (ReadFile : GoString → GoString × Option GoError)
    (h : (Load env ReadFile).2 = none) :
    (Load env ReadFile).1.Port =
      (if Getenv env "LOCAL_AI_TOOL_PROXY_PORT".toList ≠ [] then
        if (Atoi (Getenv env "LOCAL_AI_TOOL_PROXY_PORT".toList)).2 = none ∧
            (Atoi (Getenv env "LOCAL_AI_TOOL_PROXY_PORT".toList)).1 > 0 ∧
            (Atoi (Getenv env "LOCAL_AI_TOOL_PROXY_PORT".toList)).1 < 65536 then
          (Atoi (Getenv env "LOCAL_AI_TOOL_PROXY_PORT".toList)).1
        else defaultPort
      else defaultPort) ∧
    (Load env ReadFile).1.SystemPromptPath =
      Getenv env "LOCAL_AI_TOOL_PROXY_SYSTEM_PROMPT".toList ∧
    (Load env ReadFile).1.SystemPrompt =
      TrimSpace (ReadFile (Getenv env "LOCAL_AI_TOOL_PROXY_SYSTEM_PROMPT".toList)).1 := by
  revert h
  unfold Load
  simp only
  by_cases hp : Getenv env "LOCAL_AI_TOOL_PROXY_SYSTEM_PROMPT".toList = []
  · rw [if_pos hp]
    intro h; exact Option.noConfusion h
  · rw [if_neg hp]
    rcases ReadFile (Getenv env "LOCAL_AI_TOOL_PROXY_SYSTEM_PROMPT".toList) with ⟨data, err⟩
    cases err with
    | some e => intro h; exact Option.noConfusion h
    | none =>
      simp only
      by_cases ht : TrimSpace data = []
      · rw [if_pos ht]
        intro h; exact Option.noConfusion h
      · rw [if_neg ht]
        intro _
        refine ⟨?_, rfl, rfl⟩
        by_cases ho : Getenv env "LOCAL_AI_TOOL_PROXY_ALLOWED_ORIGIN".toList = [] <;>
        by_cases hr : Getenv env "LOCAL_AI_TOOL_PROXY_PROVIDER".toList = [] <;>
        by_cases hv : Getenv env "LOCAL_AI_TOOL_PROXY_PORT".toList = [] <;>
        by_cases hc : (Atoi (Getenv env "LOCAL_AI_TOOL_PROXY_PORT".toList)).2 = none ∧
            (Atoi (Getenv env "LOCAL_AI_TOOL_PROXY_PORT".toList)).1 > 0 ∧
            (Atoi (Getenv env "LOCAL_AI_TOOL_PROXY_PORT".toList)).1 < 65536 <;>
        simp only [ho, hr, hv, hc, ne_eq, not_true_eq_false, not_false_eq_true, if_true,
          if_false, and_self]

/-- A text that denotes an integer in base 10 is not empty. -/
theorem decimalInteger_nil : decimalInteger [] = none := by
  rfl

/-- C22: the port of the `Config` a successful `Load` returns is a function of the value
of `LOCAL_AI_TOOL_PROXY_PORT`: it is `n` when the variable is set to a text that denotes
the integer `n` in base 10 with `1 ≤ n ≤ 65535`, and the default 4000 in every other
case. The error of `Load` does not depend on the variable: two environments that differ
only in it give the same error, so no value of the port makes `Load` fail. -/
theorem Load_port (env : Environ) (ReadFile : GoString → GoString × Option GoError) :
    ((Load env ReadFile).2 = none →
      (∀ (value : GoString) (n : Int), env "LOCAL_AI_TOOL_PROXY_PORT".toList = some value →
        decimalInteger value = some n → 1 ≤ n → n ≤ 65535 →
        (Load env ReadFile).1.Port = n) ∧
      ((¬ ∃ (value : GoString) (n : Int), env "LOCAL_AI_TOOL_PROXY_PORT".toList = some value ∧
          decimalInteger value = some n ∧ 1 ≤ n ∧ n ≤ 65535) →
        (Load env ReadFile).1.Port = 4000)) ∧
    (∀ env2 : Environ, (∀ key, key ≠ "LOCAL_AI_TOOL_PROXY_PORT".toList → env2 key = env key) →
      (Load env2 ReadFile).2 = (Load env ReadFile).2 ∧
      ((Load env2 ReadFile).2 = none ↔ (Load env ReadFile).2 = none)) := by
  constructor
  · intro hok
    have hport := (Load_fields env ReadFile hok).1
    constructor
    · intro value n hv hd h1 h2
      have hget : Getenv env "LOCAL_AI_TOOL_PROXY_PORT".toList = value := by
        unfold Getenv
        rw [hv]
        rfl
      have hne : value ≠ [] := by
        intro he
        rw [he, decimalInteger_nil] at hd
        exact Option.noConfusion hd
      have hat := (Atoi_of_decimal value n hd).1 ⟨by omega, by omega⟩
      rw [hport, hget, if_pos hne, hat, if_pos ⟨rfl, by omega, by omega⟩]
    · intro hno
      rw [hport]
      by_cases hne : Getenv env "LOCAL_AI_TOOL_PROXY_PORT".toList = []
      · rw [if_neg (fun hc => hc hne)]
        rfl
      · rw [if_pos hne]
        have hset : env "LOCAL_AI_TOOL_PROXY_PORT".toList =
            some (Getenv env "LOCAL_AI_TOOL_PROXY_PORT".toList) := by
          unfold Getenv at hne ⊢
          cases hv : env "LOCAL_AI_TOOL_PROXY_PORT".toList with
          | none => rw [hv] at hne; exact absurd rfl hne
          | some v => rfl
        generalize Getenv env "LOCAL_AI_TOOL_PROXY_PORT".toList = value at hset hne ⊢
        by_cases hc : (Atoi value).2 = none ∧ (Atoi value).1 > 0 ∧ (Atoi value).1 < 65536
        · exfalso
          cases hd : decimalInteger value with
          | none => exact Atoi_of_not_decimal value hd hc.1
          | some n =>
            have hds := Atoi_of_decimal value n hd
            by_cases hr : -(2 : Int) ^ 63 ≤ n ∧ n < (2 : Int) ^ 63
            · have hat := hds.1 hr
              rw [hat] at hc
              exact hno ⟨value, n, hset, hd, by have := hc.2.1; omega, by have := hc.2.2; omega⟩
            · have herr := hds.2 hr
              rw [hc.1] at herr
              exact Option.noConfusion herr
        · rw [if_neg hc]
          rfl
  · intro env2 hsame
    have hsp : Getenv env2 "LOCAL_AI_TOOL_PROXY_SYSTEM_PROMPT".toList =
        Getenv env "LOCAL_AI_TOOL_PROXY_SYSTEM_PROMPT".toList := by
      unfold Getenv
      rw [hsame _ (by decide)]
    have heq : (Load env2 ReadFile).2 = (Load env ReadFile).2 := by
      rw [Load_error, Load_error, hsp]
    exact ⟨heq, by rw [heq]⟩

theorem Load_port_witness :
    (Load (fun key => if key = "LOCAL_AI_TOOL_PROXY_PORT".toList then some "8080".toList
        else if key = "LOCAL_AI_TOOL_PROXY_SYSTEM_PROMPT".toList then some "/prompt.txt".toList
        else none)
      (fun _ => ("You are a helpful assistant.".toList, none))).1.Port = 8080 :=
  ((Load_port
    (fun key => if key = "LOCAL_AI_TOOL_PROXY_PORT".toList then some "8080".toList
        else if key = "LOCAL_AI_TOOL_PROXY_SYSTEM_PROMPT".toList then some "/prompt.txt".toList
        else none)
    (fun _ => ("You are a helpful assistant.".toList, none))).1 (by rfl)).1
    "8080".toList 8080 (by rfl) (by rfl) (by decide) (by decide)

/-- C23: `Load` fails exactly when `LOCAL_AI_TOOL_PROXY_SYSTEM_PROMPT` is unset or empty,
or `os.ReadFile` returns an error for the path it names, or the content of the file is
empty after `strings.TrimSpace`. A failing `Load` returns the zero `Config`. A
successful `Load` returns the trimmed content of the file, which is not empty, as
`SystemPrompt` and the value of the variable as `SystemPromptPath`. -/
theorem Load_system_prompt (env : Environ) (ReadFile : GoString → GoString × Option GoError) :
    ((Load env ReadFile).2 ≠ none ↔
      (env "LOCAL_AI_TOOL_PROXY_SYSTEM_PROMPT".toList = none ∨
        env "LOCAL_AI_TOOL_PROXY_SYSTEM_PROMPT".toList = some []) ∨
      (ReadFile (Getenv env "LOCAL_AI_TOOL_PROXY_SYSTEM_PROMPT".toList)).2 ≠ none ∨
      TrimSpace (ReadFile (Getenv env "LOCAL_AI_TOOL_PROXY_SYSTEM_PROMPT".toList)).1 = []) ∧
    ((Load env ReadFile).2 ≠ none → (Load env ReadFile).1 = Config.zero) ∧
    ((Load env ReadFile).2 = none →
      (Load env ReadFile).1.SystemPrompt =
        TrimSpace (ReadFile (Getenv env "LOCAL_AI_TOOL_PROXY_SYSTEM_PROMPT".toList)).1 ∧
      (Load env ReadFile).1.SystemPrompt ≠ [] ∧
      env "LOCAL_AI_TOOL_PROXY_SYSTEM_PROMPT".toList =
        some (Load env ReadFile).1.SystemPromptPath) := by
  have hunset : Getenv env "LOCAL_AI_TOOL_PROXY_SYSTEM_PROMPT".toList = [] ↔
      (env "LOCAL_AI_TOOL_PROXY_SYSTEM_PROMPT".toList = none ∨
        env "LOCAL_AI_TOOL_PROXY_SYSTEM_PROMPT".toList = some []) := by
    unfold Getenv
    cases env "LOCAL_AI_TOOL_PROXY_SYSTEM_PROMPT".toList with
    | none => simp
    | some v => simp
  have herr := Load_error env ReadFile
  have hiff : (Load env ReadFile).2 ≠ none ↔
      (env "LOCAL_AI_TOOL_PROXY_SYSTEM_PROMPT".toList = none ∨
        env "LOCAL_AI_TOOL_PROXY_SYSTEM_PROMPT".toList = some []) ∨
      (ReadFile (Getenv env "LOCAL_AI_TOOL_PROXY_SYSTEM_PROMPT".toList)).2 ≠ none ∨
      TrimSpace (ReadFile (Getenv env "LOCAL_AI_TOOL_PROXY_SYSTEM_PROMPT".toList)).1 = [] := by
    rw [herr, ← hunset]
    by_cases hp : Getenv env "LOCAL_AI_TOOL_PROXY_SYSTEM_PROMPT".toList = []
    · rw [if_pos hp]
      exact ⟨fun _ => Or.inl hp, fun _ h => Option.noConfusion h⟩
    · rw [if_neg hp]
      cases he : (ReadFile (Getenv env "LOCAL_AI_TOOL_PROXY_SYSTEM_PROMPT".toList)).2 with
      | some e =>
        exact ⟨fun _ => Or.inr (Or.inl (fun h => Option.noConfusion h)),
          fun _ h => Option.noConfusion h⟩
      | none =>
        simp only
        by_cases ht :
            TrimSpace (ReadFile (Getenv env "LOCAL_AI_TOOL_PROXY_SYSTEM_PROMPT".toList)).1 = []
        · rw [if_pos ht]
          exact ⟨fun _ => Or.inr (Or.inr ht), fun _ h => Option.noConfusion h⟩
        · rw [if_neg ht]
          constructor
          · intro h; exact absurd rfl h
          · intro h
            rcases h with h | h | h
            · exact absurd h hp
            · exact absurd rfl h
            · exact absurd h ht
  refine ⟨hiff, Load_zero env ReadFile, ?_⟩
  intro hok
  have hf := Load_fields env ReadFile hok
  have hnot : ¬ ((env "LOCAL_AI_TOOL_PROXY_SYSTEM_PROMPT".toList = none ∨
        env "LOCAL_AI_TOOL_PROXY_SYSTEM_PROMPT".toList = some []) ∨
      (ReadFile (Getenv env "LOCAL_AI_TOOL_PROXY_SYSTEM_PROMPT".toList)).2 ≠ none ∨
      TrimSpace (ReadFile (Getenv env "LOCAL_AI_TOOL_PROXY_SYSTEM_PROMPT".toList)).1 = []) :=
    fun h => hiff.mpr h hok
  refine ⟨hf.2.2, ?_, ?_⟩
  · rw [hf.2.2]
    exact fun h => hnot (Or.inr (Or.inr h))
  · rw [hf.2.1]
    unfold Getenv
    cases hv : env "LOCAL_AI_TOOL_PROXY_SYSTEM_PROMPT".toList with
    | none => exact absurd (Or.inl (Or.inl hv)) hnot
    | some v => rfl

theorem Load_system_prompt_witness :
    (Load (fun key => if key = "LOCAL_AI_TOOL_PROXY_SYSTEM_PROMPT".toList
        then some "/tmp/system-prompt.txt".toList else none)
      (fun path => if path = "/tmp/system-prompt.txt".toList
        then ("  You are a SQL expert.\n".toList, none)
        else ([], some (.new "no such file or directory".toList)))).1.SystemPrompt =
      "You are a SQL expert.".toList ∧
    (Load (fun key => if key = "LOCAL_AI_TOOL_PROXY_SYSTEM_PROMPT".toList
        then some "/nonexistent/path/prompt.txt".toList else none)
      (fun path => if path = "/tmp/system-prompt.txt".toList
        then ("  You are a SQL expert.\n".toList, none)
        else ([], some (.new "no such file or directory".toList)))).1 = Config.zero :=
  ⟨((Load_system_prompt
      (fun key => if key = "LOCAL_AI_TOOL_PROXY_SYSTEM_PROMPT".toList
        then some "/tmp/system-prompt.txt".toList else none)
      (fun path => if path = "/tmp/system-prompt.txt".toList
        then ("  You are a SQL expert.\n".toList, none)
        else ([], some (.new "no such file or directory".toList)))).2.2 (by rfl)).1.trans
      (by rfl),
    (Load_system_prompt
      (fun key => if key = "LOCAL_AI_TOOL_PROXY_SYSTEM_PROMPT".toList
        then some "/nonexistent/path/prompt.txt".toList else none)
      (fun path => if path = "/tmp/system-prompt.txt".toList
        then ("  You are a SQL expert.\n".toList, none)
        else ([], some (.new "no such file or directory".toList)))).2.1 (by decide)⟩

/-! ## A word after the opening fence -/

/-- The closing fence does not match at the front of a text that starts with a part
without backtick that ends outside `\s`. -/
theorem closeFence_none_of_no_backtick (v R : GoString) (y : Char)
    (hy : isReSpace y = false) (hnb : '\x60' ∉ v ++ [y]) :
    closeFence (v ++ [y] ++ R) = none := by
  cases hcf : closeFence (v ++ [y] ++ R) with
  | none => rfl
  | some m =>
    exfalso
    obtain ⟨ws, z, hs, hws, _⟩ := closeFence_some _ m hcf
    have hs2 : (v ++ [y]) ++ R = ws ++ (fence ++ z) := by
      simp only [List.append_assoc] at hs ⊢
      exact hs
    rcases List.append_eq_append_iff.mp hs2 with ⟨a, hwsa, _⟩ | ⟨c, hv, hc⟩
    · have : isReSpace y = true := hws y (by rw [hwsa]; simp)
      rw [hy] at this
      exact Bool.noConfusion this
    · cases c with
      | nil =>
        rw [List.append_nil] at hv
        have : isReSpace y = true := hws y (by rw [← hv]; simp)
        rw [hy] at this
        exact Bool.noConfusion this
      | cons d ds =>
        have hd : d = '\x60' := by
          simp only [fence, List.cons_append, List.cons.injEq] at hc
          exact hc.1.symm
        apply hnb
        rw [hv, hd]
        simp

theorem isWordChar_space : isWordChar ' ' = false := by decide

theorem isReSpace_space : isReSpace ' ' = true := by decide

/-- The match of the pattern after the opening fence when a word, a space and a content
without backtick follow it and the closing fence ends the text: the word is taken as
the language tag and the group captures the content between its runs of `\s`. -/
theorem afterOpenFence_word (w lead core0 core1 trail : GoString) (x y : Char)
    (hw : w ≠ []) (hW : ∀ c ∈ w, isWordChar c = true)
    (hlead : ∀ c ∈ lead, isReSpace c = true) (htrail : ∀ c ∈ trail, isReSpace c = true)
    (hcore : core0 ++ [y] = x :: core1)
    (hx : isReSpace x = false) (hy : isReSpace y = false)
    (hnb : '\x60' ∉ core0 ++ [y]) :
    afterOpenFence (w ++ ' ' :: (lead ++ (core0 ++ [y] ++ (trail ++ fence))))
      = some ⟨[], some (core0 ++ [y])⟩ := by
  have hclose : closeFence (trail ++ fence) = some ⟨[], none⟩ := by
    have := closeFence_isSome trail [] htrail
    simpa only [List.append_nil] using this
  have hmin : ∀ u v, core0 ++ [y] = u ++ v → u ≠ [] → v ≠ [] →
      closeFence (v ++ (trail ++ fence)) = none := by
    intro u v huv _ hv
    rcases List.eq_nil_or_concat v with h0 | ⟨v0, y2, hv2⟩
    · exact absurd h0 hv
    · rw [List.concat_eq_append] at hv2
      have hy2 : y2 = y := by
        have h1 : core0 ++ [y] = (u ++ v0) ++ [y2] := by
          rw [huv, hv2, List.append_assoc]
        exact (List.cons.inj (List.append_inj' h1 rfl).2).1.symm
      rw [hv2, hy2]
      apply closeFence_none_of_no_backtick v0 (trail ++ fence) y hy
      intro hin
      apply hnb
      rw [huv, hv2, hy2]
      exact List.mem_append_right _ hin
  have hcap : captureBody (core0 ++ [y] ++ (trail ++ fence))
      = some ⟨[], some (core0 ++ [y])⟩ :=
    captureBody_eq (core0 ++ [y]) (trail ++ fence) [] (by simp) hclose hmin
  have hws : greedyStar isReSpace captureBody
      (' ' :: (lead ++ (core0 ++ [y] ++ (trail ++ fence))))
      = some ⟨[], some (core0 ++ [y])⟩ := by
    have := greedyStar_run isReSpace captureBody (' ' :: lead)
      (core0 ++ [y] ++ (trail ++ fence)) _ (by
        intro c hc
        rcases List.mem_cons.mp hc with h1 | h1
        · rw [h1]; exact isReSpace_space
        · exact hlead c h1) (by
        intro c cs hc
        rw [hcore] at hc
        simp only [List.cons_append, List.cons.injEq] at hc
        rw [← hc.1]
        exact hx) hcap
    simpa only [List.cons_append] using this
  unfold afterOpenFence
  cases w with
  | nil => exact absurd rfl hw
  | cons l ls =>
    have hl : isWordChar l = true := hW l (List.mem_cons_self _ _)
    have htag := greedyStar_run isWordChar (greedyStar isReSpace captureBody) ls
      (' ' :: (lead ++ (core0 ++ [y] ++ (trail ++ fence)))) _
      (fun c hc => hW c (List.mem_cons_of_mem _ hc)) (by
        intro c cs hc
        simp only [List.cons.injEq] at hc
        rw [← hc.1]
        exact isWordChar_space) hws
    simp only [List.cons_append, oneChar, hl, if_true, htag]

/-- C25: for every non-empty word `w` of ASCII letters, digits and underscores and every
content `c` that holds no backtick and has a character outside `\s`, `CleanResponse`
of the fence, `w`, a space, `c` and the fence is `TrimSpace c`: the word is taken as
the language tag and dropped. A character that is not white space for
`strings.TrimSpace` is outside `\s` too. -/
theorem CleanResponse_word_after_fence (w c : GoString)
    (hw : w ≠ []) (hW : ∀ ch ∈ w, isWordChar ch = true)
    (hb : '\x60' ∉ c) (hc : ∃ x ∈ c, isReSpace x = false) :
    CleanResponse (fence ++ w ++ [' '] ++ c ++ fence) = TrimSpace c := by
  obtain ⟨lead, core0, core1, trail, x, y, hC, hcore, hx, hy, hlead, htrail⟩ := exists_core c hc
  have hnb : '\x60' ∉ core0 ++ [y] := by
    intro hin
    apply hb
    rw [hC]
    exact List.mem_append_left _ (List.mem_append_right _ hin)
  have hafter := afterOpenFence_word w lead core0 core1 trail x y hw hW hlead htrail hcore
    hx hy hnb
  have hshape : fence ++ w ++ [' '] ++ c ++ fence =
      fence ++ (w ++ ' ' :: (lead ++ (core0 ++ [y] ++ (trail ++ fence)))) := by
    rw [hC]
    simp only [List.append_assoc, List.singleton_append, List.cons_append, List.nil_append]
  have hhere : codeBlockRegex.matchHere
      (fence ++ (w ++ ' ' :: (lead ++ (core0 ++ [y] ++ (trail ++ fence)))))
      = some ⟨[], some (core0 ++ [y])⟩ := by
    rw [codeBlockRegex_matchHere, stripLiteral_append]
    exact hafter
  have hfind := FindStringSubmatch_here _ _ _ hhere
  rw [hshape, CleanResponse_of_some _ _ (core0 ++ [y]) hfind, hC]
  exact (TrimSpace_append_spaces lead (core0 ++ [y]) trail
    (fun c hc => isSpace_of_isReSpace c (hlead c hc))
    (fun c hc => isSpace_of_isReSpace c (htrail c hc))).symm

theorem CleanResponse_word_after_fence_witness :
    "```SELECT 1```".toList = fence ++ "SELECT".toList ++ [' '] ++ "1".toList ++ fence ∧
    CleanResponse (fence ++ "SELECT".toList ++ [' '] ++ "1".toList ++ fence) = "1".toList :=
  ⟨by decide, (CleanResponse_word_after_fence "SELECT".toList "1".toList
    (by decide) (by decide) (by decide) (by decide)).trans (by decide)⟩

/-! ## Lemmas: decoding the request -/

theorem findField_user_provider (key : GoString) :
    findField ["user".toList, "provider".toList] key = some 0 ∨
    findField ["user".toList, "provider".toList] key = some 1 ∨
    findField ["user".toList, "provider".toList] key = none := by
  rw [findField_pair _ _ key (by decide)]
  by_cases h1 : findField ["user".toList] key = some 0
  · left; rw [if_pos h1]
  · rw [if_neg h1]
    by_cases h2 : findField ["provider".toList] key = some 0
    · right; left; rw [if_pos h2]
    · right; right; rw [if_neg h2]

theorem storeString_ok (cur : GoString) (v : JSON) :
    (storeString cur v).2 = (storeString [] v).2 := by
  cases v <;> rfl

theorem membersOf_cons (names : List GoString) (i : Nat) (kv : GoString × JSON)
    (ms : List (GoString × JSON)) :
    membersOf names i (kv :: ms) =
      if findField names kv.1 = some i then kv :: membersOf names i ms
      else membersOf names i ms := by
  unfold membersOf
  rw [List.filter_cons]
  by_cases h : findField names kv.1 = some i
  · rw [if_pos h, if_pos (by rw [h]; exact beq_self_eq_true _)]
  · rw [if_neg h, if_neg (by
      intro hb
      exact h (beq_iff_eq.mp hb))]

theorem mem_membersOf (names : List GoString) (i : Nat) (kv : GoString × JSON)
    (ms : List (GoString × JSON)) :
    kv ∈ membersOf names i ms ↔ kv ∈ ms ∧ findField names kv.1 = some i := by
  unfold membersOf
  rw [List.mem_filter]
  exact ⟨fun h => ⟨h.1, beq_iff_eq.mp h.2⟩, fun h => ⟨h.1, beq_iff_eq.mpr h.2⟩⟩

/-- Decoding the members of an object into `Request`: each field is decoded from the
members whose key selects it, in source order, and an error is saved when one of these
members is neither a string nor `null`. -/
theorem Request_foldl : ∀ (ms : List (GoString × JSON)) (acc : Request × Bool),
    ms.foldl Request.setMember acc =
      (⟨(membersOf ["user".toList, "provider".toList] 0 ms).foldl
          (fun cur kv => (storeString cur kv.2).1) acc.1.User,
        (membersOf ["user".toList, "provider".toList] 1 ms).foldl
          (fun cur kv => (storeString cur kv.2).1) acc.1.Provider⟩,
        acc.2 &&
        ((membersOf ["user".toList, "provider".toList] 0 ms).all
          (fun kv => (storeString [] kv.2).2) &&
        (membersOf ["user".toList, "provider".toList] 1 ms).all
          (fun kv => (storeString [] kv.2).2)))
  | [], acc => by
    cases acc with
    | mk r b =>
      cases b <;> rfl
  | kv :: ms, acc => by
    rw [List.foldl_cons, Request_foldl ms, membersOf_cons, membersOf_cons]
    have h01 : (some 0 : Option Nat) ≠ some 1 := by decide
    have h10 : (some 1 : Option Nat) ≠ some 0 := by decide
    rcases findField_user_provider kv.1 with h | h | h
    · have hs : Request.setMember acc kv =
          ({ acc.1 with User := (storeString acc.1.User kv.2).1 },
            acc.2 && (storeString acc.1.User kv.2).2) := by
        unfold Request.setMember
        rw [h]
      rw [hs, h, if_pos rfl, if_neg h01, List.foldl_cons, List.all_cons,
        storeString_ok acc.1.User kv.2]
      simp only [Bool.and_assoc]
    · have hs : Request.setMember acc kv =
          ({ acc.1 with Provider := (storeString acc.1.Provider kv.2).1 },
            acc.2 && (storeString acc.1.Provider kv.2).2) := by
        unfold Request.setMember
        rw [h]
      rw [hs, h, if_neg h10, if_pos rfl, List.foldl_cons, List.all_cons,
        storeString_ok acc.1.Provider kv.2]
      simp only [Bool.and_assoc, Bool.and_left_comm]
    · have hs : Request.setMember acc kv = acc := by
        unfold Request.setMember
        rw [h]
      rw [hs, h, if_neg (by decide), if_neg (by decide)]

theorem foldl_store_empty : ∀ (l : List (GoString × JSON)),
    (∀ kv ∈ l, kv.2 = .string [] ∨ kv.2 = .null) →
    l.foldl (fun cur kv => (storeString cur kv.2).1) [] = []
  | [], _ => rfl
  | kv :: l, h => by
    rw [List.foldl_cons]
    have h1 : (storeString [] kv.2).1 = [] := by
      rcases h kv (List.mem_cons_self _ _) with h0 | h0 <;> rw [h0] <;> rfl
    rw [h1]
    exact foldl_store_empty l (fun kv2 h2 => h kv2 (List.mem_cons_of_mem _ h2))

theorem all_store_ok (l : List (GoString × JSON))
    (h : ∀ kv ∈ l, (∃ s, kv.2 = .string s) ∨ kv.2 = .null) :
    l.all (fun kv => (storeString [] kv.2).2) = true := by
  rw [List.all_eq_true]
  intro kv hkv
  rcases h kv hkv with ⟨s, h0⟩ | h0 <;> rw [h0] <;> rfl

/-- The request decoded from a body whose first JSON value is an object. -/
theorem decodeRequest_object (body rest : GoString) (ms : List (GoString × JSON))
    (hjson : readValue body = some (.object ms, rest)) :
    decodeRequest body =
      (⟨(membersOf ["user".toList, "provider".toList] 0 ms).foldl
          (fun cur kv => (storeString cur kv.2).1) [],
        (membersOf ["user".toList, "provider".toList] 1 ms).foldl
          (fun cur kv => (storeString cur kv.2).1) []⟩,
        (membersOf ["user".toList, "provider".toList] 0 ms).all
          (fun kv => (storeString [] kv.2).2) &&
        (membersOf ["user".toList, "provider".toList] 1 ms).all
          (fun kv => (storeString [] kv.2).2)) := by
  unfold decodeRequest
  rw [hjson]
  show ms.foldl Request.setMember (⟨[], []⟩, true) = _
  rw [Request_foldl]
  simp only [Bool.true_and]

/-- The request decoded from an object in which exactly one key selects each field and
both hold strings. -/
theorem decodeRequest_single (body rest : GoString) (ms : List (GoString × JSON))
    (ku kp u v : GoString)
    (hjson : readValue body = some (.object ms, rest))
    (h1 : membersOf ["user".toList, "provider".toList] 0 ms = [(ku, .string u)])
    (h2 : membersOf ["user".toList, "provider".toList] 1 ms = [(kp, .string v)]) :
    decodeRequest body = (⟨u, v⟩, true) := by
  rw [decodeRequest_object body rest ms hjson, h1, h2]
  rfl

/-! ## The dispatcher, by the body of the request -/

/-- C8, as amended: a POST whose body decodes as JSON, its first JSON value being `null`
or an object in which every key that selects the field `provider` holds a string or
`null`, and in which no key selects the field `user` (by its exact name or by case
folding) or every key that selects it holds the empty string or `null`, is answered
with status 400 and the error message `The 'user' field is required`, whatever the
provider is, and `Generate` is not called. -/
theorem HandlePrompt_missing_user (h : Handler) (body rest : GoString) (v : JSON)
    (hjson : readValue body = some (v, rest))
    (hv : v = .null ∨ ∃ ms, v = .object ms ∧
      (∀ kv ∈ membersOf ["user".toList, "provider".toList] 0 ms,
        kv.2 = .string [] ∨ kv.2 = .null) ∧
      (∀ kv ∈ membersOf ["user".toList, "provider".toList] 1 ms,
        (∃ s, kv.2 = .string s) ∨ kv.2 = .null)) :
    (h.HandlePrompt ⟨"POST".toList, body⟩).w.Code = 400 ∧
    (h.HandlePrompt ⟨"POST".toList, body⟩).w.Body =
      [.object [("error".toList, .string "The 'user' field is required".toList)]] ∧
    (h.HandlePrompt ⟨"POST".toList, body⟩).calls = [] := by
  rcases hv with hv | ⟨ms, hv, huser, hprov⟩
  · subst hv
    have hdec : decodeRequest body = (⟨[], []⟩, true) := by
      unfold decodeRequest
      rw [hjson]
      rfl
    exact HandlePrompt_of_empty_user h body _ hdec rfl
  · subst hv
    have hdec := decodeRequest_object body rest ms hjson
    rw [foldl_store_empty _ huser,
      all_store_ok _ (fun kv hkv => (huser kv hkv).elim (fun h0 => Or.inl ⟨[], h0⟩) Or.inr),
      all_store_ok _ hprov] at hdec
    exact HandlePrompt_of_empty_user h body _ hdec rfl

theorem HandlePrompt_missing_user_witness :
    ((newTestHandlerWithProviders [("gemini".toList, mockGenerator "4".toList none)]
        "gemini".toList).HandlePrompt
      ⟨"POST".toList, "\x7b\"user\":\"\",\"provider\":\"gemini\"\x7d".toList⟩).w.Code = 400 ∧
    ((newTestHandler (mockGenerator "4".toList none)).HandlePrompt
      ⟨"POST".toList, "\x7b\"provider\":\"unknown\"\x7d".toList⟩).w.Body =
      [.object [("error".toList, .string "The 'user' field is required".toList)]] :=
  ⟨(HandlePrompt_missing_user
      (newTestHandlerWithProviders [("gemini".toList, mockGenerator "4".toList none)]
        "gemini".toList)
      "\x7b\"user\":\"\",\"provider\":\"gemini\"\x7d".toList []
      (.object [("user".toList, .string []), ("provider".toList, .string "gemini".toList)])
      (by rfl)
      (Or.inr ⟨_, rfl, by
        intro kv hkv
        have e : membersOf ["user".toList, "provider".toList] 0
            [("user".toList, JSON.string []), ("provider".toList, .string "gemini".toList)]
            = [("user".toList, JSON.string [])] := by rfl
        rw [e, List.mem_singleton] at hkv
        rw [hkv]
        exact Or.inl rfl, by
        intro kv hkv
        have e : membersOf ["user".toList, "provider".toList] 1
            [("user".toList, JSON.string []), ("provider".toList, .string "gemini".toList)]
            = [("provider".toList, JSON.string "gemini".toList)] := by rfl
        rw [e, List.mem_singleton] at hkv
        rw [hkv]
        exact Or.inl ⟨_, rfl⟩⟩)).1,
   (HandlePrompt_missing_user (newTestHandler (mockGenerator "4".toList none))
      "\x7b\"provider\":\"unknown\"\x7d".toList []
      (.object [("provider".toList, .string "unknown".toList)])
      (by rfl)
      (Or.inr ⟨_, rfl, by
        intro kv hkv
        have e : membersOf ["user".toList, "provider".toList] 0
            [("provider".toList, JSON.string "unknown".toList)] = [] := by rfl
        rw [e] at hkv
        exact absurd hkv (List.not_mem_nil _), by
        intro kv hkv
        have e : membersOf ["user".toList, "provider".toList] 1
            [("provider".toList, JSON.string "unknown".toList)]
            = [("provider".toList, JSON.string "unknown".toList)] := by rfl
        rw [e, List.mem_singleton] at hkv
        rw [hkv]
        exact Or.inl ⟨_, rfl⟩⟩)).2.1⟩

/-- C8 fails as stated: this body decodes as JSON and has no member named `user`, yet the
answer is not 400: the key `USER` selects the field `user` by case folding, so the
request has a user, the default provider is called and the answer is 200 with its
text. -/
theorem HandlePrompt_folded_user_counterexample :
    readValue "\x7b\"USER\":\"hi\"\x7d".toList
      = some (.object [("USER".toList, .string "hi".toList)], []) ∧
    (∀ kv ∈ [("USER".toList, JSON.string "hi".toList)], kv.1 ≠ "user".toList) ∧
    decodeRequest "\x7b\"USER\":\"hi\"\x7d".toList = (⟨"hi".toList, []⟩, true) ∧
    ((newTestHandler (mockGenerator "4".toList none)).HandlePrompt
      ⟨"POST".toList, "\x7b\"USER\":\"hi\"\x7d".toList⟩).w.Code = 200 ∧
    ((newTestHandler (mockGenerator "4".toList none)).HandlePrompt
      ⟨"POST".toList, "\x7b\"USER\":\"hi\"\x7d".toList⟩).w.Body
      = [.object [("response".toList, .string "4".toList)]] ∧
    ((newTestHandler (mockGenerator "4".toList none)).HandlePrompt
      ⟨"POST".toList, "\x7b\"USER\":\"hi\"\x7d".toList⟩).calls
      = [⟨"claude".toList, "You are a test assistant.".toList, "hi".toList⟩] :=
  ⟨by rfl, by decide, by decide, by rfl, by rfl, by rfl⟩

/-- C9, as amended: a POST whose body is a JSON object in which exactly one key selects
the field `user` (by its exact name or by case folding) and holds a non-empty string,
and exactly one key selects the field `provider` and holds a non-empty string `v` that
is no key of the registry, is answered with status 400 and the error message
`Unknown provider: ` followed by `v` as it is, and `Generate` is not called. -/
theorem HandlePrompt_unknown_provider (h : Handler) (body rest : GoString)
    (ms : List (GoString × JSON)) (ku kp u v : GoString)
    (hjson : readValue body = some (.object ms, rest))
    (h1 : membersOf ["user".toList, "provider".toList] 0 ms = [(ku, .string u)])
    (hu : u ≠ [])
    (h2 : membersOf ["user".toList, "provider".toList] 1 ms = [(kp, .string v)])
    (hv : v ≠ []) (hreg : v ∉ h.providers.map Prod.fst) :
    (h.HandlePrompt ⟨"POST".toList, body⟩).w.Code = 400 ∧
    (h.HandlePrompt ⟨"POST".toList, body⟩).w.Body =
      [.object [("error".toList, .string ("Unknown provider: ".toList ++ v))]] ∧
    (h.HandlePrompt ⟨"POST".toList, body⟩).calls = [] :=
  HandlePrompt_of_unregistered h body ⟨u, v⟩ v
    (decodeRequest_single body rest ms ku kp u v hjson h1 h2) hu rfl hv hreg

theorem HandlePrompt_unknown_provider_witness :
    ((newTestHandler (mockGenerator "4".toList none)).HandlePrompt
      ⟨"POST".toList, "\x7b\"user\":\"hi\",\"provider\":\"unknown\"\x7d".toList⟩).w.Body =
      [.object [("error".toList, .string "Unknown provider: unknown".toList)]] :=
  (HandlePrompt_unknown_provider (newTestHandler (mockGenerator "4".toList none))
    "\x7b\"user\":\"hi\",\"provider\":\"unknown\"\x7d".toList []
    [("user".toList, .string "hi".toList), ("provider".toList, .string "unknown".toList)]
    "user".toList "provider".toList "hi".toList "unknown".toList
    (by rfl) (by rfl) (by decide) (by rfl) (by decide) (by decide)).2.1

/-- C9 fails as stated, in two ways. For the empty provider value: the empty string is
no key of the registry, yet the handler does not answer `Unknown provider: `; it
resolves the default provider, calls it and answers 200. For a provider value that a
later key overwrites: in the second body the member `provider` holds `unknown`, which is
no key of the registry, yet the key `Provider` selects the same field by case folding
and its value `claude` is the one looked up, called and answered from. -/
theorem HandlePrompt_empty_provider_counterexample :
    decodeRequest "\x7b\"user\":\"hi\",\"provider\":\"\"\x7d".toList
      = (⟨"hi".toList, []⟩, true) ∧
    ([] : GoString) ∉ (newTestHandler (mockGenerator "4".toList none)).providers.map Prod.fst ∧
    ((newTestHandler (mockGenerator "4".toList none)).HandlePrompt
      ⟨"POST".toList, "\x7b\"user\":\"hi\",\"provider\":\"\"\x7d".toList⟩).w.Code = 200 ∧
    ((newTestHandler (mockGenerator "4".toList none)).HandlePrompt
      ⟨"POST".toList, "\x7b\"user\":\"hi\",\"provider\":\"\"\x7d".toList⟩).w.Body
      = [.object [("response".toList, .string "4".toList)]] ∧
    ((newTestHandler (mockGenerator "4".toList none)).HandlePrompt
      ⟨"POST".toList, "\x7b\"user\":\"hi\",\"provider\":\"\"\x7d".toList⟩).calls
      = [⟨"claude".toList, "You are a test assistant.".toList, "hi".toList⟩] ∧
    readValue "\x7b\"user\":\"hi\",\"provider\":\"unknown\",\"Provider\":\"claude\"\x7d".toList
      = some (.object [("user".toList, .string "hi".toList),
          ("provider".toList, .string "unknown".toList),
          ("Provider".toList, .string "claude".toList)], []) ∧
    "unknown".toList ∉ (newTestHandler (mockGenerator "4".toList none)).providers.map Prod.fst ∧
    ((newTestHandler (mockGenerator "4".toList none)).HandlePrompt
      ⟨"POST".toList,
        "\x7b\"user\":\"hi\",\"provider\":\"unknown\",\"Provider\":\"claude\"\x7d".toList⟩).w.Code
      = 200 ∧
    ((newTestHandler (mockGenerator "4".toList none)).HandlePrompt
      ⟨"POST".toList,
        "\x7b\"user\":\"hi\",\"provider\":\"unknown\",\"Provider\":\"claude\"\x7d".toList⟩).calls
      = [⟨"claude".toList, "You are a test assistant.".toList, "hi".toList⟩] :=
  ⟨by decide, by decide, by rfl, by rfl, by rfl, by rfl, by decide, by rfl, by rfl⟩

/-! ## The dispatcher over providers with state -/

/-- The outcome of `HandlePrompt` over providers with state on a POST that decodes into
a request with a user: by the lookup of the resolved provider name and, when it is
registered, by the one call of its `Generate` from the state at the start. -/
theorem StatefulHandlePrompt_accepted {σ : Type} (h : StatefulHandler σ) (body : GoString)
    (req : Request) (s : σ)
    (hdec : decodeRequest body = (req, true)) (hu : req.User ≠ []) :
    h.HandlePrompt ⟨"POST".toList, body⟩ s =
      match h.providers.lookup (if req.Provider = [] then h.defaultProvider else req.Provider) with
      | none =>
        { w := h.settings.sendError (h.settings.setCORSHeaders ResponseRecorder.new)
            ("Unknown provider: ".toList ++
              (if req.Provider = [] then h.defaultProvider else req.Provider)) 400,
          log := [.unknownProvider
            (if req.Provider = [] then h.defaultProvider else req.Provider)],
          state := s }
      | some p =>
        match (p.Generate h.systemPrompt req.User s).1.2 with
        | some e =>
          { w := h.settings.sendError (h.settings.setCORSHeaders ResponseRecorder.new)
              "Failed to generate response".toList 500,
            log := [.generating
              (if req.Provider = [] then h.defaultProvider else req.Provider) req.User,
              .cliFailed (if req.Provider = [] then h.defaultProvider else req.Provider) e],
            state := (p.Generate h.systemPrompt req.User s).2 }
        | none =>
          { w := h.settings.sendJSON (h.settings.setCORSHeaders ResponseRecorder.new)
              { ResponseText := (p.Generate h.systemPrompt req.User s).1.1, Error := [] },
            log := [.generating
              (if req.Provider = [] then h.defaultProvider else req.Provider) req.User,
              .success],
            state := (p.Generate h.systemPrompt req.User s).2 } := by
  have hne : "POST".toList ≠ "OPTIONS".toList := by decide
  unfold StatefulHandler.HandlePrompt
  simp only [hne, if_false, hdec, ne_eq, not_true_eq_false, Bool.not_eq_true, hu]

/-- The state `HandlePrompt` leaves: the state at the start, unless the request is a POST
that decodes into a request with a user whose provider name is registered; then it is
the state one call of that provider leaves. -/
theorem StatefulHandlePrompt_state {σ : Type} (h : StatefulHandler σ) (r : HTTPRequest)
    (s : σ) :
    (h.HandlePrompt r s).state =
      if r.Method = "POST".toList ∧ (decodeRequest r.Body).2 = true ∧
          (decodeRequest r.Body).1.User ≠ [] then
        match h.providers.lookup (if (decodeRequest r.Body).1.Provider = []
            then h.defaultProvider else (decodeRequest r.Body).1.Provider) with
        | some p =>
          (p.Generate h.systemPrompt (decodeRequest r.Body).1.User s).2
        | none => s
      else s := by
  have hne : "POST".toList ≠ "OPTIONS".toList := by decide
  rcases hd : decodeRequest r.Body with ⟨req, ok⟩
  by_cases ho : r.Method = "OPTIONS".toList
  · have hp : r.Method ≠ "POST".toList := fun hp => hne (hp.symm.trans ho)
    rw [if_neg (fun hc => hp hc.1)]
    unfold StatefulHandler.HandlePrompt
    simp only [hd]
    rw [if_pos ho]
  · by_cases hp : r.Method = "POST".toList
    · cases ok
      · rw [if_neg (fun hc => Bool.noConfusion hc.2.1)]
        unfold StatefulHandler.HandlePrompt
        simp only [hd]
        rw [if_neg ho, if_neg (fun hc => hc hp), if_pos (by simp)]
      · by_cases hu : req.User = []
        · rw [if_neg (fun hc => hc.2.2 hu)]
          unfold StatefulHandler.HandlePrompt
          simp only [hd]
          rw [if_neg ho, if_neg (fun hc => hc hp), if_neg (by simp), if_pos hu]
        · rw [if_pos ⟨hp, rfl, hu⟩]
          have hr : r = ⟨"POST".toList, r.Body⟩ := by
            cases r
            simp only at hp
            rw [hp]
          rw [hr, StatefulHandlePrompt_accepted h r.Body req s hd hu]
          simp only
          cases h.providers.lookup
              (if req.Provider = [] then h.defaultProvider else req.Provider) with
          | none => rfl
          | some p =>
            simp only
            cases (p.Generate h.systemPrompt req.User s).1.2 <;> rfl
    · rw [if_neg (fun hc => hp hc.1)]
      unfold StatefulHandler.HandlePrompt
      simp only [hd]
      rw [if_neg ho, if_pos hp]

theorem lookup_map_recording (k : GoString) : ∀ (l : List (GoString × Generator)),
    (l.map (fun kv => (kv.1, kv.2.recording kv.1))).lookup k =
      (l.lookup k).map (fun p => p.recording k)
  | [] => rfl
  | (k0, p0) :: l => by
    simp only [List.map_cons, List.lookup_cons]
    by_cases hk : k = k0
    · subst hk
      simp
    · have hb : (k == k0) = false := beq_eq_false_iff_ne.mpr hk
      rw [hb]
      exact lookup_map_recording k l

/-- The handler over providers without state is the handler over providers with state
run on recording providers: same response, same log, and the calls it lists are the
calls the providers received, in order. -/
theorem HandlePrompt_recording (h : Handler) (r : HTTPRequest) (calls : List GenerateCall) :
    h.recording.HandlePrompt r calls =
      { w := (h.HandlePrompt r).w, log := (h.HandlePrompt r).log,
        state := calls ++ (h.HandlePrompt r).calls } := by
  unfold StatefulHandler.HandlePrompt Handler.HandlePrompt
  simp only [Handler.recording, lookup_map_recording]
  by_cases ho : r.Method = "OPTIONS".toList
  · rw [if_pos ho, if_pos ho]
    simp only [List.append_nil]
    rfl
  · rw [if_neg ho, if_neg ho]
    by_cases hp : r.Method ≠ "POST".toList
    · rw [if_pos hp, if_pos hp]
      simp only [List.append_nil]
      rfl
    · rw [if_neg hp, if_neg hp]
      rcases decodeRequest r.Body with ⟨req, ok⟩
      simp only
      cases ok
      · simp only [Bool.false_eq_true, not_false_eq_true, if_true, List.append_nil]
        rfl
      · simp only [not_true_eq_false, if_false]
        by_cases hu : req.User = []
        · rw [if_pos hu, if_pos hu]
          simp only [List.append_nil]
          rfl
        · rw [if_neg hu, if_neg hu]
          cases h.providers.lookup
              (if req.Provider = [] then h.defaultProvider else req.Provider) with
          | none =>
            simp only [Option.map_none', List.append_nil]
            rfl
          | some p =>
            simp only [Option.map_some', Generator.recording]
            cases (p.Generate h.systemPrompt req.User).2 <;> rfl

/-! ## No retry, no call on rejection -/

/-- C21, as amended: for every handler over providers with state, every request and
every state at the start, `HandlePrompt` makes at most one call of `Generate`: the state
it leaves is the state at the start or the state one call of a registered provider, with
the system prompt of the handler, leaves from it.  On a POST whose body is a JSON object
in which exactly one key selects the field `user` (by its exact name or by case
folding) and holds a non-empty string, and no key or exactly one key selects the field
`provider` and that one holds a string, with the provider name (that string, or the
default when there is none or it is empty) registered, it makes exactly one call, of that
provider, with the system prompt of the handler and the user text as they are: the
state it leaves is the state that call leaves and the response is made from what that
call returned, status 500 on an error and status 200 with the text otherwise; no second
call follows an error.  Every other request leaves the state as it was. -/
theorem HandlePrompt_invokes_at_most_once {σ : Type} (h : StatefulHandler σ)
    (r : HTTPRequest) (s : σ) :
    ((h.HandlePrompt r s).state = s ∨
      ∃ name p user, h.providers.lookup name = some p ∧
        (h.HandlePrompt r s).state = (p.Generate h.systemPrompt user s).2) ∧
    (∀ (ms : List (GoString × JSON)) (rest ku u name : GoString) (p : StatefulGenerator σ),
      r.Method = "POST".toList →
      readValue r.Body = some (.object ms, rest) →
      membersOf ["user".toList, "provider".toList] 0 ms = [(ku, .string u)] → u ≠ [] →
      ((membersOf ["user".toList, "provider".toList] 1 ms = [] ∧ name = h.defaultProvider) ∨
        ∃ kp v, membersOf ["user".toList, "provider".toList] 1 ms = [(kp, .string v)] ∧
          name = if v = [] then h.defaultProvider else v) →
      h.providers.lookup name = some p →
      (h.HandlePrompt r s).state = (p.Generate h.systemPrompt u s).2 ∧
      (∀ e, (p.Generate h.systemPrompt u s).1.2 = some e →
        (h.HandlePrompt r s).w = h.settings.sendError
          (h.settings.setCORSHeaders ResponseRecorder.new)
          "Failed to generate response".toList 500) ∧
      ((p.Generate h.systemPrompt u s).1.2 = none →
        (h.HandlePrompt r s).w = h.settings.sendJSON
          (h.settings.setCORSHeaders ResponseRecorder.new)
          { ResponseText := (p.Generate h.systemPrompt u s).1.1, Error := [] })) ∧
    (¬ (r.Method = "POST".toList ∧ (decodeRequest r.Body).2 = true ∧
        (decodeRequest r.Body).1.User ≠ [] ∧
        (h.providers.lookup (if (decodeRequest r.Body).1.Provider = []
          then h.defaultProvider else (decodeRequest r.Body).1.Provider)).isSome = true) →
      (h.HandlePrompt r s).state = s) := by
  have hstate := StatefulHandlePrompt_state h r s
  refine ⟨?_, ?_, ?_⟩
  · rw [hstate]
    by_cases hc : r.Method = "POST".toList ∧ (decodeRequest r.Body).2 = true ∧
        (decodeRequest r.Body).1.User ≠ []
    · rw [if_pos hc]
      cases hl : h.providers.lookup (if (decodeRequest r.Body).1.Provider = []
          then h.defaultProvider else (decodeRequest r.Body).1.Provider) with
      | none => left; rfl
      | some p => right; exact ⟨_, p, _, hl, rfl⟩
    · rw [if_neg hc]
      left; rfl
  · intro ms rest ku u name p hm hjson h1 hu hprov hl
    have hdec : decodeRequest r.Body =
        (⟨u, (membersOf ["user".toList, "provider".toList] 1 ms).foldl
          (fun cur kv => (storeString cur kv.2).1) []⟩, true) ∧
        name = (if (membersOf ["user".toList, "provider".toList] 1 ms).foldl
          (fun cur kv => (storeString cur kv.2).1) [] = [] then h.defaultProvider
          else (membersOf ["user".toList, "provider".toList] 1 ms).foldl
          (fun cur kv => (storeString cur kv.2).1) []) := by
      rw [decodeRequest_object r.Body rest ms hjson, h1]
      rcases hprov with ⟨h2, hn⟩ | ⟨kp, v, h2, hn⟩
      · rw [h2, hn]
        exact ⟨rfl, rfl⟩
      · rw [h2, hn]
        exact ⟨rfl, rfl⟩
    obtain ⟨hdec, hname⟩ := hdec
    have hr : r = ⟨"POST".toList, r.Body⟩ := by
      cases r
      simp only at hm
      rw [hm]
    have hacc := StatefulHandlePrompt_accepted h r.Body _ s hdec hu
    rw [← hr] at hacc
    simp only at hacc
    rw [← hname, hl] at hacc
    simp only at hacc
    refine ⟨?_, ?_, ?_⟩
    · rw [hacc]
      cases (p.Generate h.systemPrompt u s).1.2 <;> rfl
    · intro e he
      rw [hacc, he]
    · intro he
      rw [hacc, he]
  · intro hno
    rw [hstate]
    by_cases hc : r.Method = "POST".toList ∧ (decodeRequest r.Body).2 = true ∧
        (decodeRequest r.Body).1.User ≠ []
    · rw [if_pos hc]
      cases hl : h.providers.lookup (if (decodeRequest r.Body).1.Provider = []
          then h.defaultProvider else (decodeRequest r.Body).1.Provider) with
      | none => rfl
      | some p =>
        exfalso
        apply hno
        refine ⟨hc.1, hc.2.1, hc.2.2, ?_⟩
        rw [hl]
        rfl
    · rw [if_neg hc]

theorem HandlePrompt_invokes_at_most_once_witness :
    ((⟨[("claude".toList,
          ⟨fun _ _ n => if n = 0 then (([], some .ErrCLIExecution), 1)
            else (("4".toList, none), n + 1)⟩)],
        "claude".toList, "http://localhost:3000".toList,
        "You are a test assistant.".toList⟩ : StatefulHandler Nat).HandlePrompt
      ⟨"POST".toList, "\x7b\"user\":\"hi\"\x7d".toList⟩ 0).state = 1 ∧
    ((⟨[("claude".toList,
          ⟨fun _ _ n => if n = 0 then (([], some .ErrCLIExecution), 1)
            else (("4".toList, none), n + 1)⟩)],
        "claude".toList, "http://localhost:3000".toList,
        "You are a test assistant.".toList⟩ : StatefulHandler Nat).HandlePrompt
      ⟨"POST".toList, "\x7b\"user\":\"hi\"\x7d".toList⟩ 0).w.Code = 500 :=
  ⟨((HandlePrompt_invokes_at_most_once (⟨[("claude".toList,
          ⟨fun _ _ n => if n = 0 then (([], some .ErrCLIExecution), 1)
            else (("4".toList, none), n + 1)⟩)],
        "claude".toList, "http://localhost:3000".toList,
        "You are a test assistant.".toList⟩ : StatefulHandler Nat)
      ⟨"POST".toList, "\x7b\"user\":\"hi\"\x7d".toList⟩ 0).2.1
      [("user".toList, .string "hi".toList)] [] "user".toList "hi".toList "claude".toList
      ⟨fun _ _ n => if n = 0 then (([], some .ErrCLIExecution), 1)
            else (("4".toList, none), n + 1)⟩
      rfl (by rfl) (by rfl) (by decide) (Or.inl ⟨by rfl, rfl⟩) (by rfl)).1.trans (by rfl),
   (congrArg ResponseRecorder.Code
    (((HandlePrompt_invokes_at_most_once (⟨[("claude".toList,
          ⟨fun _ _ n => if n = 0 then (([], some .ErrCLIExecution), 1)
            else (("4".toList, none), n + 1)⟩)],
        "claude".toList, "http://localhost:3000".toList,
        "You are a test assistant.".toList⟩ : StatefulHandler Nat)
      ⟨"POST".toList, "\x7b\"user\":\"hi\"\x7d".toList⟩ 0).2.1
      [("user".toList, .string "hi".toList)] [] "user".toList "hi".toList "claude".toList
      ⟨fun _ _ n => if n = 0 then (([], some .ErrCLIExecution), 1)
            else (("4".toList, none), n + 1)⟩
      rfl (by rfl) (by rfl) (by decide) (Or.inl ⟨by rfl, rfl⟩) (by rfl)).2.1
      .ErrCLIExecution (by rfl))).trans (by rfl)⟩

/-- C21 fails as stated: this POST has a body that is valid JSON, with the member `user`
holding `hi` and no member named `provider`, and the default provider is registered; yet
`Generate` is not called: the key `PROVIDER` selects the field `provider` by case folding,
its value is a number, `Decode` returns an error and the answer is 400 `Invalid JSON`,
with the state of the provider as it was. -/
theorem HandlePrompt_valid_json_counterexample :
    parseJSON "\x7b\"user\":\"hi\",\"PROVIDER\":5\x7d".toList
      = some (.object [("user".toList, .string "hi".toList),
          ("PROVIDER".toList, .number "5".toList)]) ∧
    ((⟨[("claude".toList,
          ⟨fun _ _ n => if n = 0 then (([], some .ErrCLIExecution), 1)
            else (("4".toList, none), n + 1)⟩)],
        "claude".toList, "http://localhost:3000".toList,
        "You are a test assistant.".toList⟩ : StatefulHandler Nat).providers.lookup "claude".toList).isSome = true ∧
    ((⟨[("claude".toList,
          ⟨fun _ _ n => if n = 0 then (([], some .ErrCLIExecution), 1)
            else (("4".toList, none), n + 1)⟩)],
        "claude".toList, "http://localhost:3000".toList,
        "You are a test assistant.".toList⟩ : StatefulHandler Nat).HandlePrompt
      ⟨"POST".toList, "\x7b\"user\":\"hi\",\"PROVIDER\":5\x7d".toList⟩ 0).state = 0 ∧
    ((⟨[("claude".toList,
          ⟨fun _ _ n => if n = 0 then (([], some .ErrCLIExecution), 1)
            else (("4".toList, none), n + 1)⟩)],
        "claude".toList, "http://localhost:3000".toList,
        "You are a test assistant.".toList⟩ : StatefulHandler Nat).HandlePrompt
      ⟨"POST".toList, "\x7b\"user\":\"hi\",\"PROVIDER\":5\x7d".toList⟩ 0).w.Code = 400 ∧
    ((⟨[("claude".toList,
          ⟨fun _ _ n => if n = 0 then (([], some .ErrCLIExecution), 1)
            else (("4".toList, none), n + 1)⟩)],
        "claude".toList, "http://localhost:3000".toList,
        "You are a test assistant.".toList⟩ : StatefulHandler Nat).HandlePrompt
      ⟨"POST".toList, "\x7b\"user\":\"hi\",\"PROVIDER\":5\x7d".toList⟩ 0).w.Body
      = [.object [("error".toList, .string "Invalid JSON".toList)]] ∧
    ((⟨[("claude".toList,
          ⟨fun _ _ n => if n = 0 then (([], some .ErrCLIExecution), 1)
            else (("4".toList, none), n + 1)⟩)],
        "claude".toList, "http://localhost:3000".toList,
        "You are a test assistant.".toList⟩ : StatefulHandler Nat).HandlePrompt
      ⟨"POST".toList, "\x7b\"user\":\"hi\"\x7d".toList⟩ 0).state = 1 :=
  ⟨by rfl, by rfl, by rfl, by rfl, by rfl, by rfl⟩

end LocalAIToolProxy
